import Mathlib

/-!
# Rage bar and spell modifiers of the simulation core

A shallow embedding of the rage resource bar, of the two combat hooks of the `RageBar`
aura and of the rage cost of a spell (`sim/core/rage.go`), and of the spell modifiers
(`sim/core/spell_mod.go`), followed by the properties proved about them.

Modelling conventions.

* `float64` values are exact rationals (`ℚ`): every arithmetic operator of the source is
  the corresponding exact operator, so an expression of the model denotes the Go expression
  it mirrors.  Rounding, infinities and NaN are outside these definitions;
  `GetRageConversion_ne_zero` shows the divisor used by the hooks is never zero, and where
  a percent modifier divides by `1 + floatValue = 0` only facts that hold for both (the
  quotient is not the original value) are stated.  What holds of `ℚ` only because its
  arithmetic is exact (a subtraction cancelling an addition, a division cancelling a
  multiplication) is not claimed of `float64` fields: the section on `float64` arithmetic
  defines the rounded operations and the theorems on round trips give the `float64` values
  at which the cancellation fails.
* `int32` / `int64` / `time.Duration` values are integers; the one addition that can leave
  the 64-bit range (`sim.CurrentTime + time.Millisecond*1`) is wrapped explicitly.
* A Go `panic` is an `Except.error` that carries the message and the unit state at the
  moment of the panic, so that "nothing was mutated before the failure" can be stated.
* Calls into code that is not part of `rage.go` (`ResourceMetrics.AddEvent`, `Unit.Log`,
  `Unit.ReactToEvent`, `Unit.OnRageChange`, `StartDelayedAction`) are recorded, in call
  order, on the unit state; their bodies are not modelled.
* A `*Spell` pointer held by a modifier is the position of the spell in the list of the
  spells registered on the unit; the apply and remove functions of a modifier are functions
  from the values of the modifier and a spell to the rewritten spell.
-/

namespace core

/-! ## Data model -/

/-- The constant `MaxRage = 100.0`. -/
def MaxRage : ℚ := 100

/-- The constant `ThreatPerRageGained = 5`. -/
def ThreatPerRageGained : ℚ := 5

/-- The constant `time.Millisecond`, in nanoseconds (the unit of `time.Duration`). -/
def Millisecond : Int := 1000000

/-- Two's-complement wrap of an integer into the `int64` range, as Go does on overflow. -/
def wrapInt64 (x : Int) : Int := (x + 2 ^ 63) % 2 ^ 64 - 2 ^ 63

/-- The values of `proto.OtherAction` used by `rage.go`. -/
inductive OtherAction where
  | OtherActionNone
  | OtherActionDamageTaken
  | OtherActionRageGain
  | OtherActionRefund
  deriving DecidableEq, Repr

/-- The struct `ActionID`. -/
structure ActionID where
  SpellID : Int
  OtherID : OtherAction
  Tag : Int
  deriving DecidableEq, Repr

/-- Modelled from the spec: `ResourceMetrics` and its method `AddEvent` are declared outside
`rage.go`.  The spec describes it as an attribution bucket that identifies the cause of a
resource change; a handle is identified by the `ActionID` it was created for
(`unit.NewRageMetrics(actionID)`).  A value of this type is a non-nil handle. -/
structure ResourceMetrics where
  ActionID : ActionID
  deriving DecidableEq, Repr

/-- One call `metrics.AddEvent(gain, actualGain)`: the handle it was made on and its two
arguments. -/
structure MetricsEvent where
  metrics : ResourceMetrics
  gain : ℚ
  actualGain : ℚ
  deriving DecidableEq, Repr

/-- Calls made by the rage bar into the rest of the engine, other than `AddEvent`. -/
inductive Effect where
  /-- The call `rb.unit.Log(sim, "Gained ...", amount, metrics.ActionID, currentRage, newRage)`. -/
  | LogGained (amount : ℚ) (actionID : ActionID) (oldRage newRage : ℚ)
  /-- The call `rb.unit.Log(sim, "Spent ...", amount, metrics.ActionID, currentRage, newRage)`. -/
  | LogSpent (amount : ℚ) (actionID : ActionID) (oldRage newRage : ℚ)
  /-- The synchronous call `rb.unit.ReactToEvent(sim)`. -/
  | ReactToEvent
  /-- The call `StartDelayedAction(sim, DelayedActionOptions{DoAt, OnAction})` whose
  `OnAction` closure calls `rb.unit.OnRageChange(sim, metrics)`; the action is only
  scheduled here, not run. -/
  | StartDelayedAction (DoAt : Int) (metrics : ResourceMetrics)
  /-- The synchronous call `rb.unit.OnRageChange(sim, metrics)`. -/
  | OnRageChange (metrics : ResourceMetrics)
  deriving DecidableEq, Repr

/-- The part of `Simulation` read by `rage.go`: whether `sim.Log` is non-nil,
`sim.Options.Interactive` and `sim.CurrentTime` (nanoseconds). -/
structure Simulation where
  Log : Bool
  Interactive : Bool
  CurrentTime : Int
  deriving DecidableEq, Repr

/-- The struct `rageBar`.  The back pointer `unit` is kept as the flag `unit != nil`. -/
structure rageBar where
  unit : Bool
  damageDealtMultiplier : ℚ
  damageTakenMultiplier : ℚ
  flatDamageDealtBonusRage : ℚ
  flatDamageTakenBonusRage : ℚ
  startingRage : ℚ
  currentRage : ℚ
  RageRefundMetrics : Option ResourceMetrics
  deriving DecidableEq, Repr

/-- The struct `RageBarOptions`. -/
structure RageBarOptions where
  StartingRage : ℚ
  DamageDealtMultiplier : ℚ
  DamageTakenMultiplier : ℚ
  deriving DecidableEq, Repr

/-- The power bar kinds a unit can have active (`unit.GetCurrentPowerBar()`). -/
inductive PowerBarType where
  | None
  | ManaBar
  | EnergyBar
  | RageBar
  deriving DecidableEq, Repr

/-- The variables captured by the closures of the `RageBar` aura registered by
`EnableRageBar`: `rageConversion` and `rageFromDamageTakenMetrics`. -/
structure RageBarAura where
  rageConversion : ℚ
  rageFromDamageTakenMetrics : ResourceMetrics
  deriving DecidableEq, Repr

/-- The part of `Unit` touched by `rage.go`: its level, the active power bar, the embedded
`rageBar`, the registered `RageBar` aura, and the record of calls made into the metrics
sink (`events`) and into the rest of the engine (`effects`), oldest first. -/
structure Unit where
  Level : Int
  currentPowerBar : PowerBarType
  rageBar : rageBar
  rageBarAura : Option RageBarAura
  events : List MetricsEvent
  effects : List Effect
  deriving DecidableEq, Repr

/-- A Go panic: its message and the unit state at the moment it was raised. -/
structure Panic where
  msg : String
  state : Unit
  deriving DecidableEq, Repr

/-- The result of a call that either returns with a new unit state or panics. -/
abbrev Outcome := Except Panic Unit

/-! ## `GetRageConversion` -/

/-- The function `GetRageConversion`.  In Go `^` on integers is bitwise exclusive or, so
`attacker_level^2` is `attacker_level XOR 2`. -/
def GetRageConversion (attacker_level : Int) : ℚ :=
  if attacker_level = 25 then
    82.25
  else if attacker_level = 40 then
    140.5
  else if attacker_level < 45 then
    0.0215 * ((Int.xor attacker_level 2 : Int) : ℚ) + 2.66 * (attacker_level : ℚ) + 0.89
  else
    0.0091107836 * ((Int.xor attacker_level 2 : Int) : ℚ) + 3.225598133 * (attacker_level : ℚ)
      + 4.2652911

/-! ## The rage bar operations -/

/-- The method `rageBar.CurrentRage`, reached through the unit that embeds the bar. -/
def CurrentRage (unit : Unit) : ℚ :=
  unit.rageBar.currentRage

/-- The method `ResourceMetrics.AddEvent(gain, actualGain)` as seen from the rage bar: the
call is appended to the unit's record of metrics events. -/
def AddEvent (unit : Unit) (metrics : ResourceMetrics) (gain actualGain : ℚ) : Unit :=
  { unit with events := unit.events ++ [⟨metrics, gain, actualGain⟩] }

/-- Appends one call into the rest of the engine to the unit's record. -/
def emit (unit : Unit) (e : Effect) : Unit :=
  { unit with effects := unit.effects ++ [e] }

/-- The method `rageBar.AddRage`. -/
def AddRage (unit : Unit) (sim : Simulation) (amount : ℚ) (metrics : ResourceMetrics) :
    Outcome :=
  if amount < 0 then
    .error ⟨"Trying to add negative rage!", unit⟩
  else
    let newRage := min (unit.rageBar.currentRage + amount) MaxRage
    let unit₁ := AddEvent unit metrics amount (newRage - unit.rageBar.currentRage)
    let unit₂ :=
      if sim.Log then
        emit unit₁ (.LogGained amount metrics.ActionID unit.rageBar.currentRage newRage)
      else unit₁
    let unit₃ := { unit₂ with rageBar := { unit₂.rageBar with currentRage := newRage } }
    let unit₄ := if !sim.Interactive then emit unit₃ .ReactToEvent else unit₃
    .ok (emit unit₄ (.StartDelayedAction (wrapInt64 (sim.CurrentTime + Millisecond * 1)) metrics))

/-- The method `rageBar.SpendRage`. -/
def SpendRage (unit : Unit) (sim : Simulation) (amount : ℚ) (metrics : ResourceMetrics) :
    Outcome :=
  if amount < 0 then
    .error ⟨"Trying to spend negative rage!", unit⟩
  else
    let newRage := unit.rageBar.currentRage - amount
    let unit₁ := AddEvent unit metrics (-amount) (-amount)
    let unit₂ :=
      if sim.Log then
        emit unit₁ (.LogSpent amount metrics.ActionID unit.rageBar.currentRage newRage)
      else unit₁
    let unit₃ := { unit₂ with rageBar := { unit₂.rageBar with currentRage := newRage } }
    .ok (emit unit₃ (.OnRageChange metrics))

/-- The method `rageBar.reset`. -/
def reset (unit : Unit) (_sim : Simulation) : Unit :=
  if unit.rageBar.unit = false then
    unit
  else
    { unit with rageBar := { unit.rageBar with currentRage := unit.rageBar.startingRage } }

/-! ## `EnableRageBar` and the hooks of the `RageBar` aura -/

/-- The declarations of `flags.go` used by the hooks, which are not part of `rage.go`: the
outcome and proc-mask constants (bit masks) and the method `HitOutcome.Matches`. -/
structure Flags where
  OutcomeMiss : Nat
  OutcomeDodge : Nat
  OutcomeParry : Nat
  ProcMaskMeleeMHAuto : Nat
  ProcMaskMeleeOHAuto : Nat
  Matches : Nat → Nat → Bool

/-- The struct `RageCost`.  `ResourceMetrics` is always set by `newRageCost`. -/
structure RageCost where
  Refund : ℚ
  RefundMetrics : Option ResourceMetrics
  ResourceMetrics : ResourceMetrics
  deriving DecidableEq, Repr

/-- The interface value `SpellCost.SpellCostFunctions`: a `*RageCost` or the cost of
another resource type. -/
inductive SpellCostFunctions where
  | RageCost (rc : RageCost)
  | Other
  deriving DecidableEq, Repr

/-- The part of `SpellCost` read by `rage.go` and `spell_mod.go`.  `Multiplier` and
`FlatModifier` are `int32` fields. -/
structure SpellCost where
  BaseCost : ℚ
  Multiplier : Int
  FlatModifier : Int := 0
  SpellCostFunctions : SpellCostFunctions
  deriving DecidableEq, Repr

/-- The part of `Cast` touched by `rage.go` and `spell_mod.go`; `GCD` and `CastTime` are
`time.Duration` values (nanoseconds). -/
structure Cast where
  GCD : Int := 0
  Cost : ℚ := 0
  CastTime : Int := 0
  deriving DecidableEq, Repr

/-- The part of `Cooldown` touched by `spell_mod.go`; `FlatModifier` is a `time.Duration`. -/
structure Cooldown where
  FlatModifier : Int := 0
  Multiplier : ℚ := 0
  deriving DecidableEq, Repr

/-- The part of `Dot` touched by `spell_mod.go`: the `int32` field `NumberOfTicks` and the
`time.Duration` field `TickLength`. -/
structure Dot where
  NumberOfTicks : Int := 0
  TickLength : Int := 0
  deriving DecidableEq, Repr

/-- The part of the unit owning a spell (`spell.Unit`) read by the hooks. -/
structure SpellOwner where
  Level : Int
  deriving DecidableEq, Repr

/-- The part of `Spell` read by the hooks, by the rage cost and by the spell modifiers.
`Cost`, `ResourceMetrics`, `aoeDot` and the entries of `dots` are pointers that may be nil
(a nil `dots` slice is the empty list).  `Flags`, `SpellSchool` and `ProcMask` are unsigned
bit masks, `ClassSpellMask` is an `int64` bit mask.  The fields not needed by the hooks
default to the Go zero value. -/
structure Spell where
  ActionID : ActionID
  ProcMask : Nat
  Cost : Option SpellCost
  ResourceMetrics : Option ResourceMetrics
  Unit : SpellOwner
  Flags : Nat := 0
  ClassSpellMask : Int := 0
  SpellSchool : Nat := 0
  DefaultCast : Cast := {}
  CurCast : Cast := {}
  CD : Cooldown := {}
  DamageMultiplier : ℚ := 0
  DamageMultiplierAdditive : ℚ := 0
  BaseDamageMultiplierAdditive : ℚ := 0
  PeriodicDamageMultiplierAdditive : ℚ := 0
  ImpactDamageMultiplierAdditive : ℚ := 0
  CritDamageBonus : ℚ := 0
  CastTimeMultiplier : ℚ := 0
  BonusCritRating : ℚ := 0
  BonusHitRating : ℚ := 0
  BonusCoefficient : ℚ := 0
  BonusDamage : ℚ := 0
  dots : List (Option Dot) := []
  aoeDot : Option Dot := none
  deriving DecidableEq, Repr

/-- The part of `SpellResult` read by the hooks. -/
structure SpellResult where
  Outcome : Nat
  Damage : ℚ
  PreOutcomeDamage : ℚ
  deriving DecidableEq, Repr

/-- Modelled from the spec: `Unit.NewRageMetrics` is declared outside `rage.go`; it returns
the `ResourceMetrics` handle "tied to the ability's identity", here the handle of the given
`ActionID`. -/
def NewRageMetrics (actionID : ActionID) : ResourceMetrics :=
  ⟨actionID⟩

/-- The method `Unit.EnableRageBar`: makes rage the active power bar, registers the
`RageBar` aura (whose closures capture `rageConversion` and `rageFromDamageTakenMetrics`)
and installs a fresh `rageBar`.  The `OnInit` and `OnReset` closures of the aura and
the registration of the placeholder rage-gain spell touch nothing of the modelled state and
are left out. -/
def EnableRageBar (unit : Unit) (options : RageBarOptions) : Unit :=
  let rageFromDamageTakenMetrics := NewRageMetrics ⟨0, .OtherActionDamageTaken, 0⟩
  let rageConversion := GetRageConversion unit.Level
  { unit with
    currentPowerBar := .RageBar
    rageBarAura := some ⟨rageConversion, rageFromDamageTakenMetrics⟩
    rageBar :=
      { unit := true
        damageDealtMultiplier := options.DamageDealtMultiplier
        damageTakenMultiplier := options.DamageTakenMultiplier
        flatDamageDealtBonusRage := 0
        flatDamageTakenBonusRage := 0
        startingRage := max 0 (min options.StartingRage MaxRage)
        currentRage := 0
        RageRefundMetrics := some (NewRageMetrics ⟨0, .OtherActionRefund, 0⟩) } }

/-- The method `Unit.HasRageBar`. -/
def HasRageBar (unit : Unit) : Bool :=
  unit.rageBar.unit

/-- The method `Unit.AddDamageDealtRageMultiplier`. -/
def AddDamageDealtRageMultiplier (unit : Unit) (multi : ℚ) : Unit :=
  { unit with rageBar :=
      { unit.rageBar with damageDealtMultiplier := unit.rageBar.damageDealtMultiplier * multi } }

/-- The method `Unit.AddDamageTakenRageMultiplier`. -/
def AddDamageTakenRageMultiplier (unit : Unit) (multi : ℚ) : Unit :=
  { unit with rageBar :=
      { unit.rageBar with damageTakenMultiplier := unit.rageBar.damageTakenMultiplier * multi } }

/-- The method `Unit.AddDamageDealtRageBonus`. -/
def AddDamageDealtRageBonus (unit : Unit) (bonus : ℚ) : Unit :=
  { unit with rageBar :=
      { unit.rageBar with
        flatDamageDealtBonusRage := unit.rageBar.flatDamageDealtBonusRage + bonus } }

/-- The method `Unit.AddDamageTakenRageBonus`. -/
def AddDamageTakenRageBonus (unit : Unit) (bonus : ℚ) : Unit :=
  { unit with rageBar :=
      { unit.rageBar with
        flatDamageTakenBonusRage := unit.rageBar.flatDamageTakenBonusRage + bonus } }

/-- The local `metrics` of the `OnSpellHitDealt` closure (lines 96-105): the metrics of the
spell's rage cost when the spell has a cost, the spell's own `ResourceMetrics` otherwise.
The type assertion `.(*RageCost)` and the explicit nil check are the two panics; the
formatted action id is left out of the second message. -/
def hitDealtMetrics (unit : Unit) (spell : Spell) : Except Panic ResourceMetrics :=
  match spell.Cost with
  | some cost =>
    match cost.SpellCostFunctions with
    | .RageCost rc => .ok rc.ResourceMetrics
    | .Other => .error ⟨"interface conversion: SpellCostFunctions is not *RageCost", unit⟩
  | none =>
    match spell.ResourceMetrics with
    | none => .error ⟨"Spell ResourceMetrics are nil for spell", unit⟩
    | some metrics => .ok metrics

/-- The closure `OnSpellHitDealt` of the `RageBar` aura. -/
def OnSpellHitDealt (flags : Flags) (aura : RageBarAura) (unit : Unit) (sim : Simulation)
    (spell : Spell) (result : SpellResult) : Outcome :=
  if unit.currentPowerBar ≠ .RageBar then
    .ok unit
  else if flags.Matches result.Outcome flags.OutcomeMiss then
    .ok unit
  else if spell.ProcMask ≠ flags.ProcMaskMeleeMHAuto ∧
      spell.ProcMask ≠ flags.ProcMaskMeleeOHAuto then
    .ok unit
  else
    let damage :=
      if flags.Matches result.Outcome (flags.OutcomeDodge ||| flags.OutcomeParry) then
        result.PreOutcomeDamage
      else result.Damage
    let generatedRage := damage * 7.5 / aura.rageConversion
    let generatedRage := generatedRage * unit.rageBar.damageDealtMultiplier
    let generatedRage := generatedRage + unit.rageBar.flatDamageDealtBonusRage
    match hitDealtMetrics unit spell with
    | .error p => .error p
    | .ok metrics => AddRage unit sim generatedRage metrics

/-- The closure `OnSpellHitTaken` of the `RageBar` aura. -/
def OnSpellHitTaken (aura : RageBarAura) (unit : Unit) (sim : Simulation) (spell : Spell)
    (result : SpellResult) : Outcome :=
  if unit.currentPowerBar ≠ .RageBar then
    .ok unit
  else
    let rageConversionDamageTaken := GetRageConversion spell.Unit.Level
    let generatedRage := result.Damage * 2.5 / rageConversionDamageTaken
    let generatedRage := generatedRage * unit.rageBar.damageTakenMultiplier
    let generatedRage := generatedRage + unit.rageBar.flatDamageTakenBonusRage
    AddRage unit sim generatedRage aura.rageFromDamageTakenMetrics

/-! ## Sequences of calls on the rage bar -/

/-- One call on the rage bar of a unit. -/
inductive RageCall where
  | AddRage (sim : Simulation) (amount : ℚ) (metrics : ResourceMetrics)
  | SpendRage (sim : Simulation) (amount : ℚ) (metrics : ResourceMetrics)
  | reset (sim : Simulation)
  deriving DecidableEq, Repr

/-- The amount argument of a call (zero for `reset`, which has none). -/
def RageCall.amount : RageCall → ℚ
  | .AddRage _ amount _ => amount
  | .SpendRage _ amount _ => amount
  | .reset _ => 0

/-- Whether the call is an `AddRage`. -/
def RageCall.isAddRage : RageCall → Bool
  | .AddRage _ _ _ => true
  | _ => false

/-- Makes one call on the unit. -/
def RageCall.run (unit : Unit) : RageCall → Outcome
  | .AddRage sim amount metrics => core.AddRage unit sim amount metrics
  | .SpendRage sim amount metrics => core.SpendRage unit sim amount metrics
  | .reset sim => .ok (core.reset unit sim)

/-- Makes the calls of a list one after the other; a panic stops the run. -/
def runCalls (unit : Unit) : List RageCall → Outcome
  | [] => .ok unit
  | call :: rest =>
    match call.run unit with
    | .ok unit₁ => runCalls unit₁ rest
    | .error p => .error p

/-- Every `SpendRage` of the list asks for at most the rage the bar holds when the call is
made (the caller checked `MeetsRequirement` first). -/
def spendsAffordable (unit : Unit) : List RageCall → Bool
  | [] => true
  | call :: rest =>
    (match call with
      | .SpendRage _ amount _ => decide (amount ≤ unit.rageBar.currentRage)
      | _ => true) &&
    (match call.run unit with
      | .ok unit₁ => spendsAffordable unit₁ rest
      | .error _ => true)

/-! ## The rage cost of a spell (`RageCost`) -/

/-- The struct `RageCostOptions`; `RefundMetrics` is optional. -/
structure RageCostOptions where
  Cost : ℚ
  Refund : ℚ
  RefundMetrics : Option ResourceMetrics
  deriving DecidableEq, Repr

/-- The function `newRageCost`.  `unit` is `spell.Unit`, the unit owning the spell, so
`spell.Unit.RageRefundMetrics` is the field of its embedded rage bar.  The back pointer
`SpellCost.spell` is left out. -/
def newRageCost (unit : Unit) (spell : Spell) (options : RageCostOptions) : SpellCost :=
  let options :=
    if options.Refund > 0 ∧ options.RefundMetrics = none then
      { options with RefundMetrics := unit.rageBar.RageRefundMetrics }
    else options
  { BaseCost := options.Cost
    Multiplier := 100
    SpellCostFunctions :=
      .RageCost
        { Refund := options.Refund * options.Cost
          RefundMetrics := options.RefundMetrics
          ResourceMetrics := NewRageMetrics spell.ActionID } }

/-- The method `RageCost.MeetsRequirement`.  `unit` is `spell.Unit`; the method
`SpellCost.GetCurrentCost` is declared outside `rage.go` and is the parameter
`GetCurrentCost`.  The result is the returned boolean, the spell (whose `CurCast.Cost` is
written) and the unit.  A spell without a cost is a nil dereference. -/
def RageCost.MeetsRequirement (_rc : RageCost) (GetCurrentCost : SpellCost → ℚ) (unit : Unit)
    (spell : Spell) : Except Panic (Bool × Spell × Unit) :=
  match spell.Cost with
  | none => .error ⟨"invalid memory address or nil pointer dereference", unit⟩
  | some cost =>
    let spell₁ := { spell with CurCast := { spell.CurCast with Cost := GetCurrentCost cost } }
    .ok (decide (CurrentRage unit ≥ spell₁.CurCast.Cost), spell₁, unit)

/-- The method `RageCost.SpendCost`; `unit` is `spell.Unit`. -/
def RageCost.SpendCost (rc : RageCost) (unit : Unit) (sim : Simulation) (spell : Spell) :
    Outcome :=
  if spell.CurCast.Cost > 0 then
    SpendRage unit sim spell.CurCast.Cost rc.ResourceMetrics
  else
    .ok unit

/-- The `RageCost` behind a spell cost (the type assertion
`SpellCostFunctions.(*RageCost)`), when the cost is a rage cost. -/
def SpellCost.rageCost (cost : SpellCost) : Option RageCost :=
  match cost.SpellCostFunctions with
  | .RageCost rc => some rc
  | .Other => none

/-! ## Spell modifiers (`sim/core/spell_mod.go`)

The spells of a unit are kept in registration order; a `*Spell` pointer is the position of
the spell in that list.  A modifier and the spells it can reach form a `ModState`, which
also records, in call order, every invocation of the modifier's `Apply` and `Remove`. -/

/-- Two's-complement wrap of an integer into the `int32` range: the `int32(...)` conversion
and `int32` arithmetic of Go. -/
def wrapInt32 (x : Int) : Int := (x + 2 ^ 31) % 2 ^ 32 - 2 ^ 31

/-- The type `SpellModType`, a `uint32`. -/
abbrev SpellModType := Nat

/-- The constant `SpellMod_DamageDone_Pct`, value `1 << 0`. -/
def SpellMod_DamageDone_Pct : SpellModType := 1 <<< 0

/-- The constant `SpellMod_DamageDone_Flat`, value `1 << 1`. -/
def SpellMod_DamageDone_Flat : SpellModType := 1 <<< 1

/-- The constant `SpellMod_BaseDamageDone_Flat`, value `1 << 2`. -/
def SpellMod_BaseDamageDone_Flat : SpellModType := 1 <<< 2

/-- The constant `SpellMod_PeriodicDamageDone_Flat`, value `1 << 3`. -/
def SpellMod_PeriodicDamageDone_Flat : SpellModType := 1 <<< 3

/-- The constant `SpellMod_ImpactDamageDone_Flat`, value `1 << 4`. -/
def SpellMod_ImpactDamageDone_Flat : SpellModType := 1 <<< 4

/-- The constant `SpellMod_CritDamageBonus_Flat`, value `1 << 5`. -/
def SpellMod_CritDamageBonus_Flat : SpellModType := 1 <<< 5

/-- The constant `SpellMod_PowerCost_Pct`, value `1 << 6`. -/
def SpellMod_PowerCost_Pct : SpellModType := 1 <<< 6

/-- The constant `SpellMod_PowerCost_Flat`, value `1 << 7`. -/
def SpellMod_PowerCost_Flat : SpellModType := 1 <<< 7

/-- The constant `SpellMod_Cooldown_Flat`, value `1 << 8`. -/
def SpellMod_Cooldown_Flat : SpellModType := 1 <<< 8

/-- The constant `SpellMod_Cooldown_Multi_Flat`, value `1 << 9`. -/
def SpellMod_Cooldown_Multi_Flat : SpellModType := 1 <<< 9

/-- The constant `SpellMod_Cooldown_Multi_Pct`, value `1 << 10`. -/
def SpellMod_Cooldown_Multi_Pct : SpellModType := 1 <<< 10

/-- The constant `SpellMod_BonusCrit_Flat`, value `1 << 11`. -/
def SpellMod_BonusCrit_Flat : SpellModType := 1 <<< 11

/-- The constant `SpellMod_BonusHit_Flat`, value `1 << 12`. -/
def SpellMod_BonusHit_Flat : SpellModType := 1 <<< 12

/-- The constant `SpellMod_CastTime_Pct`, value `1 << 13`. -/
def SpellMod_CastTime_Pct : SpellModType := 1 <<< 13

/-- The constant `SpellMod_CastTime_Flat`, value `1 << 14`. -/
def SpellMod_CastTime_Flat : SpellModType := 1 <<< 14

/-- The constant `SpellMod_DotNumberOfTicks_Flat`, value `1 << 15`. -/
def SpellMod_DotNumberOfTicks_Flat : SpellModType := 1 <<< 15

/-- The constant `SpellMod_DotTickLength_Flat`, value `1 << 16`. -/
def SpellMod_DotTickLength_Flat : SpellModType := 1 <<< 16

/-- The constant `SpellMod_GlobalCooldown_Flat`, value `1 << 17`. -/
def SpellMod_GlobalCooldown_Flat : SpellModType := 1 <<< 17

/-- The constant `SpellMod_BonusCoeffecient_Flat`, value `1 << 18`. -/
def SpellMod_BonusCoeffecient_Flat : SpellModType := 1 <<< 18

/-- The constant `SpellMod_AllowCastWhileMoving`, value `1 << 19`. -/
def SpellMod_AllowCastWhileMoving : SpellModType := 1 <<< 19

/-- The constant `SpellMod_BonusDamage_Flat`, value `1 << 20`. -/
def SpellMod_BonusDamage_Flat : SpellModType := 1 <<< 20

/-- The constant `SpellMod_BonusExpertise_Rating`, value `1 << 21`. -/
def SpellMod_BonusExpertise_Rating : SpellModType := 1 <<< 21

/-- The constant `SpellMod_DebuffDuration_Flat`, value `1 << 22`. -/
def SpellMod_DebuffDuration_Flat : SpellModType := 1 <<< 22

/-- The constant `SpellMod_BuffDuration_Flat`, value `1 << 23`. -/
def SpellMod_BuffDuration_Flat : SpellModType := 1 <<< 23

/-- The constant `SpellMod_Custom`, value `1 << 24`. -/
def SpellMod_Custom : SpellModType := 1 <<< 24

/-- The fields of a `SpellMod` read by the apply and remove functions: `floatValue`,
`intValue` (`int64`), `timeValue` (`time.Duration`) and `keyValue`. -/
structure SpellModValues where
  floatValue : ℚ := 0
  intValue : Int := 0
  timeValue : Int := 0
  keyValue : String := ""
  deriving DecidableEq, Repr

/-- The type `SpellModApply`, `func(mod *SpellMod, spell *Spell)`: the function reads the
values of the mod and rewrites the spell. -/
abbrev SpellModApply := SpellModValues → Spell → Spell

/-- The type `SpellModRemove`. -/
abbrev SpellModRemove := SpellModValues → Spell → Spell

/-- The struct `SpellModFunctions`; either function may be nil. -/
structure SpellModFunctions where
  Apply : Option SpellModApply
  Remove : Option SpellModRemove

/-- The struct `SpellModConfig`. -/
structure SpellModConfig where
  ClassMask : Int := 0
  Kind : SpellModType
  School : Nat := 0
  ProcMask : Nat := 0
  IntValue : Int := 0
  TimeValue : Int := 0
  FloatValue : ℚ := 0
  KeyValue : String := ""
  ApplyCustom : Option SpellModApply := none
  RemoveCustom : Option SpellModRemove := none

/-- The struct `SpellMod`.  `AffectedSpells` holds the pointers (positions in the unit's
spell list) of the matched spells. -/
structure SpellMod where
  ClassMask : Int
  Kind : SpellModType
  School : Nat
  ProcMask : Nat
  floatValue : ℚ
  intValue : Int
  timeValue : Int
  keyValue : String
  Apply : SpellModApply
  Remove : SpellModRemove
  IsActive : Bool
  AffectedSpells : List Nat

/-- The values of a mod, as passed to its `Apply` and `Remove`. -/
def SpellMod.values (mod : SpellMod) : SpellModValues :=
  { floatValue := mod.floatValue, intValue := mod.intValue, timeValue := mod.timeValue,
    keyValue := mod.keyValue }

/-- The function `applyDamageDonePercent`. -/
def applyDamageDonePercent (mod : SpellModValues) (spell : Spell) : Spell :=
  { spell with DamageMultiplier := spell.DamageMultiplier * (1 + mod.floatValue) }

/-- The function `removeDamageDonePercent`. -/
def removeDamageDonePercent (mod : SpellModValues) (spell : Spell) : Spell :=
  { spell with DamageMultiplier := spell.DamageMultiplier / (1 + mod.floatValue) }

/-- The function `applyDamageDoneAdd`. -/
def applyDamageDoneAdd (mod : SpellModValues) (spell : Spell) : Spell :=
  { spell with DamageMultiplierAdditive := spell.DamageMultiplierAdditive + mod.floatValue }

/-- The function `removeDamageDoneAdd`. -/
def removeDamageDoneAdd (mod : SpellModValues) (spell : Spell) : Spell :=
  { spell with DamageMultiplierAdditive := spell.DamageMultiplierAdditive - mod.floatValue }

/-- The function `applyBaseDamageDoneAdd`. -/
def applyBaseDamageDoneAdd (mod : SpellModValues) (spell : Spell) : Spell :=
  { spell with BaseDamageMultiplierAdditive := spell.BaseDamageMultiplierAdditive + mod.floatValue }

/-- The function `removeBaseDamageDoneAdd`. -/
def removeBaseDamageDoneAdd (mod : SpellModValues) (spell : Spell) : Spell :=
  { spell with BaseDamageMultiplierAdditive := spell.BaseDamageMultiplierAdditive - mod.floatValue }

/-- The method `Spell.Dots`, declared outside `spell_mod.go`: the accessor of `spell.dots`. -/
def Spell.Dots (spell : Spell) : List (Option Dot) :=
  spell.dots

/-- The function `applyPeriodicDamageDoneAdd`. -/
def applyPeriodicDamageDoneAdd (mod : SpellModValues) (spell : Spell) : Spell :=
  if spell.Dots.length > 0 then
    { spell with
      PeriodicDamageMultiplierAdditive := spell.PeriodicDamageMultiplierAdditive + mod.floatValue }
  else spell

/-- The function `removePeriodicDamageDoneAdd`. -/
def removePeriodicDamageDoneAdd (mod : SpellModValues) (spell : Spell) : Spell :=
  if spell.Dots.length > 0 then
    { spell with
      PeriodicDamageMultiplierAdditive := spell.PeriodicDamageMultiplierAdditive - mod.floatValue }
  else spell

/-- The function `applyImpactDamageDoneAdd`. -/
def applyImpactDamageDoneAdd (mod : SpellModValues) (spell : Spell) : Spell :=
  { spell with ImpactDamageMultiplierAdditive := spell.ImpactDamageMultiplierAdditive + mod.floatValue }

/-- The function `removeImpactDamageDoneAdd`. -/
def removeImpactDamageDoneAdd (mod : SpellModValues) (spell : Spell) : Spell :=
  { spell with ImpactDamageMultiplierAdditive := spell.ImpactDamageMultiplierAdditive - mod.floatValue }

/-- The function `applyCritDamageBonusAdd`. -/
def applyCritDamageBonusAdd (mod : SpellModValues) (spell : Spell) : Spell :=
  { spell with CritDamageBonus := spell.CritDamageBonus + mod.floatValue }

/-- The function `removeCritDamageBonusAdd`. -/
def removeCritDamageBonusAdd (mod : SpellModValues) (spell : Spell) : Spell :=
  { spell with CritDamageBonus := spell.CritDamageBonus - mod.floatValue }

/-- The function `applyPowerCostPercent`: an `int32` addition of `int32(mod.intValue)`. -/
def applyPowerCostPercent (mod : SpellModValues) (spell : Spell) : Spell :=
  match spell.Cost with
  | some cost =>
    { spell with
      Cost := some { cost with Multiplier := wrapInt32 (cost.Multiplier + wrapInt32 mod.intValue) } }
  | none => spell

/-- The function `removePowerCostPercent`. -/
def removePowerCostPercent (mod : SpellModValues) (spell : Spell) : Spell :=
  match spell.Cost with
  | some cost =>
    { spell with
      Cost := some { cost with Multiplier := wrapInt32 (cost.Multiplier - wrapInt32 mod.intValue) } }
  | none => spell

/-- The function `applyPowerCostFlat`. -/
def applyPowerCostFlat (mod : SpellModValues) (spell : Spell) : Spell :=
  match spell.Cost with
  | some cost =>
    { spell with
      Cost :=
        some { cost with FlatModifier := wrapInt32 (cost.FlatModifier + wrapInt32 mod.intValue) } }
  | none => spell

/-- The function `removePowerCostFlat`. -/
def removePowerCostFlat (mod : SpellModValues) (spell : Spell) : Spell :=
  match spell.Cost with
  | some cost =>
    { spell with
      Cost :=
        some { cost with FlatModifier := wrapInt32 (cost.FlatModifier - wrapInt32 mod.intValue) } }
  | none => spell

/-- The function `applyCooldownFlat`: an `int64` addition of durations. -/
def applyCooldownFlat (mod : SpellModValues) (spell : Spell) : Spell :=
  { spell with CD := { spell.CD with FlatModifier := wrapInt64 (spell.CD.FlatModifier + mod.timeValue) } }

/-- The function `removeCooldownFlat`. -/
def removeCooldownFlat (mod : SpellModValues) (spell : Spell) : Spell :=
  { spell with CD := { spell.CD with FlatModifier := wrapInt64 (spell.CD.FlatModifier - mod.timeValue) } }

/-- The function `applyCooldownMultiplierFlat`. -/
def applyCooldownMultiplierFlat (mod : SpellModValues) (spell : Spell) : Spell :=
  { spell with CD := { spell.CD with Multiplier := spell.CD.Multiplier + mod.floatValue } }

/-- The function `removeCooldownMultiplierFlat`. -/
def removeCooldownMultiplierFlat (mod : SpellModValues) (spell : Spell) : Spell :=
  { spell with CD := { spell.CD with Multiplier := spell.CD.Multiplier - mod.floatValue } }

/-- The function `applyCooldownMultiplierPct`. -/
def applyCooldownMultiplierPct (mod : SpellModValues) (spell : Spell) : Spell :=
  { spell with CD := { spell.CD with Multiplier := spell.CD.Multiplier * (1 + mod.floatValue) } }

/-- The function `removeCooldownMultiplierPct`. -/
def removeCooldownMultiplierPct (mod : SpellModValues) (spell : Spell) : Spell :=
  { spell with CD := { spell.CD with Multiplier := spell.CD.Multiplier / (1 + mod.floatValue) } }

/-- The function `applyCastTimePercent`. -/
def applyCastTimePercent (mod : SpellModValues) (spell : Spell) : Spell :=
  { spell with CastTimeMultiplier := spell.CastTimeMultiplier + mod.floatValue }

/-- The function `removeCastTimePercent`. -/
def removeCastTimePercent (mod : SpellModValues) (spell : Spell) : Spell :=
  { spell with CastTimeMultiplier := spell.CastTimeMultiplier - mod.floatValue }

/-- The function `applyCastTimeFlat`. -/
def applyCastTimeFlat (mod : SpellModValues) (spell : Spell) : Spell :=
  { spell with
    DefaultCast :=
      { spell.DefaultCast with CastTime := wrapInt64 (spell.DefaultCast.CastTime + mod.timeValue) } }

/-- The function `removeCastTimeFlat`. -/
def removeCastTimeFlat (mod : SpellModValues) (spell : Spell) : Spell :=
  { spell with
    DefaultCast :=
      { spell.DefaultCast with CastTime := wrapInt64 (spell.DefaultCast.CastTime - mod.timeValue) } }

/-- The function `applyBonusCritFlat`. -/
def applyBonusCritFlat (mod : SpellModValues) (spell : Spell) : Spell :=
  { spell with BonusCritRating := spell.BonusCritRating + mod.floatValue }

/-- The function `removeBonusCritFlat`. -/
def removeBonusCritFlat (mod : SpellModValues) (spell : Spell) : Spell :=
  { spell with BonusCritRating := spell.BonusCritRating - mod.floatValue }

/-- The function `applyBonusHitFlat`. -/
def applyBonusHitFlat (mod : SpellModValues) (spell : Spell) : Spell :=
  { spell with BonusHitRating := spell.BonusHitRating + mod.floatValue }

/-- The function `removeBonusHitFlat`. -/
def removeBonusHitFlat (mod : SpellModValues) (spell : Spell) : Spell :=
  { spell with BonusHitRating := spell.BonusHitRating - mod.floatValue }

/-- The function `applyDotNumberOfTicks`: every non-nil dot of `spell.dots`, then the
`aoeDot` when it is not nil. -/
def applyDotNumberOfTicks (mod : SpellModValues) (spell : Spell) : Spell :=
  { spell with
    dots :=
      spell.dots.map (Option.map fun dot =>
        { dot with NumberOfTicks := wrapInt32 (dot.NumberOfTicks + wrapInt32 mod.intValue) })
    aoeDot :=
      spell.aoeDot.map fun dot =>
        { dot with NumberOfTicks := wrapInt32 (dot.NumberOfTicks + wrapInt32 mod.intValue) } }

/-- The function `removeDotNumberOfTicks`. -/
def removeDotNumberOfTicks (mod : SpellModValues) (spell : Spell) : Spell :=
  { spell with
    dots :=
      spell.dots.map (Option.map fun dot =>
        { dot with NumberOfTicks := wrapInt32 (dot.NumberOfTicks - wrapInt32 mod.intValue) })
    aoeDot :=
      spell.aoeDot.map fun dot =>
        { dot with NumberOfTicks := wrapInt32 (dot.NumberOfTicks - wrapInt32 mod.intValue) } }

/-- The function `applyDotTickLengthFlat`. -/
def applyDotTickLengthFlat (mod : SpellModValues) (spell : Spell) : Spell :=
  { spell with
    dots :=
      spell.dots.map (Option.map fun dot =>
        { dot with TickLength := wrapInt64 (dot.TickLength + mod.timeValue) })
    aoeDot :=
      spell.aoeDot.map fun dot =>
        { dot with TickLength := wrapInt64 (dot.TickLength + mod.timeValue) } }

/-- The function `removeDotTickLengthFlat`. -/
def removeDotTickLengthFlat (mod : SpellModValues) (spell : Spell) : Spell :=
  { spell with
    dots :=
      spell.dots.map (Option.map fun dot =>
        { dot with TickLength := wrapInt64 (dot.TickLength - mod.timeValue) })
    aoeDot :=
      spell.aoeDot.map fun dot =>
        { dot with TickLength := wrapInt64 (dot.TickLength - mod.timeValue) } }

/-- The function `applyGlobalCooldownFlat`. -/
def applyGlobalCooldownFlat (mod : SpellModValues) (spell : Spell) : Spell :=
  { spell with
    DefaultCast := { spell.DefaultCast with GCD := wrapInt64 (spell.DefaultCast.GCD + mod.timeValue) } }

/-- The function `removeGlobalCooldownFlat`. -/
def removeGlobalCooldownFlat (mod : SpellModValues) (spell : Spell) : Spell :=
  { spell with
    DefaultCast := { spell.DefaultCast with GCD := wrapInt64 (spell.DefaultCast.GCD - mod.timeValue) } }

/-- The function `applyBonusCoefficientFlat`. -/
def applyBonusCoefficientFlat (mod : SpellModValues) (spell : Spell) : Spell :=
  { spell with BonusCoefficient := spell.BonusCoefficient + mod.floatValue }

/-- The function `removeBonusCoefficientFlat`. -/
def removeBonusCoefficientFlat (mod : SpellModValues) (spell : Spell) : Spell :=
  { spell with BonusCoefficient := spell.BonusCoefficient - mod.floatValue }

/-- The function `applyBonusDamageFlat`. -/
def applyBonusDamageFlat (mod : SpellModValues) (spell : Spell) : Spell :=
  { spell with BonusDamage := spell.BonusDamage + mod.floatValue }

/-- The function `removeBonusDamageFlat`. -/
def removeBonusDamageFlat (mod : SpellModValues) (spell : Spell) : Spell :=
  { spell with BonusDamage := spell.BonusDamage - mod.floatValue }

/-- The map `spellModMap`: the entries of the Go map literal, in its order; a kind that is
not a key has no entry.  The entry of `SpellMod_Custom` is the empty struct literal, both
functions nil. -/
def spellModMap (kind : SpellModType) : Option SpellModFunctions :=
  if kind = SpellMod_DamageDone_Pct then
    some ⟨some applyDamageDonePercent, some removeDamageDonePercent⟩
  else if kind = SpellMod_DamageDone_Flat then
    some ⟨some applyDamageDoneAdd, some removeDamageDoneAdd⟩
  else if kind = SpellMod_BaseDamageDone_Flat then
    some ⟨some applyBaseDamageDoneAdd, some removeBaseDamageDoneAdd⟩
  else if kind = SpellMod_PeriodicDamageDone_Flat then
    some ⟨some applyPeriodicDamageDoneAdd, some removePeriodicDamageDoneAdd⟩
  else if kind = SpellMod_ImpactDamageDone_Flat then
    some ⟨some applyImpactDamageDoneAdd, some removeImpactDamageDoneAdd⟩
  else if kind = SpellMod_CritDamageBonus_Flat then
    some ⟨some applyCritDamageBonusAdd, some removeCritDamageBonusAdd⟩
  else if kind = SpellMod_PowerCost_Pct then
    some ⟨some applyPowerCostPercent, some removePowerCostPercent⟩
  else if kind = SpellMod_PowerCost_Flat then
    some ⟨some applyPowerCostFlat, some removePowerCostFlat⟩
  else if kind = SpellMod_Cooldown_Flat then
    some ⟨some applyCooldownFlat, some removeCooldownFlat⟩
  else if kind = SpellMod_Cooldown_Multi_Flat then
    some ⟨some applyCooldownMultiplierFlat, some removeCooldownMultiplierFlat⟩
  else if kind = SpellMod_Cooldown_Multi_Pct then
    some ⟨some applyCooldownMultiplierPct, some removeCooldownMultiplierPct⟩
  else if kind = SpellMod_CastTime_Pct then
    some ⟨some applyCastTimePercent, some removeCastTimePercent⟩
  else if kind = SpellMod_CastTime_Flat then
    some ⟨some applyCastTimeFlat, some removeCastTimeFlat⟩
  else if kind = SpellMod_BonusCrit_Flat then
    some ⟨some applyBonusCritFlat, some removeBonusCritFlat⟩
  else if kind = SpellMod_BonusHit_Flat then
    some ⟨some applyBonusHitFlat, some removeBonusHitFlat⟩
  else if kind = SpellMod_DotNumberOfTicks_Flat then
    some ⟨some applyDotNumberOfTicks, some removeDotNumberOfTicks⟩
  else if kind = SpellMod_DotTickLength_Flat then
    some ⟨some applyDotTickLengthFlat, some removeDotTickLengthFlat⟩
  else if kind = SpellMod_GlobalCooldown_Flat then
    some ⟨some applyGlobalCooldownFlat, some removeGlobalCooldownFlat⟩
  else if kind = SpellMod_BonusCoeffecient_Flat then
    some ⟨some applyBonusCoefficientFlat, some removeBonusCoefficientFlat⟩
  else if kind = SpellMod_BonusDamage_Flat then
    some ⟨some applyBonusDamageFlat, some removeBonusDamageFlat⟩
  else if kind = SpellMod_Custom then
    some ⟨none, none⟩
  else
    none

/-- The function `buildMod`, without the registration of the callback on the unit (the
callback is `onSpellRegistered` below; what the call `unit.OnSpellRegistered` of
`spell_mod.go:82` does with it is `ModState.init` and `RegisterSpell`, both modelled from
the spec).  A table entry of a kind other than
`SpellMod_Custom` never has a nil function (`spellModMap_roundTrips`), so the identity used
in place of a nil function is never taken. -/
def buildMod (config : SpellModConfig) : Except String SpellMod :=
  match spellModMap config.Kind with
  | none => .error ("SpellMod " ++ toString config.Kind ++ " not implmented")
  | some functions =>
    if config.Kind = SpellMod_Custom then
      match config.ApplyCustom, config.RemoveCustom with
      | some applyFn, some removeFn =>
        .ok
          { ClassMask := config.ClassMask, Kind := config.Kind, School := config.School,
            ProcMask := config.ProcMask, floatValue := config.FloatValue,
            intValue := config.IntValue, timeValue := config.TimeValue,
            keyValue := config.KeyValue, Apply := applyFn, Remove := removeFn,
            IsActive := false, AffectedSpells := [] }
      | _, _ => .error "ApplyCustom and RemoveCustom are mandatory fields for SpellMod_Custom"
    else
      .ok
        { ClassMask := config.ClassMask, Kind := config.Kind, School := config.School,
          ProcMask := config.ProcMask, floatValue := config.FloatValue,
          intValue := config.IntValue, timeValue := config.TimeValue,
          keyValue := config.KeyValue,
          Apply := functions.Apply.getD (fun _ spell => spell),
          Remove := functions.Remove.getD (fun _ spell => spell),
          IsActive := false, AffectedSpells := [] }

/-- Modelled from the spec: the `Matches` methods of `SpellFlag`, `SpellSchool` and
`ProcMask` are declared outside `spell_mod.go`; the spec has capability tags "compared via
bitwise AND": two masks match when they share a bit. -/
def maskMatches (mask other : Nat) : Bool :=
  (mask &&& other) != 0

/-- Modelled from the spec: the method `Spell.Matches(classMask int64)` is declared outside
`spell_mod.go`; the spell's `ClassSpellMask` and the given mask match when they share a
bit. -/
def Spell.Matches (spell : Spell) (classMask : Int) : Bool :=
  Int.land spell.ClassSpellMask classMask != 0

/-- The function `shouldApply`.  The constant `SpellFlagNoSpellMods` is declared outside
`spell_mod.go` and is a parameter. -/
def shouldApply (SpellFlagNoSpellMods : Nat) (spell : Spell) (mod : SpellMod) : Bool :=
  if maskMatches spell.Flags SpellFlagNoSpellMods then
    false
  else if mod.ClassMask > 0 ∧ ¬ spell.Matches mod.ClassMask then
    false
  else if mod.School > 0 ∧ ¬ maskMatches mod.School spell.SpellSchool then
    false
  else if mod.ProcMask > 0 ∧ ¬ maskMatches mod.ProcMask spell.ProcMask then
    false
  else
    true

/-- One invocation of the `Apply` or of the `Remove` of a mod on the spell at a position. -/
inductive ModCall where
  | Apply (spell : Nat)
  | Remove (spell : Nat)
  deriving DecidableEq, Repr

/-- A mod together with the spells registered on its unit (in registration order) and the
record of the invocations of its `Apply` and `Remove`, oldest first. -/
structure ModState where
  spells : List Spell
  mod : SpellMod
  calls : List ModCall

/-- Rewrites the spell behind a pointer: the spell at position `idx` becomes `f spell`. -/
def modifySpell (f : Spell → Spell) : List Spell → Nat → List Spell
  | [], _ => []
  | spell :: rest, 0 => f spell :: rest
  | spell :: rest, idx + 1 => spell :: modifySpell f rest idx

/-- The loop `for _, spell := range affected { f(mod, spell) }` over a list of pointers. -/
def forEachSpell (f : Spell → Spell) (affected : List Nat) (spells : List Spell) : List Spell :=
  affected.foldl (modifySpell f) spells

/-- The method `SpellMod.Activate`. -/
def Activate (st : ModState) : ModState :=
  if st.mod.IsActive then
    st
  else
    { spells := forEachSpell (st.mod.Apply st.mod.values) st.mod.AffectedSpells st.spells
      mod := { st.mod with IsActive := true }
      calls := st.calls ++ st.mod.AffectedSpells.map ModCall.Apply }

/-- The method `SpellMod.Deactivate`. -/
def Deactivate (st : ModState) : ModState :=
  if ¬ st.mod.IsActive then
    st
  else
    { spells := forEachSpell (st.mod.Remove st.mod.values) st.mod.AffectedSpells st.spells
      mod := { st.mod with IsActive := false }
      calls := st.calls ++ st.mod.AffectedSpells.map ModCall.Remove }

/-- The method `SpellMod.UpdateIntValue`. -/
def UpdateIntValue (st : ModState) (value : Int) : ModState :=
  if st.mod.IsActive then
    let st₁ := Deactivate st
    Activate { st₁ with mod := { st₁.mod with intValue := value } }
  else
    { st with mod := { st.mod with intValue := value } }

/-- The method `SpellMod.UpdateTimeValue`. -/
def UpdateTimeValue (st : ModState) (value : Int) : ModState :=
  if st.mod.IsActive then
    let st₁ := Deactivate st
    Activate { st₁ with mod := { st₁.mod with timeValue := value } }
  else
    { st with mod := { st.mod with timeValue := value } }

/-- The method `SpellMod.UpdateFloatValue`. -/
def UpdateFloatValue (st : ModState) (value : ℚ) : ModState :=
  if st.mod.IsActive then
    let st₁ := Deactivate st
    Activate { st₁ with mod := { st₁.mod with floatValue := value } }
  else
    { st with mod := { st.mod with floatValue := value } }

/-- The callback registered by `buildMod` with `unit.OnSpellRegistered`, run on the spell
behind the pointer `idx`. -/
def onSpellRegistered (SpellFlagNoSpellMods : Nat) (st : ModState) (idx : Nat) : ModState :=
  match st.spells[idx]? with
  | none => st
  | some spell =>
    if shouldApply SpellFlagNoSpellMods spell st.mod then
      let st₁ := { st with mod := { st.mod with AffectedSpells := st.mod.AffectedSpells ++ [idx] } }
      if st₁.mod.IsActive then
        { st₁ with
          spells := modifySpell (st₁.mod.Apply st₁.mod.values) st₁.spells idx
          calls := st₁.calls ++ [ModCall.Apply idx] }
      else st₁
    else st

/-- Modelled from the spec: `Unit.RegisterSpell` and `Unit.OnSpellRegistered` are declared
outside `spell_mod.go`.  Per the spec the registry "iterates its list of pending
subscribers synchronously at registration time": the new spell is added to the unit and
the callback of the mod is run on it. -/
def RegisterSpell (SpellFlagNoSpellMods : Nat) (st : ModState) (spell : Spell) : ModState :=
  onSpellRegistered SpellFlagNoSpellMods { st with spells := st.spells ++ [spell] }
    st.spells.length

/-- Modelled from the spec: `Unit.OnSpellRegistered`, to which `buildMod` hands its callback
(`spell_mod.go:82`), is declared outside `spell_mod.go`.  Per the spec a mod is "created
inactive; on creation it subscribes to ability-registration notifications and records every
ability that matches its predicate at the moment that ability is registered", and "a
modifier constructed after an ability is already registered never affects that ability":
subscribing runs the callback on none of the spells registered before.  So the state right
after `buildMod` returned `mod` on a unit whose registered spells are `spells` has these
spells untouched, the matched set of `mod` as `buildMod` left it, and no invocation of
`Apply` or `Remove` yet. -/
def ModState.init (spells : List Spell) (mod : SpellMod) : ModState :=
  { spells := spells, mod := mod, calls := [] }

/-- One operation on a mod or on its unit. -/
inductive ModOp where
  | RegisterSpell (spell : Spell)
  | Activate
  | Deactivate
  | UpdateIntValue (value : Int)
  | UpdateTimeValue (value : Int)
  | UpdateFloatValue (value : ℚ)
  deriving DecidableEq, Repr

/-- Performs one operation. -/
def ModOp.run (SpellFlagNoSpellMods : Nat) (st : ModState) : ModOp → ModState
  | .RegisterSpell spell => core.RegisterSpell SpellFlagNoSpellMods st spell
  | .Activate => core.Activate st
  | .Deactivate => core.Deactivate st
  | .UpdateIntValue value => core.UpdateIntValue st value
  | .UpdateTimeValue value => core.UpdateTimeValue st value
  | .UpdateFloatValue value => core.UpdateFloatValue st value

/-- Performs the operations of a list one after the other. -/
def runModOps (SpellFlagNoSpellMods : Nat) (st : ModState) (ops : List ModOp) : ModState :=
  ops.foldl (ModOp.run SpellFlagNoSpellMods) st

/-- The number of invocations of `Apply` on the spell at `idx` recorded so far. -/
def applyCount (st : ModState) (idx : Nat) : Nat :=
  st.calls.count (ModCall.Apply idx)

/-- The number of invocations of `Remove` on the spell at `idx` recorded so far. -/
def removeCount (st : ModState) (idx : Nat) : Nat :=
  st.calls.count (ModCall.Remove idx)

/-- The `int32` range. -/
def InRange32 (x : Int) : Prop := -2 ^ 31 ≤ x ∧ x < 2 ^ 31

/-- The `int64` range. -/
def InRange64 (x : Int) : Prop := -2 ^ 63 ≤ x ∧ x < 2 ^ 63

/-- The integer fields of a dot hold values of their Go types. -/
def Dot.InRange (dot : Dot) : Prop :=
  InRange32 dot.NumberOfTicks ∧ InRange64 dot.TickLength

/-- The integer fields of a spell rewritten by the modifiers hold values of their Go types
(`int32` for the cost modifiers and the tick counts, `int64` for the durations). -/
def Spell.InRange (spell : Spell) : Prop :=
  (∀ cost, spell.Cost = some cost → InRange32 cost.Multiplier ∧ InRange32 cost.FlatModifier) ∧
  InRange64 spell.CD.FlatModifier ∧ InRange64 spell.DefaultCast.CastTime ∧
  InRange64 spell.DefaultCast.GCD ∧
  (∀ dot, some dot ∈ spell.dots → dot.InRange) ∧
  (∀ dot, spell.aoeDot = some dot → dot.InRange)

/-- The float value of a mod can be divided out again: for the two kinds whose `Remove`
divides by `1 + floatValue` (`SpellMod_DamageDone_Pct`, `SpellMod_Cooldown_Multi_Pct`) the
divisor is not zero, that is, the value is not `-1`.  No condition for the other kinds. -/
def pctInvertible (kind : SpellModType) (floatValue : ℚ) : Prop :=
  (kind = SpellMod_DamageDone_Pct ∨ kind = SpellMod_Cooldown_Multi_Pct) → 1 + floatValue ≠ 0

/-- The pair `apply`, `remove` is a round trip on spells whose integer fields are in range,
for the mod values satisfying `valid`: `apply` keeps the fields in range and `remove`
restores the spell exactly. -/
def RoundTrips (valid : SpellModValues → Prop) (apply remove : SpellModApply) : Prop :=
  ∀ (mod : SpellModValues) (spell : Spell), valid mod → spell.InRange →
    (apply mod spell).InRange ∧ remove mod (apply mod spell) = spell

/-- The spell a recorded invocation was made on. -/
def ModCall.spell : ModCall → Nat
  | .Apply idx => idx
  | .Remove idx => idx

/-- The bookkeeping kept by every operation on a mod: the matched set has no repeated
pointer, its pointers are registered spells, every recorded invocation was made on a
matched spell, and on every matched spell the invocations of `Apply` exceed those of
`Remove` by one when the mod is active and equal them when it is inactive. -/
def ModState.Balanced (st : ModState) : Prop :=
  st.mod.AffectedSpells.Nodup ∧
  (∀ idx ∈ st.mod.AffectedSpells, idx < st.spells.length) ∧
  (∀ call ∈ st.calls, call.spell ∈ st.mod.AffectedSpells) ∧
  ∀ idx ∈ st.mod.AffectedSpells,
    applyCount st idx = removeCount st idx + (if st.mod.IsActive then 1 else 0)

/-- The method `Unit.AddStaticMod`: `buildMod` followed by `Activate`, on a unit whose
registered spells are `spells`. -/
def AddStaticMod (spells : List Spell) (config : SpellModConfig) : Except String ModState :=
  match buildMod config with
  | .error msg => .error msg
  | .ok mod => .ok (Activate (ModState.init spells mod))

/-- The method `Unit.AddDynamicMod`: `buildMod` alone, on a unit whose registered spells are
`spells`. -/
def AddDynamicMod (spells : List Spell) (config : SpellModConfig) : Except String ModState :=
  match buildMod config with
  | .error msg => .error msg
  | .ok mod => .ok (ModState.init spells mod)

/-- Whether the call is a `reset`. -/
def RageCall.isReset : RageCall → Bool
  | .reset _ => true
  | _ => false

/-- The metrics handle a call was given (none for `reset`). -/
def RageCall.metrics : RageCall → Option ResourceMetrics
  | .AddRage _ _ metrics => some metrics
  | .SpendRage _ _ metrics => some metrics
  | .reset _ => none

/-! ## The clock and its pending actions

The scheduling code of the engine (`Simulation.AddPendingAction`, `StartDelayedAction` and
the loop that advances the simulation) is not in the source files at hand; only callers
are (`makeQueueSpellsAndAura`).  The definitions of this section follow the specification
of the clock. -/

/-- Modelled from the spec: the pending action type (`PendingAction`) is declared outside
the available sources.  The spec has `ScheduledCallback{ dueAt: time, action: closure }`;
the closure is represented by a label, and running it is recorded under that label. -/
structure ScheduledCallback where
  dueAt : Int
  action : Nat
  deriving DecidableEq, Repr

/-- Modelled from the spec: the clock of the simulation is declared outside the available
sources.  The spec has a `SimulationClock` owning `currentTime` and an ordered multiset of
scheduled callbacks; `pending` keeps them in insertion order and `executed` records the
labels of the callbacks run so far, oldest first. -/
structure SimulationClock where
  currentTime : Int
  pending : List ScheduledCallback
  executed : List Nat
  deriving DecidableEq, Repr

/-- Modelled from the spec: `Schedule(dueAt, callback)` (`sim.AddPendingAction`), declared
outside the available sources: "`dueAt` must be ≥ current time; the callback is stored".
A due time before the current time is refused. -/
def Schedule (clock : SimulationClock) (dueAt : Int) (action : Nat) : Option SimulationClock :=
  if dueAt < clock.currentTime then
    none
  else
    some { clock with pending := clock.pending ++ [⟨dueAt, action⟩] }

/-- Modelled from the spec: the pop of "the earliest-due callback", "ties broken by
insertion order (FIFO)", of the advance loop that is outside the available sources: the
first inserted among the callbacks with the least due time, and the callbacks left. -/
def popEarliest : List ScheduledCallback → Option (ScheduledCallback × List ScheduledCallback)
  | [] => none
  | callback :: rest =>
    match popEarliest rest with
    | none => some (callback, [])
    | some (other, rest₁) =>
      if callback.dueAt ≤ other.dueAt then some (callback, rest)
      else some (other, callback :: rest₁)

/-- Modelled from the spec: one turn of the advance loop, outside the available sources:
it "pops the earliest-due callback, sets `currentTime = dueAt`, executes it".  What a
callback schedules while it runs is given by `behaviour`: the label of each new callback
and its delay from the new current time (so at a time ≥ the new current time). -/
def step (behaviour : Nat → List (Nat × Nat)) (clock : SimulationClock) :
    Option SimulationClock :=
  match popEarliest clock.pending with
  | none => none
  | some (callback, rest) =>
    some
      { currentTime := callback.dueAt
        pending :=
          rest ++ (behaviour callback.action).map fun p => ⟨callback.dueAt + (p.1 : Int), p.2⟩
        executed := clock.executed ++ [callback.action] }

/-- Modelled from the spec: the test of the advance loop, outside the available sources:
whether the earliest-due pending callback is due at or before `horizon`. -/
def hasDue (horizon : Int) (clock : SimulationClock) : Bool :=
  match popEarliest clock.pending with
  | none => false
  | some (callback, _) => decide (callback.dueAt ≤ horizon)

/-- Modelled from the spec: `Advance()`, the advance loop, outside the available sources: it
"repeatedly pops the earliest-due callback" until no callback due at or before `horizon`
is pending.  `fuel` bounds the number of callbacks run; the result is `none` when it runs
out. -/
def Advance (behaviour : Nat → List (Nat × Nat)) (horizon : Int) :
    Nat → SimulationClock → Option SimulationClock
  | 0, clock => if hasDue horizon clock then none else some clock
  | fuel + 1, clock =>
    if hasDue horizon clock then
      match step behaviour clock with
      | none => none
      | some clock₁ => Advance behaviour horizon fuel clock₁
    else some clock

/-- The labels of the pending callbacks, in insertion order. -/
def SimulationClock.pendingActions (clock : SimulationClock) : List Nat :=
  clock.pending.map ScheduledCallback.action

/-- The situation of two callbacks `A` then `B` scheduled for the same time `t`: both
pending with `A` inserted first, or `A` run and `B` pending, or both run with `A` first;
each label stands for one callback only. -/
def FifoPhase (t : Int) (A B : Nat) (clock : SimulationClock) : Prop :=
  (List.Sublist [⟨t, A⟩, ⟨t, B⟩] clock.pending ∧ clock.pendingActions.count A = 1 ∧
      clock.pendingActions.count B = 1 ∧ A ∉ clock.executed ∧ B ∉ clock.executed) ∨
  (A ∉ clock.pendingActions ∧ (⟨t, B⟩ : ScheduledCallback) ∈ clock.pending ∧
      clock.pendingActions.count B = 1 ∧ clock.executed.count A = 1 ∧ B ∉ clock.executed) ∨
  (A ∉ clock.pendingActions ∧ B ∉ clock.pendingActions ∧ clock.executed.count A = 1 ∧
      clock.executed.count B = 1 ∧ List.Sublist [A, B] clock.executed)

/-- The cost functions behind a spell (`spell.Cost.SpellCostFunctions`), which for a rage
cost hold the refund amount and the metrics handles; none for a spell without a cost. -/
def Spell.costFunctions (spell : Spell) : Option SpellCostFunctions :=
  spell.Cost.map SpellCost.SpellCostFunctions

/-- The spells registered by a list of operations, in order. -/
def registeredSpells : List ModOp → List Spell
  | [] => []
  | .RegisterSpell spell :: rest => spell :: registeredSpells rest
  | _ :: rest => registeredSpells rest

/-! ## The Heroic Strike and Cleave queue auras (`sim/warrior/heroic_strike_cleave.go`) -/

/-- The two spells that can take the place of the next main-hand swing,
`warrior.HeroicStrike` and `warrior.Cleave`: the `srcSpell` of the two calls of
`makeQueueSpellsAndAura`. -/
inductive QueuedSpell where
  | HeroicStrike
  | Cleave
  deriving DecidableEq, Repr

/-- The two auras registered by `makeQueueSpellsAndAura`, one in `registerHeroicStrikeSpell`
and one in `registerCleaveSpell` (a pointer to an aura is one of these names). -/
inductive QueueAura where
  | HeroicStrikeQueue
  | CleaveQueue
  deriving DecidableEq, Repr

/-- The variable `srcSpell` captured by the closures of a queue aura. -/
def QueueAura.srcSpell : QueueAura → QueuedSpell
  | .HeroicStrikeQueue => .HeroicStrike
  | .CleaveQueue => .Cleave

/-- The part of `Warrior` written by the closures of the queue auras, with the activation
state of the two auras.  A nil pointer is `none`. -/
structure Warrior where
  heroicStrikeQueueActive : Bool
  cleaveQueueActive : Bool
  curQueueAura : Option QueueAura
  curQueuedAutoSpell : Option QueuedSpell
  DisableDWMissPenalty : Bool
  deriving DecidableEq, Repr

/-- Modelled from the spec: `Aura.IsActive` is declared outside the available sources; per
the spec the lifetime of an aura "spans from activation to expiration/deactivation", and
the aura is active during it. -/
def QueueAura.IsActive (aura : QueueAura) (warrior : Warrior) : Bool :=
  match aura with
  | .HeroicStrikeQueue => warrior.heroicStrikeQueueActive
  | .CleaveQueue => warrior.cleaveQueueActive

/-- Writes the activation state of an aura. -/
def QueueAura.setActive (aura : QueueAura) (warrior : Warrior) (active : Bool) : Warrior :=
  match aura with
  | .HeroicStrikeQueue => { warrior with heroicStrikeQueueActive := active }
  | .CleaveQueue => { warrior with cleaveQueueActive := active }

/-- The closure `OnExpire` of a queue aura. -/
def queueAuraOnExpire (warrior : Warrior) : Warrior :=
  { warrior with
    DisableDWMissPenalty := false
    curQueueAura := none
    curQueuedAutoSpell := none }

/-- Modelled from the spec: `Aura.Deactivate` is declared outside the available sources.
Per the spec the lifetime of an aura "spans from activation to expiration/deactivation" and
`on-expire` is one of its hooks: deactivating an active aura ends its lifetime and fires
`OnExpire`; deactivating an aura that is not active does nothing. -/
def QueueAura.Deactivate (aura : QueueAura) (warrior : Warrior) : Warrior :=
  if aura.IsActive warrior then
    queueAuraOnExpire (aura.setActive warrior false)
  else warrior

/-- The closure `OnGain` of the queue aura `aura`. -/
def queueAuraOnGain (aura : QueueAura) (warrior : Warrior) : Warrior :=
  let warrior₁ :=
    match warrior.curQueueAura with
    | some cur => cur.Deactivate warrior
    | none => warrior
  { warrior₁ with
    DisableDWMissPenalty := true
    curQueueAura := some aura
    curQueuedAutoSpell := some aura.srcSpell }

/-- Modelled from the spec: `Aura.Activate` is declared outside the available sources.
Per the spec the lifetime of an aura "spans from activation to expiration/deactivation" and
`on-gain` is one of its hooks: activating an aura that is not active starts its lifetime
and fires `OnGain`; activating an active aura starts no new lifetime. -/
def QueueAura.Activate (aura : QueueAura) (warrior : Warrior) : Warrior :=
  if aura.IsActive warrior then
    warrior
  else
    queueAuraOnGain aura (aura.setActive warrior true)

/-- The end of `ApplyEffects` of Heroic Strike and of Cleave:
`if warrior.curQueueAura != nil { warrior.curQueueAura.Deactivate(sim) }`. -/
def deactivateQueueAura (warrior : Warrior) : Warrior :=
  match warrior.curQueueAura with
  | some cur => cur.Deactivate warrior
  | none => warrior

/-- The method `Warrior.TryHSOrCleave`.  `canCast` is what `curQueuedAutoSpell.CanCast`
returns, which is decided outside the available sources.  The result holds the spell
returned: `none` for `mhSwingSpell`, the queued spell otherwise.  `IsActive` on a nil aura
is false; a nil `curQueuedAutoSpell` behind an active queue aura is a nil dereference. -/
def TryHSOrCleave (warrior : Warrior) (canCast : Bool) :
    Except String (Warrior × Option QueuedSpell) :=
  match warrior.curQueueAura with
  | none => .ok (warrior, none)
  | some cur =>
    if !cur.IsActive warrior then
      .ok (warrior, none)
    else
      match warrior.curQueuedAutoSpell with
      | none => .error "invalid memory address or nil pointer dereference"
      | some spell =>
        if !canCast then .ok (cur.Deactivate warrior, none)
        else .ok (warrior, some spell)

/-- One activation or deactivation of a queue aura: the pending action of a queue spell
(`queueAura.Activate(sim)`), a deactivation of one of the auras, the end of `ApplyEffects`
of Heroic Strike or Cleave, or a call of `TryHSOrCleave`. -/
inductive QueueOp where
  | Activate (aura : QueueAura)
  | Deactivate (aura : QueueAura)
  | ApplyEffects
  | TryHSOrCleave (canCast : Bool)
  deriving DecidableEq, Repr

/-- Performs one operation on the queue auras. -/
def QueueOp.run (warrior : Warrior) : QueueOp → Except String Warrior
  | .Activate aura => .ok (aura.Activate warrior)
  | .Deactivate aura => .ok (aura.Deactivate warrior)
  | .ApplyEffects => .ok (deactivateQueueAura warrior)
  | .TryHSOrCleave canCast =>
    match core.TryHSOrCleave warrior canCast with
    | .ok (warrior₁, _) => .ok warrior₁
    | .error msg => .error msg

/-- Performs the operations of a list one after the other, up to the first panic. -/
def runQueueOps (warrior : Warrior) : List QueueOp → Except String Warrior
  | [] => .ok warrior
  | op :: rest =>
    match op.run warrior with
    | .ok warrior₁ => runQueueOps warrior₁ rest
    | .error msg => .error msg

/-- The state the claim describes: at most one queue aura is active, `curQueueAura` is the
active queue aura (nil when none is active), `curQueuedAutoSpell` is the source spell of
that aura (nil when none), and `DisableDWMissPenalty` is set exactly when `curQueueAura` is
not nil. -/
def Warrior.QueueInvariant (warrior : Warrior) : Prop :=
  ¬ (warrior.heroicStrikeQueueActive = true ∧ warrior.cleaveQueueActive = true) ∧
  (∀ aura : QueueAura, warrior.curQueueAura = some aura ↔ aura.IsActive warrior = true) ∧
  warrior.curQueuedAutoSpell = warrior.curQueueAura.map QueueAura.srcSpell ∧
  (warrior.DisableDWMissPenalty = true ↔ warrior.curQueueAura ≠ none)

/-! ## Kinds of the dispatch table -/

/-- The twenty kinds other than `SpellMod_Custom` that are keys of `spellModMap`, in the
order of the map literal. -/
def tableKinds : List SpellModType :=
  [SpellMod_DamageDone_Pct, SpellMod_DamageDone_Flat, SpellMod_BaseDamageDone_Flat,
    SpellMod_PeriodicDamageDone_Flat, SpellMod_ImpactDamageDone_Flat,
    SpellMod_CritDamageBonus_Flat, SpellMod_PowerCost_Pct, SpellMod_PowerCost_Flat,
    SpellMod_Cooldown_Flat, SpellMod_Cooldown_Multi_Flat, SpellMod_Cooldown_Multi_Pct,
    SpellMod_CastTime_Pct, SpellMod_CastTime_Flat, SpellMod_BonusCrit_Flat,
    SpellMod_BonusHit_Flat, SpellMod_DotNumberOfTicks_Flat, SpellMod_DotTickLength_Flat,
    SpellMod_GlobalCooldown_Flat, SpellMod_BonusCoeffecient_Flat, SpellMod_BonusDamage_Flat]

/-- The four kinds declared in the `SpellModType` const block that are not keys of
`spellModMap`. -/
def kindsWithoutEntry : List SpellModType :=
  [SpellMod_AllowCastWhileMoving, SpellMod_BonusExpertise_Rating, SpellMod_DebuffDuration_Flat,
    SpellMod_BuffDuration_Flat]

/-- The seven kinds of the dispatch table whose functions rewrite an integer field (an
`int32` cost modifier or tick count, or a `time.Duration`) and read `intValue` or
`timeValue`; the functions of the other thirteen kinds rewrite a `float64` field. -/
def integerKinds : List SpellModType :=
  [SpellMod_PowerCost_Pct, SpellMod_PowerCost_Flat, SpellMod_Cooldown_Flat,
    SpellMod_CastTime_Flat, SpellMod_DotNumberOfTicks_Flat, SpellMod_DotTickLength_Flat,
    SpellMod_GlobalCooldown_Flat]

/-! ## `float64` arithmetic

The definitions above read a `float64` expression as the rational it denotes.  The
definitions of this section round: each operation returns the `float64` nearest to the
exact result, ties going to the even mantissa, as Go computes it.  Every finite `float64`
is a multiple of `2^-1074`, the least positive one, and is represented by that multiple.
Overflow to an infinity and NaN are outside these definitions. -/

/-- A finite `float64`, as the integer number of units of `2^-1074` it is equal to. -/
abbrev Float64 := Int

/-- The number of binary digits of `n`, for `n` of at most `fuel` digits. -/
def bitLengthAux : Nat → Nat → Nat
  | 0, _ => 0
  | fuel + 1, n => if n = 0 then 0 else bitLengthAux fuel (n / 2) + 1

/-- The number of binary digits of `n`.  The bound of 4300 digits is above every quotient
formed by the operations below on finite `float64` values. -/
def bitLength (n : Nat) : Nat :=
  bitLengthAux 4300 n

/-- The multiple of `2^-1074` that is the `float64` nearest to `n / d` units (`d > 0`): the
quotient is cut to 53 significant binary digits and a remainder above one half, or of one
half next to an odd mantissa, rounds up. -/
def roundNat (n d : Nat) : Nat :=
  let k := bitLength (n / d) - 53
  let scale := d * 2 ^ k
  let m := n / scale
  let r := n % scale
  let m₁ :=
    if 2 * r < scale then m
    else if scale < 2 * r then m + 1
    else if m % 2 = 0 then m
    else m + 1
  m₁ * 2 ^ k

/-- The `float64` nearest to `num / den` units, for either sign of `num`. -/
def roundRatio (num : Int) (den : Nat) : Float64 :=
  if num < 0 then -(roundNat num.natAbs den : Int) else (roundNat num.natAbs den : Int)

/-- The `float64` addition `x + y`. -/
def float64Add (x y : Float64) : Float64 :=
  roundRatio (x + y) 1

/-- The `float64` subtraction `x - y`. -/
def float64Sub (x y : Float64) : Float64 :=
  roundRatio (x - y) 1

/-- The `float64` multiplication `x * y`. -/
def float64Mul (x y : Float64) : Float64 :=
  roundRatio (x * y) (2 ^ 1074)

/-- The `float64` division `x / y`; `none` when the divisor is zero, where Go returns an
infinity or NaN. -/
def float64Div (x y : Float64) : Option Float64 :=
  if y = 0 then none
  else some (roundRatio (if y < 0 then -(x * 2 ^ 1074) else x * 2 ^ 1074) y.natAbs)

/-- The `float64` a decimal constant `mantissa * 10^-exponent` of the source denotes. -/
def float64OfDecimal (mantissa : Int) (exponent : Nat) : Float64 :=
  roundRatio (mantissa * 2 ^ 1074) (10 ^ exponent)

/-- The largest finite `float64` (`math.MaxFloat64`), `(2 - 2^-52) * 2^1023`, in units of
`2^-1074`. -/
def maxFloat64 : Float64 :=
  (2 ^ 53 - 1) * 2 ^ 2045

/-- The arithmetic of `rageBar.AddRage` (`rage.go:163-164`) on `float64` values, for an
amount that passed the check of the sign: the new rage
`min(rb.currentRage+amount, MaxRage)` and the actual gain `newRage-rb.currentRage` handed
to `metrics.AddEvent`. -/
def AddRage64 (currentRage amount : Float64) : Float64 × Float64 :=
  let newRage := min (float64Add currentRage amount) (float64OfDecimal 100 0)
  (newRage, float64Sub newRage currentRage)

/-- The arithmetic of `rageBar.SpendRage` (`rage.go:188-189`) on `float64` values, for an
amount that passed the check of the sign: the new rage `rb.currentRage - amount` and the
actual gain `-amount` handed to `metrics.AddEvent`. -/
def SpendRage64 (currentRage amount : Float64) : Float64 × Float64 :=
  (float64Sub currentRage amount, -amount)

/-- The arithmetic of `applyDamageDonePercent` on `float64` values:
`spell.DamageMultiplier *= 1 + mod.floatValue`. -/
def applyDamageDonePercent64 (floatValue DamageMultiplier : Float64) : Float64 :=
  float64Mul DamageMultiplier (float64Add (float64OfDecimal 1 0) floatValue)

/-- The arithmetic of `removeDamageDonePercent` on `float64` values:
`spell.DamageMultiplier /= 1 + mod.floatValue`. -/
def removeDamageDonePercent64 (floatValue DamageMultiplier : Float64) : Option Float64 :=
  float64Div DamageMultiplier (float64Add (float64OfDecimal 1 0) floatValue)

/-- The arithmetic of `applyDamageDoneAdd` on `float64` values:
`spell.DamageMultiplierAdditive += mod.floatValue`. -/
def applyDamageDoneAdd64 (floatValue DamageMultiplierAdditive : Float64) : Float64 :=
  float64Add DamageMultiplierAdditive floatValue

/-- The arithmetic of `removeDamageDoneAdd` on `float64` values:
`spell.DamageMultiplierAdditive -= mod.floatValue`. -/
def removeDamageDoneAdd64 (floatValue DamageMultiplierAdditive : Float64) : Float64 :=
  float64Sub DamageMultiplierAdditive floatValue

/-! ## Concrete values used to evaluate the model -/

/-- A concrete choice for the declarations of `flags.go`: distinct bits for the constants
and `Matches` as "shares a bit with". -/
def sampleFlags : Flags :=
  { OutcomeMiss := 2
    OutcomeDodge := 8
    OutcomeParry := 32
    ProcMaskMeleeMHAuto := 4
    ProcMaskMeleeOHAuto := 8
    Matches := fun ho other => (ho &&& other) != 0 }

/-- A simulation in non-interactive mode, without a log, at time zero. -/
def sampleSim : Simulation :=
  { Log := false, Interactive := false, CurrentTime := 0 }

/-- A metrics handle of an auto attack. -/
def sampleMetrics : ResourceMetrics :=
  NewRageMetrics ⟨0, .OtherActionNone, 1⟩

/-- A level 60 unit before `EnableRageBar`. -/
def sampleUnit : Unit :=
  { Level := 60
    currentPowerBar := .None
    rageBar :=
      { unit := false, damageDealtMultiplier := 0, damageTakenMultiplier := 0,
        flatDamageDealtBonusRage := 0, flatDamageTakenBonusRage := 0, startingRage := 0,
        currentRage := 0, RageRefundMetrics := none }
    rageBarAura := none
    events := []
    effects := [] }

/-- The options of a rage bar with multipliers 1 and no starting rage. -/
def sampleOptions : RageBarOptions :=
  { StartingRage := 0, DamageDealtMultiplier := 1, DamageTakenMultiplier := 1 }

/-- The level 60 unit with its rage bar enabled and reset. -/
def sampleRageUnit : Unit :=
  reset (EnableRageBar sampleUnit sampleOptions) sampleSim

/-- The unit of the spec's scenario: capacity 100, current rage 90. -/
def sampleUnit90 : Unit :=
  { sampleRageUnit with rageBar := { sampleRageUnit.rageBar with currentRage := 90 } }

/-- The main-hand auto attack of the unit (no cost, metrics set by `OnInit`). -/
def sampleAutoAttack : Spell :=
  { ActionID := ⟨0, .OtherActionNone, 1⟩
    ProcMask := 4
    Cost := none
    ResourceMetrics := some sampleMetrics
    Unit := ⟨60⟩ }

/-- A concrete choice for the parameter `GetCurrentCost`: the base cost scaled by the
percent multiplier, plus the flat modifier, not below zero. -/
def sampleGetCurrentCost (cost : SpellCost) : ℚ :=
  max 0 (cost.BaseCost * (cost.Multiplier : ℚ) / 100 + (cost.FlatModifier : ℚ))

/-- Heroic Strike at level 60 before its cost is attached. -/
def sampleHeroicStrikeConfig : Spell :=
  { ActionID := ⟨11567, .OtherActionNone, 0⟩
    ProcMask := 20
    Cost := none
    ResourceMetrics := none
    Unit := ⟨60⟩
    DamageMultiplier := 1
    BonusCoefficient := 1 }

/-- The options `RageCost: core.RageCostOptions{Cost: 15, Refund: 0.8}` of Heroic Strike
(no points in Improved Heroic Strike). -/
def sampleHeroicStrikeOptions : RageCostOptions :=
  { Cost := 15, Refund := 0.8, RefundMetrics := none }

/-- Heroic Strike registered on the sample unit, with its rage cost. -/
def sampleHeroicStrike : Spell :=
  { sampleHeroicStrikeConfig with
    Cost := some (newRageCost sampleRageUnit sampleHeroicStrikeConfig sampleHeroicStrikeOptions) }

/-- A concrete choice for the constant `SpellFlagNoSpellMods`. -/
def sampleSpellFlagNoSpellMods : Nat := 1 <<< 20

/-- Ice Lance as configured by `registerIceLanceSpell`: its own class mask bit, a mana cost,
`DamageMultiplier: 1`. -/
def sampleIceLance : Spell :=
  { ActionID := ⟨0, .OtherActionNone, 0⟩
    ProcMask := 64
    Cost := some { BaseCost := 0.08, Multiplier := 100, SpellCostFunctions := .Other }
    ResourceMetrics := none
    Unit := ⟨60⟩
    Flags := 2
    ClassSpellMask := 4096
    SpellSchool := 16
    DefaultCast := { GCD := 1500000000 }
    DamageMultiplier := 1
    BonusCoefficient := 0.429 }

/-- The configuration of the dynamic mod `damageModPct` of Ice Lance, with a float value. -/
def sampleDamagePctConfig (value : ℚ) : SpellModConfig :=
  { ClassMask := 4096, Kind := SpellMod_DamageDone_Pct, FloatValue := value }

/-- The mod `buildMod` returns for `sampleDamagePctConfig value`. -/
def sampleDamagePctMod (value : ℚ) : SpellMod :=
  { ClassMask := 4096, Kind := SpellMod_DamageDone_Pct, School := 0, ProcMask := 0,
    floatValue := value, intValue := 0, timeValue := 0, keyValue := "",
    Apply := applyDamageDonePercent, Remove := removeDamageDonePercent,
    IsActive := false, AffectedSpells := [] }

/-- The state after `damageModPct` was built on a unit without spells and Ice Lance was then
registered. -/
def sampleIceLanceState (value : ℚ) : ModState :=
  RegisterSpell sampleSpellFlagNoSpellMods (ModState.init [] (sampleDamagePctMod value))
    sampleIceLance

/-- A mod of kind `SpellMod_Cooldown_Multi_Pct` with float value `-1`, matching one spell
whose cooldown multiplier is 1. -/
def sampleCooldownPctState : ModState :=
  { spells := [{ sampleIceLance with CD := { Multiplier := 1 } }]
    mod :=
      { ClassMask := 0, Kind := SpellMod_Cooldown_Multi_Pct, School := 0, ProcMask := 0,
        floatValue := -1, intValue := 0, timeValue := 0, keyValue := "",
        Apply := applyCooldownMultiplierPct, Remove := removeCooldownMultiplierPct,
        IsActive := false, AffectedSpells := [0] }
    calls := [] }

/-- A clock at time zero with nothing pending and nothing run. -/
def sampleClock : SimulationClock :=
  { currentTime := 0, pending := [], executed := [] }

/-- Callbacks that schedule nothing. -/
def sampleBehaviour : Nat → List (Nat × Nat) :=
  fun _ => []

/-- A spell with a cost whose `int32` multiplier is the largest `int32` value. -/
def sampleMaxCostSpell : Spell :=
  { sampleIceLance with
    Cost := some { BaseCost := 1, Multiplier := 2147483647, SpellCostFunctions := .Other } }

/-- A mod of kind `SpellMod_PowerCost_Pct` whose stored value `2^40 + 1` is outside the
`int32` range, matching the spell above. -/
def samplePowerCostState : ModState :=
  { spells := [sampleMaxCostSpell]
    mod :=
      { ClassMask := 0, Kind := SpellMod_PowerCost_Pct, School := 0, ProcMask := 0,
        floatValue := 0, intValue := 1099511627777, timeValue := 0, keyValue := "",
        Apply := applyPowerCostPercent, Remove := removePowerCostPercent,
        IsActive := false, AffectedSpells := [0] }
    calls := [] }

/-- The state `AddStaticMod` returns for the percent mod of Ice Lance on a unit without
spells: the mod of `sampleDamagePctMod value`, activated. -/
def sampleStaticPctState (value : ℚ) : ModState :=
  Activate (ModState.init [] (sampleDamagePctMod value))

/-- The configuration of a mod that lowers the power cost of every spell by 5. -/
def samplePowerCostFlatConfig : SpellModConfig :=
  { Kind := SpellMod_PowerCost_Flat, IntValue := -5 }

/-- The mod `buildMod` returns for `samplePowerCostFlatConfig`. -/
def samplePowerCostFlatMod : SpellMod :=
  { ClassMask := 0, Kind := SpellMod_PowerCost_Flat, School := 0, ProcMask := 0,
    floatValue := 0, intValue := -5, timeValue := 0, keyValue := "",
    Apply := applyPowerCostFlat, Remove := removePowerCostFlat,
    IsActive := false, AffectedSpells := [] }

/-- A warrior right after the registration of its spells and auras: no queue aura is
active and the fields hold their zero values. -/
def sampleWarrior : Warrior :=
  { heroicStrikeQueueActive := false, cleaveQueueActive := false, curQueueAura := none,
    curQueuedAutoSpell := none, DisableDWMissPenalty := false }

/-- A mod of kind `SpellMod_GlobalCooldown_Flat` that shortens the global cooldown by half
a second, inactive, matching Ice Lance. -/
def sampleGlobalCooldownState : ModState :=
  { spells := [sampleIceLance]
    mod :=
      { ClassMask := 0, Kind := SpellMod_GlobalCooldown_Flat, School := 0, ProcMask := 0,
        floatValue := 0, intValue := 0, timeValue := -500000000, keyValue := "",
        Apply := applyGlobalCooldownFlat, Remove := removeGlobalCooldownFlat,
        IsActive := false, AffectedSpells := [0] }
    calls := [] }

/-! ## Auxiliary lemmas -/

/-- The `int64` wrap leaves values of the `int64` range unchanged. -/
lemma wrapInt64_of_inRange (x : Int) (h₁ : -2 ^ 63 ≤ x) (h₂ : x < 2 ^ 63) : wrapInt64 x = x := by
  unfold wrapInt64
  omega

/-- The conversion factor is never zero, whatever the level: the quotients of the hooks
are genuine divisions. -/
lemma GetRageConversion_ne_zero (attacker_level : Int) : GetRageConversion attacker_level ≠ 0 := by
  unfold GetRageConversion
  split_ifs with h25 h40 h45
  · norm_num
  · norm_num
  · cases attacker_level with
    | ofNat n =>
      have hx : (0 : ℚ) ≤ ((Int.xor (Int.ofNat n) 2 : Int) : ℚ) := by
        have : (0 : Int) ≤ Int.xor (Int.ofNat n) 2 := by
          show (0 : Int) ≤ ((n ^^^ 2 : Nat) : Int)
          exact Int.ofNat_nonneg _
        exact Int.cast_nonneg.mpr this
      have hn : (0 : ℚ) ≤ ((Int.ofNat n : Int) : ℚ) :=
        Int.cast_nonneg.mpr (Int.ofNat_nonneg n)
      intro h0
      nlinarith
    | negSucc n =>
      have hx : ((Int.xor (Int.negSucc n) 2 : Int) : ℚ) ≤ -1 := by
        have : Int.xor (Int.negSucc n) 2 ≤ -1 := by
          show Int.negSucc (n ^^^ 2) ≤ -1
          have := Int.negSucc_lt_zero (n ^^^ 2)
          omega
        exact_mod_cast this
      have hn : ((Int.negSucc n : Int) : ℚ) ≤ -1 := by
        have : Int.negSucc n ≤ -1 := by
          have := Int.negSucc_lt_zero n
          omega
        exact_mod_cast this
      intro h0
      nlinarith
  · have h45q : (45 : ℚ) ≤ (attacker_level : ℚ) := by
      have : (45 : Int) ≤ attacker_level := by omega
      exact_mod_cast this
    have hx : (0 : ℚ) ≤ ((Int.xor attacker_level 2 : Int) : ℚ) := by
      have : (0 : Int) ≤ Int.xor attacker_level 2 := by
        cases attacker_level with
        | ofNat n =>
          show (0 : Int) ≤ ((n ^^^ 2 : Nat) : Int)
          exact Int.ofNat_nonneg _
        | negSucc n =>
          have := Int.negSucc_lt_zero n
          omega
      exact_mod_cast this
    intro h0
    nlinarith

/-- What a successful `AddRage` does to each part of the unit state. -/
lemma AddRage_ok (unit : Unit) (sim : Simulation) (amount : ℚ) (metrics : ResourceMetrics)
    (h : 0 ≤ amount) :
    ∃ unit₁, AddRage unit sim amount metrics = .ok unit₁ ∧
      unit₁.rageBar =
        { unit.rageBar with currentRage := min (unit.rageBar.currentRage + amount) MaxRage } ∧
      unit₁.events = unit.events ++
        [⟨metrics, amount,
          min (unit.rageBar.currentRage + amount) MaxRage - unit.rageBar.currentRage⟩] ∧
      unit₁.effects = unit.effects ++
        ((if sim.Log then
            [Effect.LogGained amount metrics.ActionID unit.rageBar.currentRage
              (min (unit.rageBar.currentRage + amount) MaxRage)]
          else []) ++
        ((if sim.Interactive then [] else [Effect.ReactToEvent]) ++
        [Effect.StartDelayedAction (wrapInt64 (sim.CurrentTime + Millisecond * 1)) metrics])) ∧
      unit₁.Level = unit.Level ∧ unit₁.currentPowerBar = unit.currentPowerBar ∧
      unit₁.rageBarAura = unit.rageBarAura := by
  have hlt : ¬ amount < 0 := not_lt.mpr h
  cases hL : sim.Log <;> cases hI : sim.Interactive <;>
    simp [AddRage, AddEvent, emit, hlt, hL, hI]

/-- What a successful `SpendRage` does to each part of the unit state. -/
lemma SpendRage_ok (unit : Unit) (sim : Simulation) (amount : ℚ) (metrics : ResourceMetrics)
    (h : 0 ≤ amount) :
    ∃ unit₁, SpendRage unit sim amount metrics = .ok unit₁ ∧
      unit₁.rageBar = { unit.rageBar with currentRage := unit.rageBar.currentRage - amount } ∧
      unit₁.events = unit.events ++ [⟨metrics, -amount, -amount⟩] ∧
      unit₁.effects = unit.effects ++
        ((if sim.Log then
            [Effect.LogSpent amount metrics.ActionID unit.rageBar.currentRage
              (unit.rageBar.currentRage - amount)]
          else []) ++ [Effect.OnRageChange metrics]) ∧
      unit₁.Level = unit.Level ∧ unit₁.currentPowerBar = unit.currentPowerBar ∧
      unit₁.rageBarAura = unit.rageBarAura := by
  have hlt : ¬ amount < 0 := not_lt.mpr h
  cases hL : sim.Log <;> simp [SpendRage, AddEvent, emit, hlt, hL]

/-- A run of `AddRage` calls with non-negative amounts from a bar within `[0, MaxRage]`
returns, with the bar within `[0, MaxRage]`. -/
lemma runCalls_addRage_clamped (calls : List RageCall) :
    ∀ unit : Unit, (∀ c ∈ calls, c.isAddRage = true) → (∀ c ∈ calls, 0 ≤ c.amount) →
      0 ≤ unit.rageBar.currentRage → unit.rageBar.currentRage ≤ MaxRage →
      ∃ unit₁, runCalls unit calls = .ok unit₁ ∧
        0 ≤ unit₁.rageBar.currentRage ∧ unit₁.rageBar.currentRage ≤ MaxRage := by
  induction calls with
  | nil =>
    intro unit _ _ h0 h1
    exact ⟨unit, rfl, h0, h1⟩
  | cons call rest ih =>
    intro unit hadd hnn h0 h1
    have hcall := hadd call (List.mem_cons_self _ _)
    have hamount := hnn call (List.mem_cons_self _ _)
    cases call with
    | AddRage sim amount metrics =>
      have ha : 0 ≤ amount := hamount
      obtain ⟨unit₁, hrun, hbar, -⟩ := AddRage_ok unit sim amount metrics ha
      have h0₁ : 0 ≤ unit₁.rageBar.currentRage := by
        rw [hbar]
        exact le_min (add_nonneg h0 ha) (by norm_num [MaxRage])
      have h1₁ : unit₁.rageBar.currentRage ≤ MaxRage := by
        rw [hbar]
        exact min_le_right _ _
      obtain ⟨unit₂, hrest, hb⟩ :=
        ih unit₁ (fun c hc => hadd c (List.mem_cons_of_mem _ hc))
          (fun c hc => hnn c (List.mem_cons_of_mem _ hc)) h0₁ h1₁
      refine ⟨unit₂, ?_, hb⟩
      simp only [runCalls, RageCall.run, hrun]
      exact hrest
    | SpendRage sim amount metrics => simp [RageCall.isAddRage] at hcall
    | reset sim => simp [RageCall.isAddRage] at hcall

/-- The bounds kept by every run of calls with non-negative amounts: the starting rage
stays within `[0, MaxRage]`, the current rage stays at most `MaxRage`, and it stays
non-negative as long as every spend is affordable. -/
lemma runCalls_bounds (calls : List RageCall) :
    ∀ unit : Unit, (∀ c ∈ calls, 0 ≤ c.amount) →
      0 ≤ unit.rageBar.startingRage → unit.rageBar.startingRage ≤ MaxRage →
      unit.rageBar.currentRage ≤ MaxRage →
      ∃ unit₁, runCalls unit calls = .ok unit₁ ∧ unit₁.rageBar.currentRage ≤ MaxRage ∧
        (0 ≤ unit.rageBar.currentRage → spendsAffordable unit calls = true →
          0 ≤ unit₁.rageBar.currentRage) := by
  induction calls with
  | nil =>
    intro unit _ _ _ h1
    exact ⟨unit, rfl, h1, fun h0 _ => h0⟩
  | cons call rest ih =>
    intro unit hnn hs0 hs1 h1
    have hamount := hnn call (List.mem_cons_self _ _)
    have hrestnn : ∀ c ∈ rest, 0 ≤ c.amount := fun c hc => hnn c (List.mem_cons_of_mem _ hc)
    cases call with
    | AddRage sim amount metrics =>
      have ha : 0 ≤ amount := hamount
      obtain ⟨unit₁, hrun, hbar, -⟩ := AddRage_ok unit sim amount metrics ha
      obtain ⟨unit₂, hrest, hle, hge⟩ := ih unit₁ hrestnn (by rw [hbar]; exact hs0)
        (by rw [hbar]; exact hs1) (by rw [hbar]; exact min_le_right _ _)
      refine ⟨unit₂, ?_, hle, ?_⟩
      · simp only [runCalls, RageCall.run, hrun]
        exact hrest
      · intro h0 haff
        apply hge
        · rw [hbar]
          exact le_min (add_nonneg h0 ha) (by norm_num [MaxRage])
        · simpa [spendsAffordable, RageCall.run, hrun] using haff
    | SpendRage sim amount metrics =>
      have ha : 0 ≤ amount := hamount
      obtain ⟨unit₁, hrun, hbar, -⟩ := SpendRage_ok unit sim amount metrics ha
      obtain ⟨unit₂, hrest, hle, hge⟩ := ih unit₁ hrestnn (by rw [hbar]; exact hs0)
        (by rw [hbar]; exact hs1)
        (by rw [hbar]; show unit.rageBar.currentRage - amount ≤ MaxRage; linarith)
      refine ⟨unit₂, ?_, hle, ?_⟩
      · simp only [runCalls, RageCall.run, hrun]
        exact hrest
      · intro _ haff
        simp only [spendsAffordable, RageCall.run, hrun, Bool.and_eq_true,
          decide_eq_true_eq] at haff
        apply hge _ haff.2
        rw [hbar]
        show 0 ≤ unit.rageBar.currentRage - amount
        linarith [haff.1]
    | reset sim =>
      have hreset : (reset unit sim).rageBar.startingRage = unit.rageBar.startingRage := by
        unfold reset
        split_ifs <;> rfl
      have hcur : (reset unit sim).rageBar.currentRage = unit.rageBar.currentRage ∨
          (reset unit sim).rageBar.currentRage = unit.rageBar.startingRage := by
        unfold reset
        split_ifs
        · exact Or.inl rfl
        · exact Or.inr rfl
      obtain ⟨unit₂, hrest, hle, hge⟩ := ih (reset unit sim) hrestnn (by rw [hreset]; exact hs0)
        (by rw [hreset]; exact hs1)
        (by rcases hcur with h | h <;> rw [h] <;> assumption)
      refine ⟨unit₂, ?_, hle, ?_⟩
      · simp only [runCalls, RageCall.run]
        exact hrest
      · intro h0 haff
        apply hge
        · rcases hcur with h | h <;> rw [h] <;> assumption
        · simpa [spendsAffordable, RageCall.run] using haff

/-- The aura registered by `EnableRageBar` captures the conversion factor of the unit's
level and the damage-taken metrics handle. -/
lemma EnableRageBar_aura (unit : Unit) (options : RageBarOptions) :
    (EnableRageBar unit options).rageBarAura =
      some ⟨GetRageConversion unit.Level, NewRageMetrics ⟨0, .OtherActionDamageTaken, 0⟩⟩ := rfl

/-! ## The resource bar: clamp, add, spend, failure -/

/-- C1: from a rage bar whose current rage is within `[0, 100]`, after every call of a
finite sequence of `AddRage` calls with non-negative amounts (that is, after every prefix
of the sequence) the calls have returned and the current rage is within `[0, 100]`. -/
theorem AddRage_sequence_stays_within_bar (unit : Unit) (calls : List RageCall)
    (hadd : ∀ c ∈ calls, c.isAddRage = true) (hnn : ∀ c ∈ calls, 0 ≤ c.amount)
    (h0 : 0 ≤ CurrentRage unit) (h100 : CurrentRage unit ≤ 100) (n : Nat) :
    ∃ unit₁, runCalls unit (calls.take n) = .ok unit₁ ∧
      0 ≤ CurrentRage unit₁ ∧ CurrentRage unit₁ ≤ 100 ∧ MaxRage = 100 := by
  obtain ⟨unit₁, hrun, hlo, hhi⟩ :=
    runCalls_addRage_clamped (calls.take n) unit
      (fun c hc => hadd c (List.mem_of_mem_take hc))
      (fun c hc => hnn c (List.mem_of_mem_take hc)) h0 (by simpa [MaxRage, CurrentRage] using h100)
  exact ⟨unit₁, hrun, hlo, by simpa [MaxRage, CurrentRage] using hhi, rfl⟩

/-- Witness of C1: two `AddRage` calls (25, then 3) on the bar holding 90 rage. -/
theorem AddRage_sequence_stays_within_bar_witness :
    ∃ unit₁,
      runCalls sampleUnit90
        ([RageCall.AddRage sampleSim 25 sampleMetrics,
          RageCall.AddRage sampleSim 3 sampleMetrics].take 2) = .ok unit₁ ∧
      0 ≤ CurrentRage unit₁ ∧ CurrentRage unit₁ ≤ 100 ∧ MaxRage = 100 :=
  AddRage_sequence_stays_within_bar sampleUnit90
    [RageCall.AddRage sampleSim 25 sampleMetrics, RageCall.AddRage sampleSim 3 sampleMetrics]
    (by simp [RageCall.isAddRage]) (by simp [RageCall.amount])
    (by show (0 : ℚ) ≤ 90; norm_num) (by show (90 : ℚ) ≤ 100; norm_num) 2

/-- C2: for every current rage `c` and amount `a ≥ 0`, `AddRage` returns with the current
rage set to `min (c + a) 100`, which is what `CurrentRage` then reads; it records exactly
the event `(a, min (c + a) 100 - c)` on the given metrics; and the reaction to the rage
change is only scheduled (`StartDelayedAction`), no delayed action has run. -/
theorem AddRage_sets_min_and_records_gain (unit : Unit) (sim : Simulation) (amount : ℚ)
    (metrics : ResourceMetrics) (h : 0 ≤ amount) :
    ∃ unit₁, AddRage unit sim amount metrics = .ok unit₁ ∧
      CurrentRage unit₁ = min (CurrentRage unit + amount) 100 ∧
      unit₁.events = unit.events ++
        [⟨metrics, amount, min (CurrentRage unit + amount) 100 - CurrentRage unit⟩] ∧
      unit₁.effects = unit.effects ++
        ((if sim.Log then
            [Effect.LogGained amount metrics.ActionID (CurrentRage unit)
              (min (CurrentRage unit + amount) 100)]
          else []) ++
        ((if sim.Interactive then [] else [Effect.ReactToEvent]) ++
        [Effect.StartDelayedAction (wrapInt64 (sim.CurrentTime + Millisecond * 1)) metrics])) := by
  obtain ⟨unit₁, hrun, hbar, hev, heff, -⟩ := AddRage_ok unit sim amount metrics h
  refine ⟨unit₁, hrun, ?_, ?_, ?_⟩
  · simp [CurrentRage, hbar, MaxRage]
  · simpa [CurrentRage, MaxRage] using hev
  · simpa [CurrentRage, MaxRage] using heff

/-- Witness of C2, the scenario of the spec: with current rage 90, `AddRage 25` leaves the
current rage at 100 and records the event `(25, 10)`: an actual gain of 10, not 25. -/
theorem AddRage_sets_min_and_records_gain_witness :
    ∃ unit₁, AddRage sampleUnit90 sampleSim 25 sampleMetrics = .ok unit₁ ∧
      CurrentRage unit₁ = 100 ∧ unit₁.events = [⟨sampleMetrics, 25, 10⟩] := by
  obtain ⟨unit₁, hrun, hcur, hev, -⟩ :=
    AddRage_sets_min_and_records_gain sampleUnit90 sampleSim 25 sampleMetrics (by norm_num)
  have h90 : CurrentRage sampleUnit90 = 90 := rfl
  have hnil : sampleUnit90.events = [] := rfl
  refine ⟨unit₁, hrun, ?_, ?_⟩
  · rw [hcur, h90]
    norm_num
  · rw [hev, h90, hnil]
    norm_num

/-- Counterexample to C3 as stated: on a freshly reset bar with starting rage 0, the single
call `SpendRage 5` (a non-negative amount) returns and leaves the current rage at `-5`,
below zero. -/
theorem SpendRage_after_reset_goes_negative :
    (∀ c ∈ [RageCall.SpendRage sampleSim 5 sampleMetrics], 0 ≤ c.amount) ∧
    ∃ unit₁,
      runCalls (reset (EnableRageBar sampleUnit sampleOptions) sampleSim)
        [RageCall.SpendRage sampleSim 5 sampleMetrics] = .ok unit₁ ∧
      CurrentRage unit₁ = -5 ∧ ¬ (0 ≤ CurrentRage unit₁ ∧ CurrentRage unit₁ ≤ 100) := by
  refine ⟨by simp [RageCall.amount], ?_⟩
  obtain ⟨unit₁, hrun, hbar, -⟩ :=
    SpendRage_ok (reset (EnableRageBar sampleUnit sampleOptions) sampleSim) sampleSim 5
      sampleMetrics (by norm_num)
  have hcur : CurrentRage unit₁ = -5 := by
    have h0 : (reset (EnableRageBar sampleUnit sampleOptions) sampleSim).rageBar.currentRage
        = max 0 (min 0 MaxRage) := rfl
    simp only [CurrentRage, hbar, h0]
    norm_num [MaxRage]
  refine ⟨unit₁, ?_, hcur, ?_⟩
  · simp only [runCalls, RageCall.run, hrun]
  · rw [hcur]
    norm_num

/-- C3 (amended): every sequence of `AddRage`, `SpendRage` (each with a non-negative
amount) and `reset` calls on a freshly reset rage bar returns, and in the state it reaches
the current rage is at most 100; it is also at least 0 provided every `SpendRage` of the
sequence asked for at most the rage the bar held when it was called. -/
theorem reachable_rage_bounds (u0 : Unit) (options : RageBarOptions) (sim0 : Simulation)
    (calls : List RageCall) (hnn : ∀ c ∈ calls, 0 ≤ c.amount) :
    ∃ unit₁, runCalls (reset (EnableRageBar u0 options) sim0) calls = .ok unit₁ ∧
      CurrentRage unit₁ ≤ 100 ∧
      (spendsAffordable (reset (EnableRageBar u0 options) sim0) calls = true →
        0 ≤ CurrentRage unit₁) := by
  have hstart : (reset (EnableRageBar u0 options) sim0).rageBar.startingRage
      = max 0 (min options.StartingRage MaxRage) := rfl
  have hcur : (reset (EnableRageBar u0 options) sim0).rageBar.currentRage
      = max 0 (min options.StartingRage MaxRage) := rfl
  have hlo : (0 : ℚ) ≤ max 0 (min options.StartingRage MaxRage) := le_max_left _ _
  have hhi : max 0 (min options.StartingRage MaxRage) ≤ MaxRage :=
    max_le (by norm_num [MaxRage]) (min_le_right _ _)
  obtain ⟨unit₁, hrun, hle, hge⟩ :=
    runCalls_bounds calls (reset (EnableRageBar u0 options) sim0) hnn
      (by rw [hstart]; exact hlo) (by rw [hstart]; exact hhi) (by rw [hcur]; exact hhi)
  refine ⟨unit₁, hrun, by simpa [MaxRage, CurrentRage] using hle, fun haff => ?_⟩
  exact hge (by rw [hcur]; exact hlo) haff

/-- Witness of C3 (amended): add 30, spend 20, reset, on the sample bar; every spend is
affordable, so the current rage ends within `[0, 100]`. -/
theorem reachable_rage_bounds_witness :
    ∃ unit₁,
      runCalls (reset (EnableRageBar sampleUnit sampleOptions) sampleSim)
        [RageCall.AddRage sampleSim 30 sampleMetrics,
          RageCall.SpendRage sampleSim 20 sampleMetrics, RageCall.reset sampleSim] = .ok unit₁ ∧
      CurrentRage unit₁ ≤ 100 ∧ 0 ≤ CurrentRage unit₁ := by
  obtain ⟨unit₁, hrun, hle, hge⟩ :=
    reachable_rage_bounds sampleUnit sampleOptions sampleSim
      [RageCall.AddRage sampleSim 30 sampleMetrics,
        RageCall.SpendRage sampleSim 20 sampleMetrics, RageCall.reset sampleSim]
      (by simp [RageCall.amount])
  refine ⟨unit₁, hrun, hle, hge ?_⟩
  norm_num [spendsAffordable, RageCall.run, AddRage, SpendRage, reset, EnableRageBar, AddEvent,
    emit, sampleSim, sampleUnit, sampleOptions, MaxRage]

/-- C4: for every current rage `c` and amount `a ≥ 0`, `SpendRage` returns with the current
rage set to exactly `c - a`, without a clamp at zero (negative when `a > c`), and records
exactly the event `(-a, -a)` on the given metrics. -/
theorem SpendRage_subtracts_without_clamp (unit : Unit) (sim : Simulation) (amount : ℚ)
    (metrics : ResourceMetrics) (h : 0 ≤ amount) :
    ∃ unit₁, SpendRage unit sim amount metrics = .ok unit₁ ∧
      CurrentRage unit₁ = CurrentRage unit - amount ∧
      (CurrentRage unit < amount → CurrentRage unit₁ < 0) ∧
      unit₁.events = unit.events ++ [⟨metrics, -amount, -amount⟩] := by
  obtain ⟨unit₁, hrun, hbar, hev, -⟩ := SpendRage_ok unit sim amount metrics h
  have hcur : CurrentRage unit₁ = CurrentRage unit - amount := by
    simp [CurrentRage, hbar]
  refine ⟨unit₁, hrun, hcur, fun hlt => ?_, hev⟩
  rw [hcur]
  linarith

/-- Witness of C4: spending 95 from the bar holding 90 leaves `-5`. -/
theorem SpendRage_subtracts_without_clamp_witness :
    ∃ unit₁, SpendRage sampleUnit90 sampleSim 95 sampleMetrics = .ok unit₁ ∧
      CurrentRage unit₁ = -5 ∧ CurrentRage unit₁ < 0 ∧
      unit₁.events = [⟨sampleMetrics, -95, -95⟩] := by
  obtain ⟨unit₁, hrun, hcur, hneg, hev⟩ :=
    SpendRage_subtracts_without_clamp sampleUnit90 sampleSim 95 sampleMetrics (by norm_num)
  have h90 : CurrentRage sampleUnit90 = 90 := rfl
  have hnil : sampleUnit90.events = [] := rfl
  refine ⟨unit₁, hrun, ?_, hneg (by rw [h90]; norm_num), ?_⟩
  · rw [hcur, h90]
    norm_num
  · rw [hev, hnil]
    rfl

/-- C5: `AddRage` panics if and only if `amount < 0`, and so does `SpendRage`; both return
for `amount = 0`; and the state carried by either panic is the state before the call, so
the current rage and the metrics are untouched. -/
theorem negative_amount_is_the_only_panic (unit : Unit) (sim : Simulation) (amount : ℚ)
    (metrics : ResourceMetrics) :
    ((∃ p, AddRage unit sim amount metrics = .error p) ↔ amount < 0) ∧
    ((∃ p, SpendRage unit sim amount metrics = .error p) ↔ amount < 0) ∧
    (∃ unit₁, AddRage unit sim 0 metrics = .ok unit₁) ∧
    (∃ unit₁, SpendRage unit sim 0 metrics = .ok unit₁) ∧
    (∀ p, AddRage unit sim amount metrics = .error p →
      p.state = unit ∧ CurrentRage p.state = CurrentRage unit ∧ p.state.events = unit.events) ∧
    (∀ p, SpendRage unit sim amount metrics = .error p →
      p.state = unit ∧ CurrentRage p.state = CurrentRage unit ∧ p.state.events = unit.events) := by
  have hadd0 := AddRage_ok unit sim 0 metrics le_rfl
  have hspend0 := SpendRage_ok unit sim 0 metrics le_rfl
  refine ⟨⟨?_, ?_⟩, ⟨?_, ?_⟩, ?_, ?_, ?_, ?_⟩
  · rintro ⟨p, hp⟩
    by_contra hge
    obtain ⟨unit₁, hrun, -⟩ := AddRage_ok unit sim amount metrics (not_lt.mp hge)
    rw [hrun] at hp
    cases hp
  · intro hlt
    exact ⟨⟨"Trying to add negative rage!", unit⟩, by simp [AddRage, hlt]⟩
  · rintro ⟨p, hp⟩
    by_contra hge
    obtain ⟨unit₁, hrun, -⟩ := SpendRage_ok unit sim amount metrics (not_lt.mp hge)
    rw [hrun] at hp
    cases hp
  · intro hlt
    exact ⟨⟨"Trying to spend negative rage!", unit⟩, by simp [SpendRage, hlt]⟩
  · exact ⟨hadd0.choose, hadd0.choose_spec.1⟩
  · exact ⟨hspend0.choose, hspend0.choose_spec.1⟩
  · intro p hp
    by_cases hlt : amount < 0
    · simp only [AddRage, hlt, if_true] at hp
      cases hp
      exact ⟨rfl, rfl, rfl⟩
    · obtain ⟨unit₁, hrun, -⟩ := AddRage_ok unit sim amount metrics (not_lt.mp hlt)
      rw [hrun] at hp
      cases hp
  · intro p hp
    by_cases hlt : amount < 0
    · simp only [SpendRage, hlt, if_true] at hp
      cases hp
      exact ⟨rfl, rfl, rfl⟩
    · obtain ⟨unit₁, hrun, -⟩ := SpendRage_ok unit sim amount metrics (not_lt.mp hlt)
      rw [hrun] at hp
      cases hp

/-! ## The conversion factor -/

/-- C6: `GetRageConversion 25` is exactly `82.25` and `GetRageConversion 40` is exactly
`140.5`. -/
theorem GetRageConversion_pinned_levels :
    GetRageConversion 25 = 82.25 ∧ GetRageConversion 40 = 140.5 := by
  constructor <;> norm_num [GetRageConversion]

/-- C7 (the code at the failing inputs): `attacker_level^2` is an exclusive or with 2, not
a square, so at level 60 the code returns `0.0091107836*62 + 3.225598133*60 + 4.2652911`
(`60 XOR 2 = 62`), which is not the quadratic `0.0091107836*3600 + 3.225598133*60 +
4.2652911`; and at level 10 it returns `0.0215*8 + 2.66*10 + 0.89` (`10 XOR 2 = 8`), which
is not `0.0215*100 + 2.66*10 + 0.89`. -/
theorem GetRageConversion_is_xor_not_square :
    GetRageConversion 60 = 0.0091107836 * 62 + 3.225598133 * 60 + 4.2652911 ∧
    GetRageConversion 60 ≠ 0.0091107836 * 3600 + 3.225598133 * 60 + 4.2652911 ∧
    GetRageConversion 10 = 0.0215 * 8 + 2.66 * 10 + 0.89 ∧
    GetRageConversion 10 ≠ 0.0215 * 100 + 2.66 * 10 + 0.89 := by
  have h60 : Int.xor 60 2 = 62 := by decide
  have h10 : Int.xor 10 2 = 8 := by decide
  refine ⟨?_, ?_, ?_, ?_⟩ <;> norm_num [GetRageConversion, h60, h10]

/-! ## Rage generated by the hooks of the `RageBar` aura -/

/-- C8: for the `RageBar` aura registered by `EnableRageBar`, on a unit whose active power
bar is rage, for a main-hand or off-hand auto attack whose outcome is neither a miss nor a
dodge or parry, the hit-dealt hook is the call of `AddRage` with the amount
`Damage * 7.5 / GetRageConversion unit.Level * damageDealtMultiplier +
flatDamageDealtBonusRage`, on the metrics resolved for the spell. -/
theorem OnSpellHitDealt_landed_amount (flags : Flags) (u0 : Unit) (options : RageBarOptions)
    (aura : RageBarAura) (unit : Unit) (sim : Simulation) (spell : Spell)
    (result : SpellResult) (metrics : ResourceMetrics)
    (haura : (EnableRageBar u0 options).rageBarAura = some aura)
    (hlevel : unit.Level = u0.Level)
    (hbar : unit.currentPowerBar = .RageBar)
    (hauto : spell.ProcMask = flags.ProcMaskMeleeMHAuto ∨
      spell.ProcMask = flags.ProcMaskMeleeOHAuto)
    (hmiss : flags.Matches result.Outcome flags.OutcomeMiss = false)
    (hdp : flags.Matches result.Outcome (flags.OutcomeDodge ||| flags.OutcomeParry) = false)
    (hm : hitDealtMetrics unit spell = .ok metrics) :
    OnSpellHitDealt flags aura unit sim spell result =
      AddRage unit sim
        (result.Damage * 7.5 / GetRageConversion unit.Level
            * unit.rageBar.damageDealtMultiplier
          + unit.rageBar.flatDamageDealtBonusRage) metrics := by
  rw [EnableRageBar_aura] at haura
  cases haura
  have hproc : ¬ (spell.ProcMask ≠ flags.ProcMaskMeleeMHAuto ∧
      spell.ProcMask ≠ flags.ProcMaskMeleeOHAuto) := by
    rintro ⟨h₁, h₂⟩
    rcases hauto with h | h
    · exact h₁ h
    · exact h₂ h
  simp only [OnSpellHitDealt, hbar, ne_eq, not_true_eq_false, if_false, hmiss, hproc, hdp, hm,
    hlevel, Bool.false_eq_true]

/-- Witness of C8: a main-hand auto attack landing for 200 damage on the level 60 sample
unit (multiplier 1, no flat bonus). -/
theorem OnSpellHitDealt_landed_amount_witness :
    OnSpellHitDealt sampleFlags ⟨GetRageConversion 60, NewRageMetrics ⟨0, .OtherActionDamageTaken, 0⟩⟩
        sampleRageUnit sampleSim sampleAutoAttack ⟨4, 200, 200⟩ =
      AddRage sampleRageUnit sampleSim
        (200 * 7.5 / GetRageConversion sampleRageUnit.Level
            * sampleRageUnit.rageBar.damageDealtMultiplier
          + sampleRageUnit.rageBar.flatDamageDealtBonusRage) sampleMetrics :=
  OnSpellHitDealt_landed_amount sampleFlags sampleUnit sampleOptions _ sampleRageUnit sampleSim
    sampleAutoAttack ⟨4, 200, 200⟩ sampleMetrics rfl rfl rfl (Or.inl rfl) (by decide) (by decide)
    rfl

/-- C9: for a dodged or parried auto attack (not a miss) the hit-dealt hook is the call
of `AddRage` with the amount computed from `PreOutcomeDamage` in place of `Damage`; it is
the same call as for any landed result whose `Damage` is that `PreOutcomeDamage`; and with
multiplier 1, flat bonus 0 and a notional damage of 100 the amount is
`100 * 7.5 / GetRageConversion unit.Level`, which is not zero. -/
theorem OnSpellHitDealt_dodge_parry_amount (flags : Flags) (u0 : Unit)
    (options : RageBarOptions) (aura : RageBarAura) (unit : Unit) (sim : Simulation)
    (spell : Spell) (result : SpellResult) (metrics : ResourceMetrics)
    (haura : (EnableRageBar u0 options).rageBarAura = some aura)
    (hlevel : unit.Level = u0.Level)
    (hbar : unit.currentPowerBar = .RageBar)
    (hauto : spell.ProcMask = flags.ProcMaskMeleeMHAuto ∨
      spell.ProcMask = flags.ProcMaskMeleeOHAuto)
    (hmiss : flags.Matches result.Outcome flags.OutcomeMiss = false)
    (hdp : flags.Matches result.Outcome (flags.OutcomeDodge ||| flags.OutcomeParry) = true)
    (hm : hitDealtMetrics unit spell = .ok metrics) :
    OnSpellHitDealt flags aura unit sim spell result =
      AddRage unit sim
        (result.PreOutcomeDamage * 7.5 / GetRageConversion unit.Level
            * unit.rageBar.damageDealtMultiplier
          + unit.rageBar.flatDamageDealtBonusRage) metrics ∧
    (∀ landed : SpellResult,
      flags.Matches landed.Outcome flags.OutcomeMiss = false →
      flags.Matches landed.Outcome (flags.OutcomeDodge ||| flags.OutcomeParry) = false →
      landed.Damage = result.PreOutcomeDamage →
      OnSpellHitDealt flags aura unit sim spell result =
        OnSpellHitDealt flags aura unit sim spell landed) ∧
    (unit.rageBar.damageDealtMultiplier = 1 → unit.rageBar.flatDamageDealtBonusRage = 0 →
      result.PreOutcomeDamage = 100 →
      OnSpellHitDealt flags aura unit sim spell result =
        AddRage unit sim (100 * 7.5 / GetRageConversion unit.Level) metrics ∧
      100 * 7.5 / GetRageConversion unit.Level ≠ 0) := by
  rw [EnableRageBar_aura] at haura
  cases haura
  have hproc : ¬ (spell.ProcMask ≠ flags.ProcMaskMeleeMHAuto ∧
      spell.ProcMask ≠ flags.ProcMaskMeleeOHAuto) := by
    rintro ⟨h₁, h₂⟩
    rcases hauto with h | h
    · exact h₁ h
    · exact h₂ h
  have hmain : OnSpellHitDealt flags
        ⟨GetRageConversion u0.Level, NewRageMetrics ⟨0, .OtherActionDamageTaken, 0⟩⟩
        unit sim spell result =
      AddRage unit sim
        (result.PreOutcomeDamage * 7.5 / GetRageConversion unit.Level
            * unit.rageBar.damageDealtMultiplier
          + unit.rageBar.flatDamageDealtBonusRage) metrics := by
    simp only [OnSpellHitDealt, hbar, ne_eq, not_true_eq_false, if_false, hmiss, hproc, hdp,
      hm, hlevel, Bool.false_eq_true, if_true]
  refine ⟨hmain, ?_, ?_⟩
  · intro landed hlmiss hldp hdamage
    rw [hmain]
    simp only [OnSpellHitDealt, hbar, ne_eq, not_true_eq_false, if_false, hlmiss, hproc, hldp,
      hm, hlevel, hdamage, Bool.false_eq_true]
  · intro hmult hflat hpre
    refine ⟨?_, ?_⟩
    · rw [hmain, hmult, hflat, hpre]
      congr 1
      ring
    · exact div_ne_zero (by norm_num) (GetRageConversion_ne_zero _)

/-- Witness of C9: a dodged main-hand auto attack with a notional damage of 100 on the
level 60 sample unit (multiplier 1, no flat bonus) calls `AddRage` with
`100 * 7.5 / GetRageConversion 60`, which is not zero. -/
theorem OnSpellHitDealt_dodge_parry_amount_witness :
    OnSpellHitDealt sampleFlags ⟨GetRageConversion 60, NewRageMetrics ⟨0, .OtherActionDamageTaken, 0⟩⟩
        sampleRageUnit sampleSim sampleAutoAttack ⟨8, 0, 100⟩ =
      AddRage sampleRageUnit sampleSim (100 * 7.5 / GetRageConversion 60) sampleMetrics ∧
    100 * 7.5 / GetRageConversion 60 ≠ 0 :=
  (OnSpellHitDealt_dodge_parry_amount sampleFlags sampleUnit sampleOptions _ sampleRageUnit
    sampleSim sampleAutoAttack ⟨8, 0, 100⟩ sampleMetrics rfl rfl rfl (Or.inl rfl) (by decide)
    (by decide) rfl).2.2 rfl rfl rfl

/-- C10: for the `RageBar` aura registered by `EnableRageBar`, on a unit whose active power
bar is rage, the hit-taken hook is the call of `AddRage` with the amount
`Damage * 2.5 / GetRageConversion (level of the unit owning the attacking spell) *
damageTakenMultiplier + flatDamageTakenBonusRage`, on the damage-taken metrics of the unit;
the defender's level, the damage-dealt multiplier and the damage-dealt bonus do not enter
the amount: whatever they are changed to, the amount passed is the same. -/
theorem OnSpellHitTaken_amount (u0 : Unit) (options : RageBarOptions) (aura : RageBarAura)
    (unit : Unit) (sim : Simulation) (spell : Spell) (result : SpellResult)
    (haura : (EnableRageBar u0 options).rageBarAura = some aura)
    (hbar : unit.currentPowerBar = .RageBar) :
    OnSpellHitTaken aura unit sim spell result =
      AddRage unit sim
        (result.Damage * 2.5 / GetRageConversion spell.Unit.Level
            * unit.rageBar.damageTakenMultiplier
          + unit.rageBar.flatDamageTakenBonusRage)
        (NewRageMetrics ⟨0, .OtherActionDamageTaken, 0⟩) ∧
    (∀ (level : Int) (multiplier bonus : ℚ),
      OnSpellHitTaken aura
          { unit with
            Level := level
            rageBar :=
              { unit.rageBar with
                damageDealtMultiplier := multiplier
                flatDamageDealtBonusRage := bonus } } sim spell result =
        AddRage
          { unit with
            Level := level
            rageBar :=
              { unit.rageBar with
                damageDealtMultiplier := multiplier
                flatDamageDealtBonusRage := bonus } } sim
          (result.Damage * 2.5 / GetRageConversion spell.Unit.Level
              * unit.rageBar.damageTakenMultiplier
            + unit.rageBar.flatDamageTakenBonusRage)
          (NewRageMetrics ⟨0, .OtherActionDamageTaken, 0⟩)) := by
  rw [EnableRageBar_aura] at haura
  cases haura
  refine ⟨?_, ?_⟩
  · simp only [OnSpellHitTaken, hbar, ne_eq, not_true_eq_false, if_false]
  · intro level multiplier bonus
    simp only [OnSpellHitTaken, hbar, ne_eq, not_true_eq_false, if_false]

/-- Witness of C10: the level 60 sample unit is hit for 300 damage by a spell of a level 25
attacker; the amount is computed with `GetRageConversion 25`. -/
theorem OnSpellHitTaken_amount_witness :
    OnSpellHitTaken ⟨GetRageConversion 60, NewRageMetrics ⟨0, .OtherActionDamageTaken, 0⟩⟩
        sampleRageUnit sampleSim { sampleAutoAttack with Unit := ⟨25⟩ } ⟨4, 300, 300⟩ =
      AddRage sampleRageUnit sampleSim
        (300 * 2.5 / GetRageConversion 25 * sampleRageUnit.rageBar.damageTakenMultiplier
          + sampleRageUnit.rageBar.flatDamageTakenBonusRage)
        (NewRageMetrics ⟨0, .OtherActionDamageTaken, 0⟩) :=
  (OnSpellHitTaken_amount sampleUnit sampleOptions _ sampleRageUnit sampleSim
    { sampleAutoAttack with Unit := ⟨25⟩ } ⟨4, 300, 300⟩ rfl rfl).1

/-! ## The rage cost -/

/-- The `RageCost` built by `newRageCost`, field by field. -/
lemma newRageCost_rageCost (unit : Unit) (spell : Spell) (options : RageCostOptions) :
    (newRageCost unit spell options).SpellCostFunctions =
      .RageCost
        { Refund := options.Refund * options.Cost
          RefundMetrics :=
            if options.Refund > 0 ∧ options.RefundMetrics = none then
              unit.rageBar.RageRefundMetrics
            else options.RefundMetrics
          ResourceMetrics := NewRageMetrics spell.ActionID } := by
  unfold newRageCost
  split_ifs <;> rfl

/-- C11: for a spell with a cost, `MeetsRequirement` returns; the boolean it returns is
true if and only if the unit's current rage is at least `spell.Cost.GetCurrentCost()`; the
spell it leaves differs from the given one only in `CurCast.Cost`, which holds that cost;
and the unit, with its rage bar, is the one given. -/
theorem MeetsRequirement_compares_rage_with_current_cost (rc : RageCost)
    (GetCurrentCost : SpellCost → ℚ) (unit : Unit) (spell : Spell) (cost : SpellCost)
    (hcost : spell.Cost = some cost) :
    ∃ (b : Bool) (spell₁ : Spell),
      rc.MeetsRequirement GetCurrentCost unit spell = .ok (b, spell₁, unit) ∧
      (b = true ↔ CurrentRage unit ≥ GetCurrentCost cost) ∧
      spell₁.CurCast.Cost = GetCurrentCost cost ∧
      spell₁ = { spell with CurCast := { spell.CurCast with Cost := GetCurrentCost cost } } := by
  refine ⟨decide (CurrentRage unit ≥ GetCurrentCost cost),
    { spell with CurCast := { spell.CurCast with Cost := GetCurrentCost cost } }, ?_, ?_, rfl, rfl⟩
  · simp only [RageCost.MeetsRequirement, hcost]
  · simp

/-- Witness of C11: Heroic Strike (cost 15) on the unit holding 90 rage meets its
requirement and has 15 stored as the cost of the current cast. -/
theorem MeetsRequirement_compares_rage_with_current_cost_witness :
    ∃ (b : Bool) (spell₁ : Spell),
      RageCost.MeetsRequirement ⟨12, none, sampleMetrics⟩ sampleGetCurrentCost sampleUnit90
        sampleHeroicStrike = .ok (b, spell₁, sampleUnit90) ∧
      b = true ∧ spell₁.CurCast.Cost = 15 := by
  obtain ⟨b, spell₁, hrun, hb, hc, -⟩ :=
    MeetsRequirement_compares_rage_with_current_cost ⟨12, none, sampleMetrics⟩
      sampleGetCurrentCost sampleUnit90 sampleHeroicStrike
      (newRageCost sampleRageUnit sampleHeroicStrikeConfig sampleHeroicStrikeOptions) rfl
  have hcost : sampleGetCurrentCost
      (newRageCost sampleRageUnit sampleHeroicStrikeConfig sampleHeroicStrikeOptions) = 15 := by
    norm_num [sampleGetCurrentCost, newRageCost, sampleHeroicStrikeOptions]
  have h90 : CurrentRage sampleUnit90 = 90 := rfl
  refine ⟨b, spell₁, hrun, ?_, ?_⟩
  · rw [hb, hcost, h90]
    norm_num
  · rw [hc, hcost]

/-- C12: for the rage cost built by `newRageCost` for a spell, `SpendCost` with a strictly
positive `spell.CurCast.Cost` returns with the rage reduced by exactly that cost and with
exactly one more event, `(-cost, -cost)`, on the rage metrics of the spell's own action id;
with a zero or negative cost it returns the unit unchanged (rage bar, metrics events and
recorded calls). -/
theorem SpendCost_spends_the_current_cost (unit₀ : Unit) (options : RageCostOptions)
    (rc : RageCost) (unit : Unit) (sim : Simulation) (spell : Spell)
    (hrc : (newRageCost unit₀ spell options).SpellCostFunctions = .RageCost rc) :
    (0 < spell.CurCast.Cost →
      ∃ unit₁, rc.SpendCost unit sim spell = .ok unit₁ ∧
        CurrentRage unit₁ = CurrentRage unit - spell.CurCast.Cost ∧
        unit₁.events = unit.events ++
          [⟨NewRageMetrics spell.ActionID, -spell.CurCast.Cost, -spell.CurCast.Cost⟩]) ∧
    (spell.CurCast.Cost ≤ 0 → rc.SpendCost unit sim spell = .ok unit) := by
  rw [newRageCost_rageCost] at hrc
  cases hrc
  constructor
  · intro hpos
    obtain ⟨unit₁, hrun, hbar, hev, -⟩ :=
      SpendRage_ok unit sim spell.CurCast.Cost (NewRageMetrics spell.ActionID) hpos.le
    refine ⟨unit₁, ?_, ?_, hev⟩
    · simp only [RageCost.SpendCost, gt_iff_lt, hpos, if_true]
      exact hrun
    · simp [CurrentRage, hbar]
  · intro hle
    simp only [RageCost.SpendCost, gt_iff_lt, not_lt.mpr hle, if_false]

/-- Witness of C12: Heroic Strike with a current cast cost of 15 on the unit holding 90
rage leaves 75 and records `(-15, -15)` on the metrics of Heroic Strike. -/
theorem SpendCost_spends_the_current_cost_witness :
    ∃ unit₁,
      RageCost.SpendCost
          ⟨sampleHeroicStrikeOptions.Refund * sampleHeroicStrikeOptions.Cost,
            sampleRageUnit.rageBar.RageRefundMetrics, NewRageMetrics sampleHeroicStrike.ActionID⟩
          sampleUnit90 sampleSim
          { sampleHeroicStrike with CurCast := { GCD := 0, Cost := 15, CastTime := 0 } } =
        .ok unit₁ ∧
      CurrentRage unit₁ = 75 ∧
      unit₁.events = [⟨NewRageMetrics sampleHeroicStrike.ActionID, -15, -15⟩] := by
  obtain ⟨unit₁, hrun, hcur, hev⟩ :=
    (SpendCost_spends_the_current_cost sampleRageUnit sampleHeroicStrikeOptions
      ⟨sampleHeroicStrikeOptions.Refund * sampleHeroicStrikeOptions.Cost,
        sampleRageUnit.rageBar.RageRefundMetrics, NewRageMetrics sampleHeroicStrike.ActionID⟩
      sampleUnit90 sampleSim
      { sampleHeroicStrike with CurCast := { GCD := 0, Cost := 15, CastTime := 0 } }
      (by
        rw [newRageCost_rageCost]
        norm_num [sampleHeroicStrikeOptions])).1
      (by show (0 : ℚ) < 15; norm_num)
  have h90 : CurrentRage sampleUnit90 = 90 := rfl
  have hnil : sampleUnit90.events = [] := rfl
  refine ⟨unit₁, hrun, ?_, ?_⟩
  · rw [hcur, h90]
    show (90 : ℚ) - 15 = 75
    norm_num
  · rw [hev, hnil]
    rfl

/-- Rewriting a spell keeps the number of spells. -/
lemma length_modifySpell (f : Spell → Spell) (spells : List Spell) (idx : Nat) :
    (modifySpell f spells idx).length = spells.length := by
  induction spells generalizing idx with
  | nil => rfl
  | cons spell rest ih =>
    cases idx with
    | zero => rfl
    | succ idx => simp [modifySpell, ih]

/-- Rewriting the spell at `idx` changes that spell and no other. -/
lemma getElem?_modifySpell (f : Spell → Spell) (spells : List Spell) (idx i : Nat) :
    (modifySpell f spells idx)[i]? = if i = idx then spells[i]?.map f else spells[i]? := by
  induction spells generalizing idx i with
  | nil => simp [modifySpell]
  | cons spell rest ih =>
    cases idx with
    | zero =>
      cases i with
      | zero => simp [modifySpell]
      | succ i => simp [modifySpell]
    | succ idx =>
      cases i with
      | zero => simp [modifySpell]
      | succ i => simp [modifySpell, ih]

/-- After the loop over the pointers `affected`, the spell at `i` has been rewritten once
for every occurrence of `i` in `affected`. -/
lemma getElem?_forEachSpell (f : Spell → Spell) (affected : List Nat) (spells : List Spell)
    (i : Nat) :
    (forEachSpell f affected spells)[i]? = spells[i]?.map f^[affected.count i] := by
  induction affected generalizing spells with
  | nil => simp [forEachSpell]
  | cons idx rest ih =>
    have hstep : forEachSpell f (idx :: rest) spells
        = forEachSpell f rest (modifySpell f spells idx) := rfl
    rw [hstep, ih, getElem?_modifySpell, List.count_cons]
    by_cases h : i = idx
    · subst h
      simp only [if_true, beq_self_eq_true, Option.map_map]
      congr 1
    · have hne : (idx == i) = false := by
        simpa using fun h' : idx = i => h h'.symm
      simp [h, hne]

/-- The loop keeps the number of spells. -/
lemma length_forEachSpell (f : Spell → Spell) (affected : List Nat) (spells : List Spell) :
    (forEachSpell f affected spells).length = spells.length := by
  induction affected generalizing spells with
  | nil => rfl
  | cons idx rest ih =>
    have hstep : forEachSpell f (idx :: rest) spells
        = forEachSpell f rest (modifySpell f spells idx) := rfl
    rw [hstep, ih, length_modifySpell]

/-- If `remove` undoes `apply` on every spell satisfying `P`, and `apply` keeps `P`, the
remove loop undoes the apply loop over the same pointers. -/
lemma forEachSpell_roundTrip (apply remove : Spell → Spell) (P : Spell → Prop)
    (hinv : ∀ spell, P spell → P (apply spell) ∧ remove (apply spell) = spell)
    (affected : List Nat) (spells : List Spell) (hP : ∀ spell ∈ spells, P spell) :
    forEachSpell remove affected (forEachSpell apply affected spells) = spells := by
  have hiter : ∀ (n : Nat) (spell : Spell), P spell →
      P (apply^[n] spell) ∧ remove^[n] (apply^[n] spell) = spell := by
    intro n
    induction n with
    | zero => intro spell h; exact ⟨h, rfl⟩
    | succ n ih =>
      intro spell h
      obtain ⟨hPn, hn⟩ := ih spell h
      obtain ⟨hP1, h1⟩ := hinv _ hPn
      refine ⟨?_, ?_⟩
      · rw [Function.iterate_succ_apply']
        exact hP1
      · rw [Function.iterate_succ_apply' apply n, Function.iterate_succ_apply, h1, hn]
  apply List.ext_getElem?
  intro i
  rw [getElem?_forEachSpell, getElem?_forEachSpell]
  cases hi : spells[i]? with
  | none => simp
  | some spell =>
    have hmem : spell ∈ spells := List.mem_iff_getElem?.mpr ⟨i, hi⟩
    simp [(hiter (affected.count i) spell (hP spell hmem)).2]

/-- The `int32` wrap lands in the `int32` range. -/
lemma wrapInt32_inRange (x : Int) : InRange32 (wrapInt32 x) := by
  unfold InRange32 wrapInt32
  omega

/-- The `int64` wrap lands in the `int64` range. -/
lemma wrapInt64_inRange (x : Int) : InRange64 (wrapInt64 x) := by
  unfold InRange64 wrapInt64
  omega

/-- An `int32` subtraction undoes the `int32` addition of the same value. -/
lemma wrapInt32_add_sub (a t : Int) (h : InRange32 a) :
    wrapInt32 (wrapInt32 (a + t) - t) = a := by
  unfold InRange32 at h
  unfold wrapInt32
  omega

/-- An `int64` subtraction undoes the `int64` addition of the same value. -/
lemma wrapInt64_add_sub (a t : Int) (h : InRange64 a) :
    wrapInt64 (wrapInt64 (a + t) - t) = a := by
  unfold InRange64 at h
  unfold wrapInt64
  omega

/-- The pair `applyDamageDoneAdd` / `removeDamageDoneAdd` is a round trip. -/
lemma roundTrips_DamageDoneAdd (valid : SpellModValues → Prop) :
    RoundTrips valid applyDamageDoneAdd removeDamageDoneAdd := by
  intro mod spell _ h
  refine ⟨h, ?_⟩
  cases spell
  simp [applyDamageDoneAdd, removeDamageDoneAdd]

/-- The pair `applyBaseDamageDoneAdd` / `removeBaseDamageDoneAdd` is a round trip. -/
lemma roundTrips_BaseDamageDoneAdd (valid : SpellModValues → Prop) :
    RoundTrips valid applyBaseDamageDoneAdd removeBaseDamageDoneAdd := by
  intro mod spell _ h
  refine ⟨h, ?_⟩
  cases spell
  simp [applyBaseDamageDoneAdd, removeBaseDamageDoneAdd]

/-- The pair `applyImpactDamageDoneAdd` / `removeImpactDamageDoneAdd` is a round trip. -/
lemma roundTrips_ImpactDamageDoneAdd (valid : SpellModValues → Prop) :
    RoundTrips valid applyImpactDamageDoneAdd removeImpactDamageDoneAdd := by
  intro mod spell _ h
  refine ⟨h, ?_⟩
  cases spell
  simp [applyImpactDamageDoneAdd, removeImpactDamageDoneAdd]

/-- The pair `applyCritDamageBonusAdd` / `removeCritDamageBonusAdd` is a round trip. -/
lemma roundTrips_CritDamageBonusAdd (valid : SpellModValues → Prop) :
    RoundTrips valid applyCritDamageBonusAdd removeCritDamageBonusAdd := by
  intro mod spell _ h
  refine ⟨h, ?_⟩
  cases spell
  simp [applyCritDamageBonusAdd, removeCritDamageBonusAdd]

/-- The pair `applyCooldownMultiplierFlat` / `removeCooldownMultiplierFlat` is a round trip. -/
lemma roundTrips_CooldownMultiplierFlat (valid : SpellModValues → Prop) :
    RoundTrips valid applyCooldownMultiplierFlat removeCooldownMultiplierFlat := by
  intro mod spell _ h
  refine ⟨h, ?_⟩
  obtain ⟨_, _, _, _, _, _, _, _, _, _, ⟨_, _⟩⟩ := spell
  simp [applyCooldownMultiplierFlat, removeCooldownMultiplierFlat]

/-- The pair `applyCastTimePercent` / `removeCastTimePercent` is a round trip. -/
lemma roundTrips_CastTimePercent (valid : SpellModValues → Prop) :
    RoundTrips valid applyCastTimePercent removeCastTimePercent := by
  intro mod spell _ h
  refine ⟨h, ?_⟩
  cases spell
  simp [applyCastTimePercent, removeCastTimePercent]

/-- The pair `applyBonusCritFlat` / `removeBonusCritFlat` is a round trip. -/
lemma roundTrips_BonusCritFlat (valid : SpellModValues → Prop) :
    RoundTrips valid applyBonusCritFlat removeBonusCritFlat := by
  intro mod spell _ h
  refine ⟨h, ?_⟩
  cases spell
  simp [applyBonusCritFlat, removeBonusCritFlat]

/-- The pair `applyBonusHitFlat` / `removeBonusHitFlat` is a round trip. -/
lemma roundTrips_BonusHitFlat (valid : SpellModValues → Prop) :
    RoundTrips valid applyBonusHitFlat removeBonusHitFlat := by
  intro mod spell _ h
  refine ⟨h, ?_⟩
  cases spell
  simp [applyBonusHitFlat, removeBonusHitFlat]

/-- The pair `applyBonusCoefficientFlat` / `removeBonusCoefficientFlat` is a round trip. -/
lemma roundTrips_BonusCoefficientFlat (valid : SpellModValues → Prop) :
    RoundTrips valid applyBonusCoefficientFlat removeBonusCoefficientFlat := by
  intro mod spell _ h
  refine ⟨h, ?_⟩
  cases spell
  simp [applyBonusCoefficientFlat, removeBonusCoefficientFlat]

/-- The pair `applyBonusDamageFlat` / `removeBonusDamageFlat` is a round trip. -/
lemma roundTrips_BonusDamageFlat (valid : SpellModValues → Prop) :
    RoundTrips valid applyBonusDamageFlat removeBonusDamageFlat := by
  intro mod spell _ h
  refine ⟨h, ?_⟩
  cases spell
  simp [applyBonusDamageFlat, removeBonusDamageFlat]

/-- The pair `applyDamageDonePercent` / `removeDamageDonePercent` is a round trip when
`1 + floatValue` is not zero. -/
lemma roundTrips_DamageDonePercent :
    RoundTrips (fun mod => 1 + mod.floatValue ≠ 0) applyDamageDonePercent
      removeDamageDonePercent := by
  intro mod spell hne h
  refine ⟨h, ?_⟩
  cases spell
  simp only [applyDamageDonePercent, removeDamageDonePercent]
  congr 1
  exact mul_div_cancel_right₀ _ hne

/-- The pair `applyCooldownMultiplierPct` / `removeCooldownMultiplierPct` is a round trip
when `1 + floatValue` is not zero. -/
lemma roundTrips_CooldownMultiplierPct :
    RoundTrips (fun mod => 1 + mod.floatValue ≠ 0) applyCooldownMultiplierPct
      removeCooldownMultiplierPct := by
  intro mod spell hne h
  refine ⟨h, ?_⟩
  obtain ⟨_, _, _, _, _, _, _, _, _, _, ⟨_, _⟩⟩ := spell
  simp only [applyCooldownMultiplierPct, removeCooldownMultiplierPct]
  congr 2
  exact mul_div_cancel_right₀ _ hne

/-- The pair `applyPeriodicDamageDoneAdd` / `removePeriodicDamageDoneAdd` is a round trip:
both test the same, unchanged, list of dots. -/
lemma roundTrips_PeriodicDamageDoneAdd (valid : SpellModValues → Prop) :
    RoundTrips valid applyPeriodicDamageDoneAdd removePeriodicDamageDoneAdd := by
  intro mod spell _ h
  unfold applyPeriodicDamageDoneAdd removePeriodicDamageDoneAdd
  by_cases hd : spell.Dots.length > 0
  · simp only [hd, if_true]
    refine ⟨h, ?_⟩
    have hd' : (Spell.Dots
        { spell with
          PeriodicDamageMultiplierAdditive :=
            spell.PeriodicDamageMultiplierAdditive + mod.floatValue }).length > 0 := hd
    simp only [hd', if_true]
    cases spell
    simp
  · simp only [hd, if_false]
    exact ⟨h, trivial⟩

/-- The pair `applyPowerCostPercent` / `removePowerCostPercent` is a round trip, wrap-around
included. -/
lemma roundTrips_PowerCostPercent (valid : SpellModValues → Prop) :
    RoundTrips valid applyPowerCostPercent removePowerCostPercent := by
  intro mod spell _ h
  obtain ⟨hcost, hrest⟩ := h
  unfold applyPowerCostPercent removePowerCostPercent
  cases hc : spell.Cost with
  | none => simp only [hc]; exact ⟨⟨by simp [hc], hrest⟩, trivial⟩
  | some cost =>
    obtain ⟨hm, hf⟩ := hcost cost hc
    refine ⟨⟨?_, hrest⟩, ?_⟩
    · intro cost₁ hcost₁
      simp only [Option.some.injEq] at hcost₁
      subst hcost₁
      exact ⟨wrapInt32_inRange _, hf⟩
    · simp only [wrapInt32_add_sub _ _ hm]
      cases spell
      cases cost
      simp_all

/-- The pair `applyPowerCostFlat` / `removePowerCostFlat` is a round trip, wrap-around
included. -/
lemma roundTrips_PowerCostFlat (valid : SpellModValues → Prop) :
    RoundTrips valid applyPowerCostFlat removePowerCostFlat := by
  intro mod spell _ h
  obtain ⟨hcost, hrest⟩ := h
  unfold applyPowerCostFlat removePowerCostFlat
  cases hc : spell.Cost with
  | none => simp only [hc]; exact ⟨⟨by simp [hc], hrest⟩, trivial⟩
  | some cost =>
    obtain ⟨hm, hf⟩ := hcost cost hc
    refine ⟨⟨?_, hrest⟩, ?_⟩
    · intro cost₁ hcost₁
      simp only [Option.some.injEq] at hcost₁
      subst hcost₁
      exact ⟨hm, wrapInt32_inRange _⟩
    · simp only [wrapInt32_add_sub _ _ hf]
      cases spell
      cases cost
      simp_all

/-- The pair `applyCooldownFlat` / `removeCooldownFlat` is a round trip. -/
lemma roundTrips_CooldownFlat (valid : SpellModValues → Prop) :
    RoundTrips valid applyCooldownFlat removeCooldownFlat := by
  intro mod spell _ h
  obtain ⟨hcost, hcd, hrest⟩ := h
  refine ⟨⟨hcost, wrapInt64_inRange _, hrest⟩, ?_⟩
  simp only [applyCooldownFlat, removeCooldownFlat, wrapInt64_add_sub _ _ hcd]

/-- The pair `applyCastTimeFlat` / `removeCastTimeFlat` is a round trip. -/
lemma roundTrips_CastTimeFlat (valid : SpellModValues → Prop) :
    RoundTrips valid applyCastTimeFlat removeCastTimeFlat := by
  intro mod spell _ h
  obtain ⟨hcost, hcd, hct, hgcd, hrest⟩ := h
  refine ⟨⟨hcost, hcd, wrapInt64_inRange _, hgcd, hrest⟩, ?_⟩
  simp only [applyCastTimeFlat, removeCastTimeFlat, wrapInt64_add_sub _ _ hct]

/-- The pair `applyGlobalCooldownFlat` / `removeGlobalCooldownFlat` is a round trip. -/
lemma roundTrips_GlobalCooldownFlat (valid : SpellModValues → Prop) :
    RoundTrips valid applyGlobalCooldownFlat removeGlobalCooldownFlat := by
  intro mod spell _ h
  obtain ⟨hcost, hcd, hct, hgcd, hrest⟩ := h
  refine ⟨⟨hcost, hcd, hct, wrapInt64_inRange _, hrest⟩, ?_⟩
  simp only [applyGlobalCooldownFlat, removeGlobalCooldownFlat, wrapInt64_add_sub _ _ hgcd]

/-- Rewriting every non-nil dot of a list with `g` after `f` gives the list back when `g`
undoes `f` on the dots of the list. -/
lemma map_dots_roundTrip (f g : Dot → Dot) (dots : List (Option Dot))
    (h : ∀ dot, some dot ∈ dots → g (f dot) = dot) :
    List.map (Option.map g) (List.map (Option.map f) dots) = dots := by
  rw [List.map_map]
  conv_rhs => rw [← List.map_id dots]
  apply List.map_congr_left
  intro d hd
  cases d with
  | none => rfl
  | some d =>
    simp only [Function.comp_apply, Option.map_some', id_eq, Option.some.injEq]
    exact h d hd

/-- The dots of a rewritten list are in range when the rewritten dots are. -/
lemma map_dots_inRange (f : Dot → Dot) (dots : List (Option Dot))
    (h : ∀ dot, some dot ∈ dots → (f dot).InRange) :
    ∀ dot, some dot ∈ List.map (Option.map f) dots → dot.InRange := by
  intro dot hdot
  simp only [List.mem_map] at hdot
  obtain ⟨d, hd, hdeq⟩ := hdot
  cases d with
  | none => simp at hdeq
  | some d =>
    simp only [Option.map_some', Option.some.injEq] at hdeq
    subst hdeq
    exact h d hd

/-- The pair `applyDotNumberOfTicks` / `removeDotNumberOfTicks` is a round trip,
wrap-around included. -/
lemma roundTrips_DotNumberOfTicks (valid : SpellModValues → Prop) :
    RoundTrips valid applyDotNumberOfTicks removeDotNumberOfTicks := by
  intro mod spell _ h
  obtain ⟨hcost, hcd, hct, hgcd, hdots, haoe⟩ := h
  refine ⟨⟨hcost, hcd, hct, hgcd, ?_, ?_⟩, ?_⟩
  · exact map_dots_inRange _ _ fun d hd => ⟨wrapInt32_inRange _, (hdots d hd).2⟩
  · intro dot hdot
    simp only [applyDotNumberOfTicks] at hdot
    cases ha : spell.aoeDot with
    | none => simp [ha] at hdot
    | some d =>
      simp only [ha, Option.map_some', Option.some.injEq] at hdot
      subst hdot
      exact ⟨wrapInt32_inRange _, (haoe d ha).2⟩
  · have hd := map_dots_roundTrip
      (fun dot : Dot =>
        { dot with NumberOfTicks := wrapInt32 (dot.NumberOfTicks + wrapInt32 mod.intValue) })
      (fun dot : Dot =>
        { dot with NumberOfTicks := wrapInt32 (dot.NumberOfTicks - wrapInt32 mod.intValue) })
      spell.dots
      (fun d hd => by
        show ({ d with NumberOfTicks := wrapInt32 (wrapInt32 (d.NumberOfTicks + wrapInt32 mod.intValue) - wrapInt32 mod.intValue) } : Dot) = d
        rw [wrapInt32_add_sub _ _ (hdots d hd).1])
    have ha : Option.map (fun dot : Dot =>
          { dot with NumberOfTicks := wrapInt32 (dot.NumberOfTicks - wrapInt32 mod.intValue) })
        (Option.map (fun dot : Dot =>
          { dot with NumberOfTicks := wrapInt32 (dot.NumberOfTicks + wrapInt32 mod.intValue) })
          spell.aoeDot) = spell.aoeDot := by
      cases ha : spell.aoeDot with
      | none => rfl
      | some d =>
        simp only [Option.map_some', Option.some.injEq]
        rw [wrapInt32_add_sub _ _ (haoe d ha).1]
    simp only [applyDotNumberOfTicks, removeDotNumberOfTicks, hd, ha]

/-- The pair `applyDotTickLengthFlat` / `removeDotTickLengthFlat` is a round trip. -/
lemma roundTrips_DotTickLengthFlat (valid : SpellModValues → Prop) :
    RoundTrips valid applyDotTickLengthFlat removeDotTickLengthFlat := by
  intro mod spell _ h
  obtain ⟨hcost, hcd, hct, hgcd, hdots, haoe⟩ := h
  refine ⟨⟨hcost, hcd, hct, hgcd, ?_, ?_⟩, ?_⟩
  · exact map_dots_inRange _ _ fun d hd => ⟨(hdots d hd).1, wrapInt64_inRange _⟩
  · intro dot hdot
    simp only [applyDotTickLengthFlat] at hdot
    cases ha : spell.aoeDot with
    | none => simp [ha] at hdot
    | some d =>
      simp only [ha, Option.map_some', Option.some.injEq] at hdot
      subst hdot
      exact ⟨(haoe d ha).1, wrapInt64_inRange _⟩
  · have hd := map_dots_roundTrip
      (fun dot : Dot => { dot with TickLength := wrapInt64 (dot.TickLength + mod.timeValue) })
      (fun dot : Dot => { dot with TickLength := wrapInt64 (dot.TickLength - mod.timeValue) })
      spell.dots
      (fun d hd => by
        show ({ d with TickLength := wrapInt64 (wrapInt64 (d.TickLength + mod.timeValue) - mod.timeValue) } : Dot) = d
        rw [wrapInt64_add_sub _ _ (hdots d hd).2])
    have ha : Option.map (fun dot : Dot =>
          { dot with TickLength := wrapInt64 (dot.TickLength - mod.timeValue) })
        (Option.map (fun dot : Dot =>
          { dot with TickLength := wrapInt64 (dot.TickLength + mod.timeValue) })
          spell.aoeDot) = spell.aoeDot := by
      cases ha : spell.aoeDot with
      | none => rfl
      | some d =>
        simp only [Option.map_some', Option.some.injEq]
        rw [wrapInt64_add_sub _ _ (haoe d ha).2]
    simp only [applyDotTickLengthFlat, removeDotTickLengthFlat, hd, ha]

/-- Every entry of `spellModMap` other than that of `SpellMod_Custom` has both functions,
and they form a round trip for every stored value (a float value other than `-1` for the
two kinds that multiply and divide by `1 + floatValue`). -/
lemma spellModMap_roundTrips (kind : SpellModType) (functions : SpellModFunctions)
    (h : spellModMap kind = some functions) (hk : kind ≠ SpellMod_Custom) :
    ∃ apply remove, functions.Apply = some apply ∧ functions.Remove = some remove ∧
      RoundTrips (fun mod => pctInvertible kind mod.floatValue) apply remove := by
  unfold spellModMap at h
  by_cases hkind : kind = SpellMod_DamageDone_Pct
  · rw [if_pos hkind] at h
    cases h
    exact ⟨_, _, rfl, rfl, fun mod spell hv =>
      roundTrips_DamageDonePercent mod spell (hv (Or.inl hkind))⟩
  rw [if_neg hkind] at h
  clear hkind
  by_cases hkind : kind = SpellMod_DamageDone_Flat
  · rw [if_pos hkind] at h
    cases h
    exact ⟨_, _, rfl, rfl, roundTrips_DamageDoneAdd _⟩
  rw [if_neg hkind] at h
  clear hkind
  by_cases hkind : kind = SpellMod_BaseDamageDone_Flat
  · rw [if_pos hkind] at h
    cases h
    exact ⟨_, _, rfl, rfl, roundTrips_BaseDamageDoneAdd _⟩
  rw [if_neg hkind] at h
  clear hkind
  by_cases hkind : kind = SpellMod_PeriodicDamageDone_Flat
  · rw [if_pos hkind] at h
    cases h
    exact ⟨_, _, rfl, rfl, roundTrips_PeriodicDamageDoneAdd _⟩
  rw [if_neg hkind] at h
  clear hkind
  by_cases hkind : kind = SpellMod_ImpactDamageDone_Flat
  · rw [if_pos hkind] at h
    cases h
    exact ⟨_, _, rfl, rfl, roundTrips_ImpactDamageDoneAdd _⟩
  rw [if_neg hkind] at h
  clear hkind
  by_cases hkind : kind = SpellMod_CritDamageBonus_Flat
  · rw [if_pos hkind] at h
    cases h
    exact ⟨_, _, rfl, rfl, roundTrips_CritDamageBonusAdd _⟩
  rw [if_neg hkind] at h
  clear hkind
  by_cases hkind : kind = SpellMod_PowerCost_Pct
  · rw [if_pos hkind] at h
    cases h
    exact ⟨_, _, rfl, rfl, roundTrips_PowerCostPercent _⟩
  rw [if_neg hkind] at h
  clear hkind
  by_cases hkind : kind = SpellMod_PowerCost_Flat
  · rw [if_pos hkind] at h
    cases h
    exact ⟨_, _, rfl, rfl, roundTrips_PowerCostFlat _⟩
  rw [if_neg hkind] at h
  clear hkind
  by_cases hkind : kind = SpellMod_Cooldown_Flat
  · rw [if_pos hkind] at h
    cases h
    exact ⟨_, _, rfl, rfl, roundTrips_CooldownFlat _⟩
  rw [if_neg hkind] at h
  clear hkind
  by_cases hkind : kind = SpellMod_Cooldown_Multi_Flat
  · rw [if_pos hkind] at h
    cases h
    exact ⟨_, _, rfl, rfl, roundTrips_CooldownMultiplierFlat _⟩
  rw [if_neg hkind] at h
  clear hkind
  by_cases hkind : kind = SpellMod_Cooldown_Multi_Pct
  · rw [if_pos hkind] at h
    cases h
    exact ⟨_, _, rfl, rfl, fun mod spell hv =>
      roundTrips_CooldownMultiplierPct mod spell (hv (Or.inr hkind))⟩
  rw [if_neg hkind] at h
  clear hkind
  by_cases hkind : kind = SpellMod_CastTime_Pct
  · rw [if_pos hkind] at h
    cases h
    exact ⟨_, _, rfl, rfl, roundTrips_CastTimePercent _⟩
  rw [if_neg hkind] at h
  clear hkind
  by_cases hkind : kind = SpellMod_CastTime_Flat
  · rw [if_pos hkind] at h
    cases h
    exact ⟨_, _, rfl, rfl, roundTrips_CastTimeFlat _⟩
  rw [if_neg hkind] at h
  clear hkind
  by_cases hkind : kind = SpellMod_BonusCrit_Flat
  · rw [if_pos hkind] at h
    cases h
    exact ⟨_, _, rfl, rfl, roundTrips_BonusCritFlat _⟩
  rw [if_neg hkind] at h
  clear hkind
  by_cases hkind : kind = SpellMod_BonusHit_Flat
  · rw [if_pos hkind] at h
    cases h
    exact ⟨_, _, rfl, rfl, roundTrips_BonusHitFlat _⟩
  rw [if_neg hkind] at h
  clear hkind
  by_cases hkind : kind = SpellMod_DotNumberOfTicks_Flat
  · rw [if_pos hkind] at h
    cases h
    exact ⟨_, _, rfl, rfl, roundTrips_DotNumberOfTicks _⟩
  rw [if_neg hkind] at h
  clear hkind
  by_cases hkind : kind = SpellMod_DotTickLength_Flat
  · rw [if_pos hkind] at h
    cases h
    exact ⟨_, _, rfl, rfl, roundTrips_DotTickLengthFlat _⟩
  rw [if_neg hkind] at h
  clear hkind
  by_cases hkind : kind = SpellMod_GlobalCooldown_Flat
  · rw [if_pos hkind] at h
    cases h
    exact ⟨_, _, rfl, rfl, roundTrips_GlobalCooldownFlat _⟩
  rw [if_neg hkind] at h
  clear hkind
  by_cases hkind : kind = SpellMod_BonusCoeffecient_Flat
  · rw [if_pos hkind] at h
    cases h
    exact ⟨_, _, rfl, rfl, roundTrips_BonusCoefficientFlat _⟩
  rw [if_neg hkind] at h
  clear hkind
  by_cases hkind : kind = SpellMod_BonusDamage_Flat
  · rw [if_pos hkind] at h
    cases h
    exact ⟨_, _, rfl, rfl, roundTrips_BonusDamageFlat _⟩
  rw [if_neg hkind] at h
  clear hkind
  rw [if_neg hk] at h
  cases h

/-- For an inactive mod whose `Apply` / `Remove` pair is a round trip for its stored
values, `Activate` followed by `Deactivate` gives back every spell and the mod itself. -/
lemma Deactivate_Activate_of_roundTrips (valid : SpellModValues → Prop) (st : ModState)
    (h : RoundTrips valid st.mod.Apply st.mod.Remove) (hv : valid st.mod.values)
    (hinactive : st.mod.IsActive = false) (hrange : ∀ spell ∈ st.spells, spell.InRange) :
    (Deactivate (Activate st)).spells = st.spells ∧ (Deactivate (Activate st)).mod = st.mod := by
  have hvals : SpellMod.values { st.mod with IsActive := true } = st.mod.values := rfl
  constructor
  · simp only [Activate, Deactivate, hinactive, Bool.false_eq_true, if_false, not_true_eq_false,
      hvals]
    exact forEachSpell_roundTrip (st.mod.Apply st.mod.values) (st.mod.Remove st.mod.values)
      Spell.InRange (fun spell hs => h st.mod.values spell hv hs) _ _ hrange
  · simp only [Activate, Deactivate, hinactive, Bool.false_eq_true, if_false, not_true_eq_false]
    obtain ⟨spells, mod, calls⟩ := st
    cases mod
    simp_all

/-- The mod returned by `buildMod` for a kind other than `SpellMod_Custom` carries the pair
of functions of the table entry of its kind, and that pair is a round trip. -/
lemma buildMod_roundTrips (config : SpellModConfig) (mod : SpellMod)
    (hbuild : buildMod config = .ok mod) (hkind : config.Kind ≠ SpellMod_Custom) :
    RoundTrips (fun values => pctInvertible config.Kind values.floatValue) mod.Apply mod.Remove ∧
      mod.IsActive = false ∧ mod.AffectedSpells = [] ∧ mod.Kind = config.Kind ∧
      mod.floatValue = config.FloatValue := by
  unfold buildMod at hbuild
  cases hmap : spellModMap config.Kind with
  | none => simp [hmap] at hbuild
  | some functions =>
    obtain ⟨apply, remove, hA, hR, hrt⟩ := spellModMap_roundTrips _ _ hmap hkind
    simp only [hmap, hkind, if_false, hA, hR, Option.getD_some, Except.ok.injEq] at hbuild
    subst hbuild
    exact ⟨hrt, rfl, rfl, rfl, rfl⟩

/-! ## Activation of a spell modifier -/

/-- C14: for every mod and every state of its spells, a second `Activate` in a row changes
nothing (spell fields, `IsActive` flag and recorded invocations are those of the single
`Activate`, which invoked `Apply` once per entry of the matched set), a second
`Deactivate` in a row changes nothing, `Activate` on an active mod changes nothing and
`Deactivate` on an inactive mod changes nothing. -/
theorem Activate_Deactivate_idempotent (st : ModState) :
    Activate (Activate st) = Activate st ∧
    Deactivate (Deactivate st) = Deactivate st ∧
    (Activate st).mod.IsActive = true ∧
    (Deactivate st).mod.IsActive = false ∧
    (st.mod.IsActive = true → Activate st = st) ∧
    (st.mod.IsActive = false → Deactivate st = st) ∧
    (st.mod.IsActive = false →
      (Activate (Activate st)).spells =
        forEachSpell (st.mod.Apply st.mod.values) st.mod.AffectedSpells st.spells ∧
      (Activate (Activate st)).calls = st.calls ++ st.mod.AffectedSpells.map ModCall.Apply) := by
  have hact : (Activate st).mod.IsActive = true := by
    unfold Activate
    split_ifs with h
    · exact h
    · rfl
  have hdeact : (Deactivate st).mod.IsActive = false := by
    cases hb : st.mod.IsActive <;> simp [Deactivate, hb]
  have hA : ∀ st₁ : ModState, st₁.mod.IsActive = true → Activate st₁ = st₁ := by
    intro st₁ h
    simp [Activate, h]
  have hD : ∀ st₁ : ModState, st₁.mod.IsActive = false → Deactivate st₁ = st₁ := by
    intro st₁ h
    simp [Deactivate, h]
  refine ⟨hA _ hact, hD _ hdeact, hact, hdeact, hA st, hD st, fun h => ?_⟩
  rw [hA _ hact]
  simp [Activate, h]

/-- Witness of C14: the Ice Lance percent mod with value 3, activated twice. -/
theorem Activate_Deactivate_idempotent_witness :
    (Activate (Activate (sampleIceLanceState 3))).spells =
        forEachSpell (applyDamageDonePercent (sampleIceLanceState 3).mod.values) [0]
          [sampleIceLance] ∧
      (Activate (Activate (sampleIceLanceState 3))).calls = [ModCall.Apply 0] :=
  (Activate_Deactivate_idempotent (sampleIceLanceState 3)).2.2.2.2.2.2 rfl

/-- Counterexample to C15 as stated.  A mod of kind `SpellMod_Cooldown_Multi_Pct` (a kind of
the dispatch table) with stored value `-1`, inactive, matching one spell whose cooldown
multiplier is 1: `Activate` multiplies by `1 + (-1) = 0` and leaves 0; `Deactivate` then
divides by 0 and does not give 1 back.  And in `float64` arithmetic the pair of
`SpellMod_DamageDone_Flat` with value `0.4` on a field holding `1.0`: `1.0 + 0.4` is
rounded, and subtracting `0.4` leaves `0.9999999999999999`, one unit in the last place
below `1.0`. -/
theorem cooldownPct_minus_one_is_not_restored :
    (∃ functions, spellModMap SpellMod_Cooldown_Multi_Pct = some functions ∧
      functions.Apply = some sampleCooldownPctState.mod.Apply ∧
      functions.Remove = some sampleCooldownPctState.mod.Remove) ∧
    sampleCooldownPctState.mod.IsActive = false ∧
    sampleCooldownPctState.spells.map (fun spell => spell.CD.Multiplier) = [1] ∧
    (Activate sampleCooldownPctState).spells.map (fun spell => spell.CD.Multiplier) = [0] ∧
    (Deactivate (Activate sampleCooldownPctState)).spells.map
      (fun spell => spell.CD.Multiplier) ≠ [1] ∧
    (Deactivate (Activate sampleCooldownPctState)).spells ≠ sampleCooldownPctState.spells ∧
    removeDamageDoneAdd64 (float64OfDecimal 4 1)
        (applyDamageDoneAdd64 (float64OfDecimal 4 1) (float64OfDecimal 1 0))
      = 9007199254740991 * 2 ^ (1074 - 53) ∧
    removeDamageDoneAdd64 (float64OfDecimal 4 1)
        (applyDamageDoneAdd64 (float64OfDecimal 4 1) (float64OfDecimal 1 0))
      ≠ float64OfDecimal 1 0 := by
  have h0 : (Activate sampleCooldownPctState).spells.map (fun spell => spell.CD.Multiplier)
      = [1 * (1 + -1)] := rfl
  have h1 : (Deactivate (Activate sampleCooldownPctState)).spells.map
      (fun spell => spell.CD.Multiplier) = [1 * (1 + -1) / (1 + -1)] := rfl
  have hne : (Deactivate (Activate sampleCooldownPctState)).spells.map
      (fun spell => spell.CD.Multiplier) ≠ [1] := by
    rw [h1]
    norm_num
  refine ⟨⟨_, rfl, rfl, rfl⟩, rfl, rfl, ?_, hne, ?_, by decide!, by decide!⟩
  · rw [h0]
    norm_num
  · intro heq
    apply hne
    rw [heq]
    rfl

/-- C15 (amended): for every kind of the dispatch table other than `SpellMod_Custom`, every
stored value and every matched set, `Activate` followed by `Deactivate` on an inactive mod
built by `buildMod` for that kind leaves the mod as it was, inactive, and has run the remove
loop on the result of the apply loop, with the same values over the same matched set.  For
the seven kinds that rewrite an integer field this leaves every spell exactly as it was
(`int32` and `int64` additions wrap around and the subtraction undoes them).  For the
kinds that rewrite a `float64` field nothing more is stated: the field holds the result of
the two operations, which is the starting value only when neither of them rounds. -/
theorem Activate_then_Deactivate_restores_spells (config : SpellModConfig) (mod₀ : SpellMod)
    (st : ModState) (hbuild : buildMod config = .ok mod₀)
    (hkind : config.Kind ≠ SpellMod_Custom)
    (hApply : st.mod.Apply = mod₀.Apply) (hRemove : st.mod.Remove = mod₀.Remove)
    (hinactive : st.mod.IsActive = false)
    (hrange : ∀ spell ∈ st.spells, spell.InRange) :
    (Deactivate (Activate st)).mod = st.mod ∧
    (Deactivate (Activate st)).mod.IsActive = false ∧
    (Deactivate (Activate st)).spells =
      forEachSpell (st.mod.Remove st.mod.values) st.mod.AffectedSpells
        (forEachSpell (st.mod.Apply st.mod.values) st.mod.AffectedSpells st.spells) ∧
    (config.Kind ∈ integerKinds → (Deactivate (Activate st)).spells = st.spells) := by
  have hmod : (Deactivate (Activate st)).mod = st.mod := by
    simp only [Activate, Deactivate, hinactive, Bool.false_eq_true, if_false, not_true_eq_false]
    obtain ⟨spells, mod, calls⟩ := st
    cases mod
    simp_all
  refine ⟨hmod, by rw [hmod]; exact hinactive, ?_, fun hint => ?_⟩
  · simp only [Activate, Deactivate, hinactive, Bool.false_eq_true, if_false, not_true_eq_false]
    rfl
  · have hpct : pctInvertible config.Kind st.mod.floatValue := by
      intro hk
      exfalso
      simp only [integerKinds, List.mem_cons, List.mem_singleton, List.not_mem_nil,
        or_false] at hint
      rcases hint with h | h | h | h | h | h | h <;> rw [h] at hk <;> revert hk <;> decide
    have hrt := (buildMod_roundTrips config mod₀ hbuild hkind).1
    rw [← hApply, ← hRemove] at hrt
    exact (Deactivate_Activate_of_roundTrips _ st hrt hpct hinactive hrange).1

/-- Witness of C15 (amended): the mod that shortens the global cooldown by half a second,
activated on Ice Lance (global cooldown 1.5 s), leaves 1 s; deactivated, it leaves Ice Lance
as it was. -/
theorem Activate_then_Deactivate_restores_spells_witness :
    (Activate sampleGlobalCooldownState).spells.map (fun spell => spell.DefaultCast.GCD)
      = [1000000000] ∧
    (Deactivate (Activate sampleGlobalCooldownState)).spells = [sampleIceLance] := by
  refine ⟨by decide, ?_⟩
  exact (Activate_then_Deactivate_restores_spells
    { Kind := SpellMod_GlobalCooldown_Flat, TimeValue := -500000000 }
    { ClassMask := 0, Kind := SpellMod_GlobalCooldown_Flat, School := 0, ProcMask := 0,
      floatValue := 0, intValue := 0, timeValue := -500000000, keyValue := "",
      Apply := applyGlobalCooldownFlat, Remove := removeGlobalCooldownFlat,
      IsActive := false, AffectedSpells := [] }
    sampleGlobalCooldownState rfl (by decide) rfl rfl rfl
    (by
      intro spell hspell
      have hs : spell = sampleIceLance := by
        have : spell ∈ [sampleIceLance] := hspell
        simpa using this
      subst hs
      simp [Spell.InRange, sampleIceLance, InRange32, InRange64])).2.2.2 (by decide)

/-- The mod returned by `buildMod` for the kind `SpellMod_DamageDone_Pct` carries
`applyDamageDonePercent` and `removeDamageDonePercent`. -/
lemma buildMod_DamageDone_Pct (config : SpellModConfig) (mod : SpellMod)
    (hkind : config.Kind = SpellMod_DamageDone_Pct) (hbuild : buildMod config = .ok mod) :
    mod.Apply = applyDamageDonePercent ∧ mod.Remove = removeDamageDonePercent := by
  have hne : SpellMod_DamageDone_Pct ≠ SpellMod_Custom := by decide
  have hmap : spellModMap SpellMod_DamageDone_Pct
      = some ⟨some applyDamageDonePercent, some removeDamageDonePercent⟩ := rfl
  unfold buildMod at hbuild
  rw [hkind] at hbuild
  simp only [hmap, hne, if_false, Option.getD_some, Except.ok.injEq] at hbuild
  subst hbuild
  exact ⟨rfl, rfl⟩

/-- Counterexample to C16 as stated.  The `SpellMod_DamageDone_Pct` mod with value
`v = -1` matching Ice Lance, whose `DamageMultiplier` is `m = 1`: `Activate` sets the
multiplier to `m * (1 + v) = 0`; the following `Deactivate` divides by `1 + v = 0` and does
not set it back to 1.  And in `float64` arithmetic `v = 0.9`, `m = 1.1`: the product
`1.1 * 1.9` is rounded, and dividing it by `1.9` leaves `1.0999999999999999`, one unit in
the last place below `1.1`. -/
theorem damageDonePct_minus_one_is_not_restored :
    buildMod (sampleDamagePctConfig (-1)) = .ok (sampleDamagePctMod (-1)) ∧
    (sampleIceLanceState (-1)).mod.AffectedSpells = [0] ∧
    (sampleIceLanceState (-1)).spells.map Spell.DamageMultiplier = [1] ∧
    (Activate (sampleIceLanceState (-1))).spells.map Spell.DamageMultiplier = [0] ∧
    (Deactivate (Activate (sampleIceLanceState (-1)))).spells.map Spell.DamageMultiplier
      ≠ [1] ∧
    float64OfDecimal 11 1 = 4953959590107546 * 2 ^ (1074 - 52) ∧
    removeDamageDonePercent64 (float64OfDecimal 9 1)
        (applyDamageDonePercent64 (float64OfDecimal 9 1) (float64OfDecimal 11 1))
      = some (4953959590107545 * 2 ^ (1074 - 52)) := by
  have h0 : (Activate (sampleIceLanceState (-1))).spells.map Spell.DamageMultiplier
      = [1 * (1 + -1)] := rfl
  have h1 : (Deactivate (Activate (sampleIceLanceState (-1)))).spells.map
      Spell.DamageMultiplier = [1 * (1 + -1) / (1 + -1)] := rfl
  refine ⟨rfl, rfl, rfl, ?_, ?_, by decide!, by decide!⟩
  · rw [h0]
    norm_num
  · rw [h1]
    norm_num

/-- C16 (amended): for a mod built by `buildMod` with kind `SpellMod_DamageDone_Pct`,
inactive, with stored value `v`, and a spell of its matched set with `DamageMultiplier = m`,
`Activate` sets the `DamageMultiplier` to `m * (1 + v)` and the following `Deactivate` sets
it to that product divided by `1 + v`.  In `float64` arithmetic, at `v = 0.20` and
`m = 1.0` the product is `1.2` (the `float64` nearest to it) and the quotient is exactly
`1.0`. -/
theorem damageDonePct_Activate_Deactivate (config : SpellModConfig) (mod₀ : SpellMod)
    (st : ModState) (idx : Nat) (spell : Spell)
    (hkind : config.Kind = SpellMod_DamageDone_Pct) (hbuild : buildMod config = .ok mod₀)
    (hApply : st.mod.Apply = mod₀.Apply) (hRemove : st.mod.Remove = mod₀.Remove)
    (hinactive : st.mod.IsActive = false)
    (hspell : st.spells[idx]? = some spell)
    (hmatched : st.mod.AffectedSpells.count idx = 1) :
    (Activate st).spells[idx]?.map Spell.DamageMultiplier =
      some (spell.DamageMultiplier * (1 + st.mod.floatValue)) ∧
    (Deactivate (Activate st)).spells[idx]?.map Spell.DamageMultiplier =
      some (spell.DamageMultiplier * (1 + st.mod.floatValue) / (1 + st.mod.floatValue)) ∧
    applyDamageDonePercent64 (float64OfDecimal 20 2) (float64OfDecimal 10 1)
      = float64OfDecimal 120 2 ∧
    removeDamageDonePercent64 (float64OfDecimal 20 2) (float64OfDecimal 120 2)
      = some (float64OfDecimal 10 1) := by
  obtain ⟨hA, hR⟩ := buildMod_DamageDone_Pct config mod₀ hkind hbuild
  rw [← hApply] at hA
  rw [← hRemove] at hR
  have hact : (Activate st).spells
      = forEachSpell (applyDamageDonePercent st.mod.values) st.mod.AffectedSpells st.spells := by
    simp [Activate, hinactive, hA]
  have hdeact : (Deactivate (Activate st)).spells
      = forEachSpell (removeDamageDonePercent st.mod.values) st.mod.AffectedSpells
          (forEachSpell (applyDamageDonePercent st.mod.values) st.mod.AffectedSpells
            st.spells) := by
    simp only [Activate, Deactivate, hinactive, Bool.false_eq_true, if_false,
      not_true_eq_false, hA, hR]
    rfl
  refine ⟨?_, ?_, by decide!, by decide!⟩
  · rw [hact, getElem?_forEachSpell, hspell, hmatched]
    rfl
  · rw [hdeact, getElem?_forEachSpell, getElem?_forEachSpell, hspell, hmatched]
    rfl

/-- Witness of C16 (amended), the scenario of the spec: the mod with value `0.20` on Ice
Lance, whose `DamageMultiplier` is `1.0`, gives `1.0 * (1 + 0.20)` and then that product
divided by `1 + 0.20`. -/
theorem damageDonePct_Activate_Deactivate_witness :
    (Activate (sampleIceLanceState 0.20)).spells[0]?.map Spell.DamageMultiplier
      = some (1 * (1 + 0.20)) ∧
    (Deactivate (Activate (sampleIceLanceState 0.20))).spells[0]?.map Spell.DamageMultiplier
      = some (1 * (1 + 0.20) / (1 + 0.20)) :=
  ⟨(damageDonePct_Activate_Deactivate (sampleDamagePctConfig 0.20) (sampleDamagePctMod 0.20)
      (sampleIceLanceState 0.20) 0 sampleIceLance rfl rfl rfl rfl rfl rfl rfl).1,
    (damageDonePct_Activate_Deactivate (sampleDamagePctConfig 0.20) (sampleDamagePctMod 0.20)
      (sampleIceLanceState 0.20) 0 sampleIceLance rfl rfl rfl rfl rfl rfl rfl).2.1⟩

/-- Invocations of `Apply` recorded by one loop over the pointers `affected`. -/
lemma count_Apply_map_Apply (idx : Nat) (affected : List Nat) :
    (affected.map ModCall.Apply).count (ModCall.Apply idx) = affected.count idx := by
  induction affected with
  | nil => rfl
  | cons i rest ih =>
    simp only [List.map_cons, List.count_cons, ih]
    by_cases h : i = idx
    · subst h; simp
    · have h₁ : (ModCall.Apply i == ModCall.Apply idx) = false := by
        simpa using h
      have h₂ : (i == idx) = false := by simpa using h
      simp [h₁, h₂]

/-- Invocations of `Remove` recorded by one remove loop over the pointers `affected`. -/
lemma count_Remove_map_Remove (idx : Nat) (affected : List Nat) :
    (affected.map ModCall.Remove).count (ModCall.Remove idx) = affected.count idx := by
  induction affected with
  | nil => rfl
  | cons i rest ih =>
    simp only [List.map_cons, List.count_cons, ih]
    by_cases h : i = idx
    · subst h; simp
    · have h₁ : (ModCall.Remove i == ModCall.Remove idx) = false := by
        simpa using h
      have h₂ : (i == idx) = false := by simpa using h
      simp [h₁, h₂]

/-- An apply loop records no invocation of `Remove`. -/
lemma count_Remove_map_Apply (idx : Nat) (affected : List Nat) :
    (affected.map ModCall.Apply).count (ModCall.Remove idx) = 0 := by
  rw [List.count_eq_zero]
  intro h
  simp at h

/-- A remove loop records no invocation of `Apply`. -/
lemma count_Apply_map_Remove (idx : Nat) (affected : List Nat) :
    (affected.map ModCall.Remove).count (ModCall.Apply idx) = 0 := by
  rw [List.count_eq_zero]
  intro h
  simp at h

/-- `Activate` keeps the bookkeeping. -/
lemma Balanced_Activate (st : ModState) (h : st.Balanced) : (Activate st).Balanced := by
  cases hb : st.mod.IsActive with
  | true =>
    have : Activate st = st := by simp [Activate, hb]
    rw [this]
    exact h
  | false =>
    obtain ⟨hnodup, hlt, hcalls, hcount⟩ := h
    simp only [hb, Bool.false_eq_true, if_false, Nat.add_zero] at hcount
    refine ⟨?_, ?_, ?_, ?_⟩
    · simpa [Activate, hb] using hnodup
    · intro idx hidx
      have hidx' : idx ∈ st.mod.AffectedSpells := by simpa [Activate, hb] using hidx
      have hlen : (Activate st).spells.length = st.spells.length := by
        simp [Activate, hb, length_forEachSpell]
      rw [hlen]
      exact hlt idx hidx'
    · intro call hcall
      simp only [Activate, hb, Bool.false_eq_true, if_false, List.mem_append, List.mem_map]
        at hcall ⊢
      rcases hcall with hc | ⟨i, hi, rfl⟩
      · exact hcalls call hc
      · exact hi
    · intro idx hidx
      have hidx' : idx ∈ st.mod.AffectedSpells := by simpa [Activate, hb] using hidx
      have h1 : st.mod.AffectedSpells.count idx = 1 := List.count_eq_one_of_mem hnodup hidx'
      simp only [applyCount, removeCount, Activate, hb, Bool.false_eq_true, if_false,
        List.count_append, count_Apply_map_Apply, count_Remove_map_Apply, h1, if_true,
        Nat.add_zero]
      have := hcount idx hidx'
      simp only [applyCount, removeCount] at this
      omega

/-- `Deactivate` keeps the bookkeeping. -/
lemma Balanced_Deactivate (st : ModState) (h : st.Balanced) : (Deactivate st).Balanced := by
  cases hb : st.mod.IsActive with
  | false =>
    have : Deactivate st = st := by simp [Deactivate, hb]
    rw [this]
    exact h
  | true =>
    obtain ⟨hnodup, hlt, hcalls, hcount⟩ := h
    simp only [hb, if_true] at hcount
    refine ⟨?_, ?_, ?_, ?_⟩
    · simpa [Deactivate, hb] using hnodup
    · intro idx hidx
      have hidx' : idx ∈ st.mod.AffectedSpells := by simpa [Deactivate, hb] using hidx
      have hlen : (Deactivate st).spells.length = st.spells.length := by
        simp [Deactivate, hb, length_forEachSpell]
      rw [hlen]
      exact hlt idx hidx'
    · intro call hcall
      simp only [Deactivate, hb, not_true_eq_false, if_false, List.mem_append, List.mem_map]
        at hcall ⊢
      rcases hcall with hc | ⟨i, hi, rfl⟩
      · exact hcalls call hc
      · exact hi
    · intro idx hidx
      have hidx' : idx ∈ st.mod.AffectedSpells := by simpa [Deactivate, hb] using hidx
      have h1 : st.mod.AffectedSpells.count idx = 1 := List.count_eq_one_of_mem hnodup hidx'
      simp only [applyCount, removeCount, Deactivate, hb, not_true_eq_false, if_false,
        List.count_append, count_Apply_map_Remove, count_Remove_map_Remove, h1,
        Bool.false_eq_true, Nat.add_zero]
      have := hcount idx hidx'
      simp only [applyCount, removeCount] at this
      omega

/-- Replacing the stored values of the mod keeps the bookkeeping. -/
lemma Balanced_of_same_bookkeeping (st st₁ : ModState) (h : st.Balanced)
    (hspells : st₁.spells.length = st.spells.length)
    (haffected : st₁.mod.AffectedSpells = st.mod.AffectedSpells)
    (hactive : st₁.mod.IsActive = st.mod.IsActive) (hcalls : st₁.calls = st.calls) :
    st₁.Balanced := by
  obtain ⟨hnodup, hlt, hc, hcount⟩ := h
  refine ⟨by rw [haffected]; exact hnodup, ?_, ?_, ?_⟩
  · intro idx hidx
    rw [hspells]
    exact hlt idx (by rw [← haffected]; exact hidx)
  · intro call hcall
    rw [haffected]
    exact hc call (by rw [← hcalls]; exact hcall)
  · intro idx hidx
    have := hcount idx (by rw [← haffected]; exact hidx)
    simp only [applyCount, removeCount, hcalls, hactive] at this ⊢
    exact this

/-- `UpdateIntValue` keeps the bookkeeping. -/
lemma Balanced_UpdateIntValue (st : ModState) (value : Int) (h : st.Balanced) :
    (UpdateIntValue st value).Balanced := by
  unfold UpdateIntValue
  split_ifs
  · exact Balanced_Activate _
      (Balanced_of_same_bookkeeping (Deactivate st) _ (Balanced_Deactivate st h) rfl rfl rfl rfl)
  · exact Balanced_of_same_bookkeeping st _ h rfl rfl rfl rfl

/-- `UpdateTimeValue` keeps the bookkeeping. -/
lemma Balanced_UpdateTimeValue (st : ModState) (value : Int) (h : st.Balanced) :
    (UpdateTimeValue st value).Balanced := by
  unfold UpdateTimeValue
  split_ifs
  · exact Balanced_Activate _
      (Balanced_of_same_bookkeeping (Deactivate st) _ (Balanced_Deactivate st h) rfl rfl rfl rfl)
  · exact Balanced_of_same_bookkeeping st _ h rfl rfl rfl rfl

/-- `UpdateFloatValue` keeps the bookkeeping. -/
lemma Balanced_UpdateFloatValue (st : ModState) (value : ℚ) (h : st.Balanced) :
    (UpdateFloatValue st value).Balanced := by
  unfold UpdateFloatValue
  split_ifs
  · exact Balanced_Activate _
      (Balanced_of_same_bookkeeping (Deactivate st) _ (Balanced_Deactivate st h) rfl rfl rfl rfl)
  · exact Balanced_of_same_bookkeeping st _ h rfl rfl rfl rfl

/-- What `RegisterSpell` does: the spell is added at the end of the unit's spells; when it
matches, its pointer is appended to the matched set and, if the mod is active, `Apply` is
invoked on it once. -/
lemma RegisterSpell_eq (flag : Nat) (st : ModState) (spell : Spell) :
    RegisterSpell flag st spell =
      if shouldApply flag spell st.mod then
        if st.mod.IsActive then
          { spells := modifySpell (st.mod.Apply st.mod.values) (st.spells ++ [spell])
              st.spells.length
            mod := { st.mod with AffectedSpells := st.mod.AffectedSpells ++ [st.spells.length] }
            calls := st.calls ++ [ModCall.Apply st.spells.length] }
        else
          { spells := st.spells ++ [spell]
            mod := { st.mod with AffectedSpells := st.mod.AffectedSpells ++ [st.spells.length] }
            calls := st.calls }
      else
        { spells := st.spells ++ [spell], mod := st.mod, calls := st.calls } := by
  have hget : (st.spells ++ [spell])[st.spells.length]? = some spell := by
    simp
  unfold RegisterSpell onSpellRegistered
  simp only [hget]
  split_ifs <;> rfl

/-- `RegisterSpell` keeps the bookkeeping. -/
lemma Balanced_RegisterSpell (flag : Nat) (st : ModState) (spell : Spell) (h : st.Balanced) :
    (RegisterSpell flag st spell).Balanced := by
  obtain ⟨hnodup, hlt, hcalls, hcount⟩ := h
  have hfresh : st.spells.length ∉ st.mod.AffectedSpells := fun hmem =>
    Nat.lt_irrefl _ (hlt _ hmem)
  have hnoApply : st.calls.count (ModCall.Apply st.spells.length) = 0 :=
    List.count_eq_zero.mpr fun hmem => hfresh (hcalls _ hmem)
  have hnoRemove : st.calls.count (ModCall.Remove st.spells.length) = 0 :=
    List.count_eq_zero.mpr fun hmem => hfresh (hcalls _ hmem)
  rw [RegisterSpell_eq]
  by_cases hshould : shouldApply flag spell st.mod = true
  · cases hb : st.mod.IsActive with
    | true =>
      simp only [hshould, hb, if_true]
      simp only [hb, if_true] at hcount
      refine ⟨?_, ?_, ?_, ?_⟩
      · exact List.nodup_append.mpr ⟨hnodup, List.nodup_singleton _, by
          intro a ha hb'
          rw [List.mem_singleton] at hb'
          exact hfresh (hb' ▸ ha)⟩
      · intro idx hidx
        simp only [List.mem_append, List.mem_singleton] at hidx
        simp only [length_modifySpell, List.length_append, List.length_singleton]
        rcases hidx with hi | hi
        · exact Nat.lt_succ_of_lt (hlt idx hi)
        · omega
      · intro call hcall
        simp only [List.mem_append, List.mem_singleton] at hcall ⊢
        rcases hcall with hc | hc
        · exact Or.inl (hcalls call hc)
        · subst hc
          exact Or.inr rfl
      · intro idx hidx
        simp only [List.mem_append, List.mem_singleton] at hidx
        simp only [applyCount, removeCount, List.count_append, hb, if_true]
        rcases hidx with hi | hi
        · have hne : idx ≠ st.spells.length := fun he => hfresh (he ▸ hi)
          have h₁ : List.count (ModCall.Apply idx) [ModCall.Apply st.spells.length] = 0 := by
            rw [List.count_eq_zero]
            simp only [List.mem_singleton, ModCall.Apply.injEq]
            exact hne
          have h₂ : List.count (ModCall.Remove idx) [ModCall.Apply st.spells.length] = 0 := by
            rw [List.count_eq_zero]
            simp
          have := hcount idx hi
          simp only [applyCount, removeCount] at this
          omega
        · subst hi
          have h₂ : List.count (ModCall.Remove st.spells.length)
              [ModCall.Apply st.spells.length] = 0 := by
            rw [List.count_eq_zero]
            simp
          simp only [List.count_singleton_self, hnoApply, hnoRemove, h₂]
    | false =>
      simp only [hshould, hb, if_true, Bool.false_eq_true, if_false]
      simp only [hb, Bool.false_eq_true, if_false, Nat.add_zero] at hcount
      refine ⟨?_, ?_, ?_, ?_⟩
      · exact List.nodup_append.mpr ⟨hnodup, List.nodup_singleton _, by
          intro a ha hb'
          rw [List.mem_singleton] at hb'
          exact hfresh (hb' ▸ ha)⟩
      · intro idx hidx
        simp only [List.mem_append, List.mem_singleton] at hidx
        simp only [List.length_append, List.length_singleton]
        rcases hidx with hi | hi
        · exact Nat.lt_succ_of_lt (hlt idx hi)
        · omega
      · intro call hcall
        simp only [List.mem_append, List.mem_singleton]
        exact Or.inl (hcalls call hcall)
      · intro idx hidx
        simp only [List.mem_append, List.mem_singleton] at hidx
        simp only [applyCount, removeCount, hb, Bool.false_eq_true, if_false, Nat.add_zero]
        rcases hidx with hi | hi
        · have := hcount idx hi
          simp only [applyCount, removeCount] at this
          exact this
        · subst hi
          rw [hnoApply, hnoRemove]
  · simp only [hshould, Bool.false_eq_true, if_false]
    refine ⟨hnodup, ?_, hcalls, fun idx hidx => ?_⟩
    · intro idx hidx
      simp only [List.length_append, List.length_singleton]
      exact Nat.lt_succ_of_lt (hlt idx hidx)
    · have := hcount idx hidx
      simp only [applyCount, removeCount] at this ⊢
      exact this

/-- Every operation keeps the bookkeeping. -/
lemma Balanced_runModOps (flag : Nat) (ops : List ModOp) :
    ∀ st : ModState, st.Balanced → (runModOps flag st ops).Balanced := by
  induction ops with
  | nil => intro st h; exact h
  | cons op rest ih =>
    intro st h
    have hstep : runModOps flag st (op :: rest) = runModOps flag (ModOp.run flag st op) rest :=
      rfl
    rw [hstep]
    apply ih
    cases op with
    | RegisterSpell spell => exact Balanced_RegisterSpell flag st spell h
    | Activate => exact Balanced_Activate st h
    | Deactivate => exact Balanced_Deactivate st h
    | UpdateIntValue value => exact Balanced_UpdateIntValue st value h
    | UpdateTimeValue value => exact Balanced_UpdateTimeValue st value h
    | UpdateFloatValue value => exact Balanced_UpdateFloatValue st value h

/-- Every mod returned by `buildMod`, of a table kind or custom, is inactive and has an
empty matched set. -/
lemma buildMod_inactive_empty (config : SpellModConfig) (mod : SpellMod)
    (hbuild : buildMod config = .ok mod) : mod.IsActive = false ∧ mod.AffectedSpells = [] := by
  unfold buildMod at hbuild
  cases hmap : spellModMap config.Kind with
  | none => simp [hmap] at hbuild
  | some functions =>
    simp only [hmap] at hbuild
    split_ifs at hbuild with hk
    · cases hA : config.ApplyCustom with
      | none => simp [hA] at hbuild
      | some applyFn =>
        cases hR : config.RemoveCustom with
        | none => simp [hA, hR] at hbuild
        | some removeFn =>
          simp only [hA, hR, Except.ok.injEq] at hbuild
          subst hbuild
          exact ⟨rfl, rfl⟩
    · simp only [Except.ok.injEq] at hbuild
      subst hbuild
      exact ⟨rfl, rfl⟩

/-- C17: start from a mod returned by `buildMod` on a unit with any spells already
registered and perform any sequence of spell registrations, `Activate`, `Deactivate` and
`Update*Value` calls.  In the state reached, for every spell of the matched set, the number
of invocations of `Apply` on it equals the number of invocations of `Remove` on it when the
mod is inactive, and exceeds it by exactly one when the mod is active. -/
theorem apply_remove_counts_balanced (flag : Nat) (config : SpellModConfig) (mod₀ : SpellMod)
    (spells₀ : List Spell) (ops : List ModOp) (idx : Nat)
    (hbuild : buildMod config = .ok mod₀)
    (hidx : idx ∈ (runModOps flag (ModState.init spells₀ mod₀) ops).mod.AffectedSpells) :
    ((runModOps flag (ModState.init spells₀ mod₀) ops).mod.IsActive = false →
      applyCount (runModOps flag (ModState.init spells₀ mod₀) ops) idx =
        removeCount (runModOps flag (ModState.init spells₀ mod₀) ops) idx) ∧
    ((runModOps flag (ModState.init spells₀ mod₀) ops).mod.IsActive = true →
      applyCount (runModOps flag (ModState.init spells₀ mod₀) ops) idx =
        removeCount (runModOps flag (ModState.init spells₀ mod₀) ops) idx + 1) := by
  obtain ⟨hinactive, hempty⟩ := buildMod_inactive_empty config mod₀ hbuild
  have hinit : (ModState.init spells₀ mod₀).Balanced := by
    refine ⟨?_, ?_, ?_, ?_⟩
    · show mod₀.AffectedSpells.Nodup
      rw [hempty]
      exact List.nodup_nil
    · intro i hi
      have : i ∈ mod₀.AffectedSpells := hi
      rw [hempty] at this
      cases this
    · intro call hcall
      cases hcall
    · intro i hi
      have : i ∈ mod₀.AffectedSpells := hi
      rw [hempty] at this
      cases this
  obtain ⟨-, -, -, hcount⟩ := Balanced_runModOps flag ops _ hinit
  have h := hcount idx hidx
  constructor
  · intro hf
    rw [hf] at h
    simpa using h
  · intro ht
    rw [ht] at h
    simpa using h

/-- Witness of C17: the Ice Lance percent mod; Ice Lance is registered, the mod is
activated, updated while active and deactivated: `Apply` and `Remove` were each invoked
twice on Ice Lance. -/
theorem apply_remove_counts_balanced_witness :
    applyCount
        (runModOps sampleSpellFlagNoSpellMods (ModState.init [] (sampleDamagePctMod 0))
          [ModOp.RegisterSpell sampleIceLance, ModOp.Activate, ModOp.UpdateFloatValue 3,
            ModOp.Deactivate]) 0 =
      removeCount
        (runModOps sampleSpellFlagNoSpellMods (ModState.init [] (sampleDamagePctMod 0))
          [ModOp.RegisterSpell sampleIceLance, ModOp.Activate, ModOp.UpdateFloatValue 3,
            ModOp.Deactivate]) 0 :=
  (apply_remove_counts_balanced sampleSpellFlagNoSpellMods (sampleDamagePctConfig 0)
    (sampleDamagePctMod 0) []
    [ModOp.RegisterSpell sampleIceLance, ModOp.Activate, ModOp.UpdateFloatValue 3,
      ModOp.Deactivate] 0 rfl (by decide)).1 rfl

/-! ## Matching -/

/-- For a mod whose `ClassMask` is not negative, `shouldApply` is the matching predicate of
the spec: the spell is not exempt and every non-zero selector shares a bit with the
corresponding tag of the spell. -/
lemma shouldApply_iff_of_nonneg_ClassMask (flag : Nat) (spell : Spell) (mod : SpellMod)
    (hnonneg : 0 ≤ mod.ClassMask) :
    shouldApply flag spell mod = true ↔
      (spell.Flags &&& flag = 0) ∧
      (mod.ClassMask = 0 ∨ Int.land spell.ClassSpellMask mod.ClassMask ≠ 0) ∧
      (mod.School = 0 ∨ mod.School &&& spell.SpellSchool ≠ 0) ∧
      (mod.ProcMask = 0 ∨ mod.ProcMask &&& spell.ProcMask ≠ 0) := by
  have e0 : maskMatches spell.Flags flag = true ↔ ¬ spell.Flags &&& flag = 0 := by
    simp [maskMatches]
  have e1 : (mod.ClassMask > 0 ∧ ¬ spell.Matches mod.ClassMask = true) ↔
      ¬ (mod.ClassMask = 0 ∨ Int.land spell.ClassSpellMask mod.ClassMask ≠ 0) := by
    have hpos : mod.ClassMask > 0 ↔ ¬ mod.ClassMask = 0 := by
      constructor
      · intro h; omega
      · intro h; omega
    simp only [Spell.Matches, bne_iff_ne, ne_eq, Decidable.not_not, hpos]
    tauto
  have e2 : (mod.School > 0 ∧ ¬ maskMatches mod.School spell.SpellSchool = true) ↔
      ¬ (mod.School = 0 ∨ mod.School &&& spell.SpellSchool ≠ 0) := by
    have hpos : mod.School > 0 ↔ ¬ mod.School = 0 := Nat.pos_iff_ne_zero
    simp only [maskMatches, bne_iff_ne, ne_eq, Decidable.not_not, hpos]
    tauto
  have e3 : (mod.ProcMask > 0 ∧ ¬ maskMatches mod.ProcMask spell.ProcMask = true) ↔
      ¬ (mod.ProcMask = 0 ∨ mod.ProcMask &&& spell.ProcMask ≠ 0) := by
    have hpos : mod.ProcMask > 0 ↔ ¬ mod.ProcMask = 0 := Nat.pos_iff_ne_zero
    simp only [maskMatches, bne_iff_ne, ne_eq, Decidable.not_not, hpos]
    tauto
  unfold shouldApply
  by_cases c0 : maskMatches spell.Flags flag = true
  · rw [if_pos c0]
    have := e0.mp c0
    constructor
    · intro h; cases h
    · intro h; exact absurd h.1 this
  rw [if_neg c0]
  have h0 : spell.Flags &&& flag = 0 := by
    by_contra hne
    exact c0 (e0.mpr hne)
  by_cases c1 : mod.ClassMask > 0 ∧ ¬ spell.Matches mod.ClassMask = true
  · rw [if_pos c1]
    have := e1.mp c1
    constructor
    · intro h; cases h
    · intro h; exact absurd h.2.1 this
  rw [if_neg c1]
  have h1 := not_not.mp (mt e1.mpr c1)
  by_cases c2 : mod.School > 0 ∧ ¬ maskMatches mod.School spell.SpellSchool = true
  · rw [if_pos c2]
    have := e2.mp c2
    constructor
    · intro h; cases h
    · intro h; exact absurd h.2.2.1 this
  rw [if_neg c2]
  have h2 := not_not.mp (mt e2.mpr c2)
  by_cases c3 : mod.ProcMask > 0 ∧ ¬ maskMatches mod.ProcMask spell.ProcMask = true
  · rw [if_pos c3]
    have := e3.mp c3
    constructor
    · intro h; cases h
    · intro h; exact absurd h.2.2.2 this
  rw [if_neg c3]
  have h3 := not_not.mp (mt e3.mpr c3)
  exact ⟨fun _ => ⟨h0, h1, h2, h3⟩, fun _ => rfl⟩

/-- The masks `1` and `-2` (every bit but the lowest) share no bit. -/
lemma land_one_neg_two : Int.land 1 (-2) = 0 := by
  have h : Nat.ldiff 1 1 = 0 := by
    apply Nat.eq_of_testBit_eq
    intro i
    simp [Nat.testBit_ldiff]
  show ((Nat.ldiff 1 1 : Nat) : Int) = 0
  rw [h]
  rfl

/-- C18 (the code at the failing input): a mod whose `ClassMask` is `-2` (every bit but the
lowest, a non-zero selector with a negative `int64` value) and a spell whose
`ClassSpellMask` is `1`, not exempt from modifiers, share no class bit, yet `shouldApply`
returns true: the test `mod.ClassMask > 0` is false for a negative mask, which is then
treated like an unset selector. -/
theorem shouldApply_negative_ClassMask_is_a_wildcard :
    shouldApply sampleSpellFlagNoSpellMods { sampleIceLance with ClassSpellMask := 1 }
      { sampleDamagePctMod 0 with ClassMask := -2 } = true ∧
    (-2 : Int) ≠ 0 ∧ Int.land 1 (-2) = 0 ∧
    maskMatches sampleIceLance.Flags sampleSpellFlagNoSpellMods = false :=
  ⟨by decide, by decide, land_one_neg_two, by decide⟩

/-! ## Updating the stored value of a modifier -/

/-- After `Activate`, a rewrite of the mod that touches neither its functions, its flag nor
its matched set, and `Deactivate` and `Activate` around that rewrite, a final `Deactivate`
gives back the spells of before the first `Activate`, provided the pair of functions is a
round trip for the values before and after the rewrite. -/
lemma restore_after_update (valid : SpellModValues → Prop) (st : ModState)
    (upd : SpellMod → SpellMod)
    (hA : ∀ mod, (upd mod).Apply = mod.Apply) (hR : ∀ mod, (upd mod).Remove = mod.Remove)
    (hI : ∀ mod, (upd mod).IsActive = mod.IsActive)
    (hrt : RoundTrips valid st.mod.Apply st.mod.Remove)
    (hold : valid st.mod.values) (hnew : valid (upd st.mod).values)
    (hinactive : st.mod.IsActive = false) (hrange : ∀ spell ∈ st.spells, spell.InRange) :
    (Deactivate (Activate
      { spells := (Deactivate (Activate st)).spells
        mod := upd (Deactivate (Activate st)).mod
        calls := (Deactivate (Activate st)).calls })).spells = st.spells := by
  obtain ⟨hs, hm⟩ := Deactivate_Activate_of_roundTrips valid st hrt hold hinactive hrange
  rw [hs, hm]
  have h := Deactivate_Activate_of_roundTrips valid
    { spells := st.spells, mod := upd st.mod, calls := (Deactivate (Activate st)).calls }
    (by
      show RoundTrips valid (upd st.mod).Apply (upd st.mod).Remove
      rw [hA, hR]
      exact hrt)
    hnew
    (by
      show (upd st.mod).IsActive = false
      rw [hI]
      exact hinactive)
    hrange
  exact h.1

/-- Counterexample to C19 as stated.  The Ice Lance percent mod (`SpellMod_DamageDone_Pct`,
value 3) is active; `UpdateFloatValue (-1)` leaves it active with value `-1` and sets the
`DamageMultiplier` of Ice Lance to `1 * (1 + -1) = 0`; the later `Deactivate` divides by
zero and does not restore the pre-activation value 1.  And in `float64` arithmetic, on a
`DamageMultiplier` of `1.1`: the mod is activated with value `0`, updated to `0.9`
(`1.1 * 1 / 1 * 1.9`, rounded) and deactivated (divided by `1.9`), which leaves
`1.0999999999999999`. -/
theorem update_to_minus_one_is_not_restored :
    (sampleIceLanceState 3).spells.map Spell.DamageMultiplier = [1] ∧
    (Activate (sampleIceLanceState 3)).mod.IsActive = true ∧
    (UpdateFloatValue (Activate (sampleIceLanceState 3)) (-1)).mod.IsActive = true ∧
    (UpdateFloatValue (Activate (sampleIceLanceState 3)) (-1)).mod.floatValue = -1 ∧
    (Deactivate (UpdateFloatValue (Activate (sampleIceLanceState 3)) (-1))).spells.map
      Spell.DamageMultiplier ≠ [1] ∧
    removeDamageDonePercent64 0
        (applyDamageDonePercent64 0 (float64OfDecimal 11 1)) = some (float64OfDecimal 11 1) ∧
    removeDamageDonePercent64 (float64OfDecimal 9 1)
        (applyDamageDonePercent64 (float64OfDecimal 9 1) (float64OfDecimal 11 1))
      = some (4953959590107545 * 2 ^ (1074 - 52)) ∧
    float64OfDecimal 11 1 ≠ 4953959590107545 * 2 ^ (1074 - 52) := by
  have h : (Deactivate (UpdateFloatValue (Activate (sampleIceLanceState 3)) (-1))).spells.map
      Spell.DamageMultiplier = [1 * (1 + 3) / (1 + 3) * (1 + -1) / (1 + -1)] := rfl
  refine ⟨rfl, rfl, rfl, rfl, ?_, by decide!, by decide!, by decide!⟩
  rw [h]
  norm_num

/-- C19 (amended): for an active mod, each of `UpdateIntValue`, `UpdateTimeValue` and
`UpdateFloatValue` with a new value leaves the mod active with that value stored and every
spell in the state obtained by the remove loop with the old values followed by the apply
loop with the new values; a field on which the pair acts by adding and subtracting the
float value holds, on a spell matched once, the old field minus the old value plus the new
one; for an inactive mod the call only replaces the stored value and leaves spells and
recorded invocations alone.  When the mod was built by `buildMod` for one of the seven
kinds that rewrite an integer field, a `Deactivate` after the update restores the spells
of before the activation exactly, and an `int32` or `int64` field has changed by the new
value minus the old one, with wrap-around.  Of a `float64` field nothing more is stated:
it holds the result of the operations, which is the starting value only when none of them
rounds. -/
theorem UpdateValue_removes_old_and_applies_new (st : ModState) (w : ℚ) (n t : Int) :
    (st.mod.IsActive = true →
      ((UpdateFloatValue st w).mod.IsActive = true ∧ (UpdateFloatValue st w).mod.floatValue = w ∧
        (UpdateFloatValue st w).spells =
          forEachSpell (st.mod.Apply { st.mod.values with floatValue := w })
            st.mod.AffectedSpells
            (forEachSpell (st.mod.Remove st.mod.values) st.mod.AffectedSpells st.spells)) ∧
      ((UpdateIntValue st n).mod.IsActive = true ∧ (UpdateIntValue st n).mod.intValue = n ∧
        (UpdateIntValue st n).spells =
          forEachSpell (st.mod.Apply { st.mod.values with intValue := n })
            st.mod.AffectedSpells
            (forEachSpell (st.mod.Remove st.mod.values) st.mod.AffectedSpells st.spells)) ∧
      ((UpdateTimeValue st t).mod.IsActive = true ∧ (UpdateTimeValue st t).mod.timeValue = t ∧
        (UpdateTimeValue st t).spells =
          forEachSpell (st.mod.Apply { st.mod.values with timeValue := t })
            st.mod.AffectedSpells
            (forEachSpell (st.mod.Remove st.mod.values) st.mod.AffectedSpells st.spells)) ∧
      (∀ (field : Spell → ℚ) (idx : Nat) (spell : Spell),
        (∀ values s, field (st.mod.Apply values s) = field s + values.floatValue) →
        (∀ values s, field (st.mod.Remove values s) = field s - values.floatValue) →
        st.spells[idx]? = some spell → st.mod.AffectedSpells.count idx = 1 →
        (UpdateFloatValue st w).spells[idx]?.map field =
          some (field spell - st.mod.floatValue + w))) ∧
    (st.mod.IsActive = false →
      UpdateFloatValue st w = { st with mod := { st.mod with floatValue := w } } ∧
      UpdateIntValue st n = { st with mod := { st.mod with intValue := n } } ∧
      UpdateTimeValue st t = { st with mod := { st.mod with timeValue := t } }) ∧
    (∀ (config : SpellModConfig) (mod₀ : SpellMod), buildMod config = .ok mod₀ →
      config.Kind ∈ integerKinds → st.mod.Apply = mod₀.Apply → st.mod.Remove = mod₀.Remove →
      st.mod.IsActive = false → (∀ spell ∈ st.spells, spell.InRange) →
      (Deactivate (UpdateFloatValue (Activate st) w)).spells = st.spells ∧
      (Deactivate (UpdateIntValue (Activate st) n)).spells = st.spells ∧
      (Deactivate (UpdateTimeValue (Activate st) t)).spells = st.spells) ∧
    (∀ field old new : Int,
      wrapInt32 (wrapInt32 (field - wrapInt32 old) + wrapInt32 new)
        = wrapInt32 (field + (new - old)) ∧
      wrapInt64 (wrapInt64 (field - old) + new) = wrapInt64 (field + (new - old))) := by
  refine ⟨fun hactive => ?_, fun hinactive => ?_, ?_, ?_⟩
  · have hf : (UpdateFloatValue st w).spells =
          forEachSpell (st.mod.Apply { st.mod.values with floatValue := w })
            st.mod.AffectedSpells
            (forEachSpell (st.mod.Remove st.mod.values) st.mod.AffectedSpells st.spells) := by
      simp only [UpdateFloatValue, Activate, Deactivate, hactive, if_true, not_true_eq_false,
        if_false, Bool.false_eq_true]
      rfl
    refine ⟨⟨?_, ?_, hf⟩, ⟨?_, ?_, ?_⟩, ⟨?_, ?_, ?_⟩, ?_⟩
    · simp [UpdateFloatValue, Activate, Deactivate, hactive]
    · simp [UpdateFloatValue, Activate, Deactivate, hactive]
    · simp [UpdateIntValue, Activate, Deactivate, hactive]
    · simp [UpdateIntValue, Activate, Deactivate, hactive]
    · simp only [UpdateIntValue, Activate, Deactivate, hactive, if_true, not_true_eq_false,
        if_false, Bool.false_eq_true]
      rfl
    · simp [UpdateTimeValue, Activate, Deactivate, hactive]
    · simp [UpdateTimeValue, Activate, Deactivate, hactive]
    · simp only [UpdateTimeValue, Activate, Deactivate, hactive, if_true, not_true_eq_false,
        if_false, Bool.false_eq_true]
      rfl
    · intro field idx spell hfA hfR hspell hcount
      rw [hf, getElem?_forEachSpell, getElem?_forEachSpell, hspell, hcount]
      simp only [Option.map_some', Function.iterate_one, Option.some.injEq]
      rw [hfA, hfR]
      rfl
  · refine ⟨?_, ?_, ?_⟩
    · simp [UpdateFloatValue, hinactive]
    · simp [UpdateIntValue, hinactive]
    · simp [UpdateTimeValue, hinactive]
  · intro config mod₀ hbuild hint hApply hRemove hinactive hrange
    have hnotpct : ∀ value : ℚ, pctInvertible config.Kind value := by
      intro value hk
      exfalso
      simp only [integerKinds, List.mem_cons, List.mem_singleton, List.not_mem_nil,
        or_false] at hint
      rcases hint with h | h | h | h | h | h | h <;> rw [h] at hk <;> revert hk <;> decide
    have hkind : config.Kind ≠ SpellMod_Custom := by
      simp only [integerKinds, List.mem_cons, List.mem_singleton, List.not_mem_nil,
        or_false] at hint
      rcases hint with h | h | h | h | h | h | h <;> rw [h] <;> decide
    have hrt := (buildMod_roundTrips config mod₀ hbuild hkind).1
    rw [← hApply, ← hRemove] at hrt
    have hact : (Activate st).mod.IsActive = true := by simp [Activate, hinactive]
    refine ⟨?_, ?_, ?_⟩
    · have h := restore_after_update _ st (fun mod => { mod with floatValue := w })
        (fun _ => rfl) (fun _ => rfl) (fun _ => rfl) hrt (hnotpct _) (hnotpct _) hinactive
        hrange
      simpa only [UpdateFloatValue, hact, if_true] using h
    · have h := restore_after_update _ st (fun mod => { mod with intValue := n })
        (fun _ => rfl) (fun _ => rfl) (fun _ => rfl) hrt (hnotpct _) (hnotpct _) hinactive
        hrange
      simpa only [UpdateIntValue, hact, if_true] using h
    · have h := restore_after_update _ st (fun mod => { mod with timeValue := t })
        (fun _ => rfl) (fun _ => rfl) (fun _ => rfl) hrt (hnotpct _) (hnotpct _) hinactive
        hrange
      simpa only [UpdateTimeValue, hact, if_true] using h
  · intro field old new
    constructor
    · unfold wrapInt32
      omega
    · unfold wrapInt64
      omega

/-- Witness of C19 (amended).  The calls of `registerIceLanceSpell`: the percent mod with
value 0 is activated and updated to 3 while active, which leaves it active with value 3.
And the mod that shortens the global cooldown by half a second is activated on Ice Lance,
updated to a full second while active and deactivated: Ice Lance is as before. -/
theorem UpdateValue_removes_old_and_applies_new_witness :
    (UpdateFloatValue (Activate (sampleIceLanceState 0)) 3).mod.IsActive = true ∧
    (UpdateFloatValue (Activate (sampleIceLanceState 0)) 3).mod.floatValue = 3 ∧
    (UpdateTimeValue (Activate sampleGlobalCooldownState) (-1000000000)).spells.map
      (fun spell => spell.DefaultCast.GCD) = [500000000] ∧
    (Deactivate (UpdateTimeValue (Activate sampleGlobalCooldownState) (-1000000000))).spells =
      [sampleIceLance] := by
  have hrange : ∀ spell ∈ sampleGlobalCooldownState.spells, spell.InRange := by
    intro spell hspell
    have hs : spell = sampleIceLance := by
      have : spell ∈ [sampleIceLance] := hspell
      simpa using this
    subst hs
    simp [Spell.InRange, sampleIceLance, InRange32, InRange64]
  have h := UpdateValue_removes_old_and_applies_new sampleGlobalCooldownState 0 0 (-1000000000)
  have h₁ := UpdateValue_removes_old_and_applies_new (Activate (sampleIceLanceState 0)) 3 0 0
  refine ⟨(h₁.1 rfl).1.1, (h₁.1 rfl).1.2.1, by decide, ?_⟩
  exact (h.2.2.1 { Kind := SpellMod_GlobalCooldown_Flat, TimeValue := -500000000 }
    { ClassMask := 0, Kind := SpellMod_GlobalCooldown_Flat, School := 0, ProcMask := 0,
      floatValue := 0, intValue := 0, timeValue := -500000000, keyValue := "",
      Apply := applyGlobalCooldownFlat, Remove := removeGlobalCooldownFlat,
      IsActive := false, AffectedSpells := [] }
    rfl (by decide) rfl rfl rfl hrange).2.2

/-! ## The matched set -/

/-- `Activate` leaves the matched set alone. -/
lemma Activate_AffectedSpells (st : ModState) :
    (Activate st).mod.AffectedSpells = st.mod.AffectedSpells := by
  unfold Activate
  split_ifs <;> rfl

/-- `Deactivate` leaves the matched set alone. -/
lemma Deactivate_AffectedSpells (st : ModState) :
    (Deactivate st).mod.AffectedSpells = st.mod.AffectedSpells := by
  unfold Deactivate
  split_ifs <;> rfl

/-- `UpdateIntValue` leaves the matched set alone. -/
lemma UpdateIntValue_AffectedSpells (st : ModState) (value : Int) :
    (UpdateIntValue st value).mod.AffectedSpells = st.mod.AffectedSpells := by
  unfold UpdateIntValue
  split_ifs
  · rw [Activate_AffectedSpells]
    exact Deactivate_AffectedSpells st
  · rfl

/-- `UpdateTimeValue` leaves the matched set alone. -/
lemma UpdateTimeValue_AffectedSpells (st : ModState) (value : Int) :
    (UpdateTimeValue st value).mod.AffectedSpells = st.mod.AffectedSpells := by
  unfold UpdateTimeValue
  split_ifs
  · rw [Activate_AffectedSpells]
    exact Deactivate_AffectedSpells st
  · rfl

/-- `UpdateFloatValue` leaves the matched set alone. -/
lemma UpdateFloatValue_AffectedSpells (st : ModState) (value : ℚ) :
    (UpdateFloatValue st value).mod.AffectedSpells = st.mod.AffectedSpells := by
  unfold UpdateFloatValue
  split_ifs
  · rw [Activate_AffectedSpells]
    exact Deactivate_AffectedSpells st
  · rfl

/-- `RegisterSpell` appends the pointer of the new spell when it matches, and nothing
otherwise. -/
lemma RegisterSpell_AffectedSpells (flag : Nat) (st : ModState) (spell : Spell) :
    (RegisterSpell flag st spell).mod.AffectedSpells =
      st.mod.AffectedSpells ++ (if shouldApply flag spell st.mod then [st.spells.length] else []) := by
  rw [RegisterSpell_eq]
  split_ifs <;> simp

/-- Over any sequence of operations the matched set only grows at its end. -/
lemma runModOps_AffectedSpells_prefix (flag : Nat) (ops : List ModOp) :
    ∀ st : ModState, st.mod.AffectedSpells <+: (runModOps flag st ops).mod.AffectedSpells := by
  induction ops with
  | nil => intro st; exact List.prefix_refl _
  | cons op rest ih =>
    intro st
    have hstep : runModOps flag st (op :: rest) = runModOps flag (ModOp.run flag st op) rest :=
      rfl
    rw [hstep]
    refine List.IsPrefix.trans ?_ (ih _)
    cases op with
    | RegisterSpell spell =>
      show st.mod.AffectedSpells <+: (RegisterSpell flag st spell).mod.AffectedSpells
      rw [RegisterSpell_AffectedSpells]
      exact List.prefix_append _ _
    | Activate =>
      show st.mod.AffectedSpells <+: (Activate st).mod.AffectedSpells
      rw [Activate_AffectedSpells]
    | Deactivate =>
      show st.mod.AffectedSpells <+: (Deactivate st).mod.AffectedSpells
      rw [Deactivate_AffectedSpells]
    | UpdateIntValue value =>
      show st.mod.AffectedSpells <+: (UpdateIntValue st value).mod.AffectedSpells
      rw [UpdateIntValue_AffectedSpells]
    | UpdateTimeValue value =>
      show st.mod.AffectedSpells <+: (UpdateTimeValue st value).mod.AffectedSpells
      rw [UpdateTimeValue_AffectedSpells]
    | UpdateFloatValue value =>
      show st.mod.AffectedSpells <+: (UpdateFloatValue st value).mod.AffectedSpells
      rw [UpdateFloatValue_AffectedSpells]

/-- C20: the pointer of a spell is appended to `AffectedSpells` by its registration, and
only if `shouldApply` holds for the spell and the mod at that moment; `Activate`,
`Deactivate` and the three `Update*Value` operations leave `AffectedSpells` exactly as it
is, also after the spells were rewritten in any way (their tags included); over every
sequence of operations the list only grows at its end, so no entry is removed or
reordered. -/
theorem AffectedSpells_changes_only_at_registration (flag : Nat) (st : ModState) :
    (∀ spell : Spell,
      (RegisterSpell flag st spell).mod.AffectedSpells =
        st.mod.AffectedSpells ++
          (if shouldApply flag spell st.mod then [st.spells.length] else [])) ∧
    (∀ (spells : List Spell) (n t : Int) (w : ℚ),
      (Activate { st with spells := spells }).mod.AffectedSpells = st.mod.AffectedSpells ∧
      (Deactivate { st with spells := spells }).mod.AffectedSpells = st.mod.AffectedSpells ∧
      (UpdateIntValue { st with spells := spells } n).mod.AffectedSpells
        = st.mod.AffectedSpells ∧
      (UpdateTimeValue { st with spells := spells } t).mod.AffectedSpells
        = st.mod.AffectedSpells ∧
      (UpdateFloatValue { st with spells := spells } w).mod.AffectedSpells
        = st.mod.AffectedSpells) ∧
    (∀ ops : List ModOp,
      st.mod.AffectedSpells <+: (runModOps flag st ops).mod.AffectedSpells) := by
  refine ⟨fun spell => RegisterSpell_AffectedSpells flag st spell, ?_,
    fun ops => runModOps_AffectedSpells_prefix flag ops st⟩
  intro spells n t w
  exact ⟨Activate_AffectedSpells _, Deactivate_AffectedSpells _,
    UpdateIntValue_AffectedSpells _ n, UpdateTimeValue_AffectedSpells _ t,
    UpdateFloatValue_AffectedSpells _ w⟩

/-! ## Construction of a modifier -/

/-- The mod returned by `buildMod` has the selectors and the values of the configuration. -/
lemma buildMod_fields (config : SpellModConfig) (mod : SpellMod)
    (hbuild : buildMod config = .ok mod) :
    mod.ClassMask = config.ClassMask ∧ mod.Kind = config.Kind ∧ mod.School = config.School ∧
      mod.ProcMask = config.ProcMask ∧ mod.floatValue = config.FloatValue ∧
      mod.intValue = config.IntValue ∧ mod.timeValue = config.TimeValue ∧
      mod.keyValue = config.KeyValue ∧
      (config.Kind = SpellMod_Custom →
        config.ApplyCustom = some mod.Apply ∧ config.RemoveCustom = some mod.Remove) ∧
      (config.Kind ≠ SpellMod_Custom →
        ∃ functions, spellModMap config.Kind = some functions ∧
          functions.Apply = some mod.Apply ∧ functions.Remove = some mod.Remove) := by
  unfold buildMod at hbuild
  cases hmap : spellModMap config.Kind with
  | none => simp [hmap] at hbuild
  | some functions =>
    simp only [hmap] at hbuild
    by_cases hk : config.Kind = SpellMod_Custom
    · rw [if_pos hk] at hbuild
      cases hA : config.ApplyCustom with
      | none => simp [hA] at hbuild
      | some applyFn =>
        cases hR : config.RemoveCustom with
        | none => simp [hA, hR] at hbuild
        | some removeFn =>
          simp only [hA, hR, Except.ok.injEq] at hbuild
          subst hbuild
          exact ⟨rfl, rfl, rfl, rfl, rfl, rfl, rfl, rfl, fun _ => ⟨rfl, rfl⟩,
            fun hne => absurd hk hne⟩
    · rw [if_neg hk] at hbuild
      obtain ⟨apply, remove, hA, hR, -⟩ := spellModMap_roundTrips _ _ hmap hk
      simp only [hA, hR, Option.getD_some, Except.ok.injEq] at hbuild
      subst hbuild
      exact ⟨rfl, rfl, rfl, rfl, rfl, rfl, rfl, rfl, fun h => absurd h hk,
        fun _ => ⟨functions, rfl, hA, hR⟩⟩

/-- C22: `buildMod` panics if and only if the configured kind has no entry in `spellModMap`,
or the kind is `SpellMod_Custom` and `ApplyCustom` or `RemoveCustom` is nil; whenever it
returns, the mod is inactive, has an empty matched set, has the selectors and values of the
configuration, and carries the pair of functions of the table entry of its kind (the pair
of the caller for `SpellMod_Custom`). -/
theorem buildMod_panics_iff (config : SpellModConfig) :
    ((∃ msg, buildMod config = .error msg) ↔
      (spellModMap config.Kind = none ∨
        (config.Kind = SpellMod_Custom ∧
          (config.ApplyCustom = none ∨ config.RemoveCustom = none)))) ∧
    (∀ mod, buildMod config = .ok mod →
      mod.IsActive = false ∧ mod.AffectedSpells = [] ∧
      mod.ClassMask = config.ClassMask ∧ mod.Kind = config.Kind ∧
      mod.School = config.School ∧ mod.ProcMask = config.ProcMask ∧
      mod.floatValue = config.FloatValue ∧ mod.intValue = config.IntValue ∧
      mod.timeValue = config.TimeValue ∧ mod.keyValue = config.KeyValue ∧
      (config.Kind = SpellMod_Custom →
        config.ApplyCustom = some mod.Apply ∧ config.RemoveCustom = some mod.Remove) ∧
      (config.Kind ≠ SpellMod_Custom →
        ∃ functions, spellModMap config.Kind = some functions ∧
          functions.Apply = some mod.Apply ∧ functions.Remove = some mod.Remove)) := by
  constructor
  · constructor
    · rintro ⟨msg, hmsg⟩
      by_contra hnot
      rw [not_or] at hnot
      obtain ⟨hentry, hcustom⟩ := hnot
      unfold buildMod at hmsg
      cases hmap : spellModMap config.Kind with
      | none => exact hentry hmap
      | some functions =>
        simp only [hmap] at hmsg
        by_cases hk : config.Kind = SpellMod_Custom
        · rw [if_pos hk] at hmsg
          cases hA : config.ApplyCustom with
          | none => exact hcustom ⟨hk, Or.inl hA⟩
          | some applyFn =>
            cases hR : config.RemoveCustom with
            | none => exact hcustom ⟨hk, Or.inr hR⟩
            | some removeFn => simp [hA, hR] at hmsg
        · rw [if_neg hk] at hmsg
          cases hmsg
    · rintro (hentry | ⟨hk, hmissing⟩)
      · exact ⟨"SpellMod " ++ toString config.Kind ++ " not implmented", by
          simp only [buildMod, hentry]⟩
      · have hmap : spellModMap SpellMod_Custom = some ⟨none, none⟩ := rfl
        refine ⟨"ApplyCustom and RemoveCustom are mandatory fields for SpellMod_Custom", ?_⟩
        unfold buildMod
        rw [hk]
        simp only [hmap, if_true]
        rcases hmissing with hA | hR
        · simp only [hA]
        · cases hA : config.ApplyCustom with
          | none => rfl
          | some applyFn => simp only [hR]
  · intro mod hbuild
    obtain ⟨hinactive, hempty⟩ := buildMod_inactive_empty config mod hbuild
    exact ⟨hinactive, hempty, buildMod_fields config mod hbuild⟩

/-- Witness of C22: the percent mod of Ice Lance is built, inactive, with the table pair of
`SpellMod_DamageDone_Pct`; a custom configuration without functions is refused. -/
theorem buildMod_panics_iff_witness :
    (∃ mod, buildMod (sampleDamagePctConfig 3) = .ok mod ∧ mod.IsActive = false ∧
      mod.floatValue = 3) ∧
    (∃ msg, buildMod { Kind := SpellMod_Custom } = .error msg) :=
  ⟨⟨sampleDamagePctMod 3, rfl,
      ((buildMod_panics_iff (sampleDamagePctConfig 3)).2 (sampleDamagePctMod 3) rfl).1, rfl⟩,
    (buildMod_panics_iff { Kind := SpellMod_Custom }).1.mpr
      (Or.inr ⟨rfl, Or.inl rfl⟩)⟩

/-- Every kind of `tableKinds` is a key of `spellModMap`, other than `SpellMod_Custom`, with
an entry that has both functions. -/
lemma tableKinds_entry (kind : SpellModType) (h : kind ∈ tableKinds) :
    kind ≠ SpellMod_Custom ∧
      ∃ apply remove, spellModMap kind = some ⟨some apply, some remove⟩ := by
  simp only [tableKinds, List.mem_cons, List.mem_singleton, List.not_mem_nil, or_false] at h
  rcases h with rfl | rfl | rfl | rfl | rfl | rfl | rfl | rfl | rfl | rfl | rfl | rfl | rfl | rfl | rfl | rfl | rfl | rfl | rfl | rfl <;>
    exact ⟨by decide, _, _, rfl⟩

/-- The keys of `spellModMap` are the kinds of `tableKinds` and `SpellMod_Custom`. -/
lemma spellModMap_keys (kind : SpellModType) (functions : SpellModFunctions)
    (h : spellModMap kind = some functions) :
    kind ∈ tableKinds ∨ kind = SpellMod_Custom := by
  unfold spellModMap at h
  by_cases hkind : kind = SpellMod_DamageDone_Pct
  · exact Or.inl (by rw [hkind]; decide)
  rw [if_neg hkind] at h
  clear hkind
  by_cases hkind : kind = SpellMod_DamageDone_Flat
  · exact Or.inl (by rw [hkind]; decide)
  rw [if_neg hkind] at h
  clear hkind
  by_cases hkind : kind = SpellMod_BaseDamageDone_Flat
  · exact Or.inl (by rw [hkind]; decide)
  rw [if_neg hkind] at h
  clear hkind
  by_cases hkind : kind = SpellMod_PeriodicDamageDone_Flat
  · exact Or.inl (by rw [hkind]; decide)
  rw [if_neg hkind] at h
  clear hkind
  by_cases hkind : kind = SpellMod_ImpactDamageDone_Flat
  · exact Or.inl (by rw [hkind]; decide)
  rw [if_neg hkind] at h
  clear hkind
  by_cases hkind : kind = SpellMod_CritDamageBonus_Flat
  · exact Or.inl (by rw [hkind]; decide)
  rw [if_neg hkind] at h
  clear hkind
  by_cases hkind : kind = SpellMod_PowerCost_Pct
  · exact Or.inl (by rw [hkind]; decide)
  rw [if_neg hkind] at h
  clear hkind
  by_cases hkind : kind = SpellMod_PowerCost_Flat
  · exact Or.inl (by rw [hkind]; decide)
  rw [if_neg hkind] at h
  clear hkind
  by_cases hkind : kind = SpellMod_Cooldown_Flat
  · exact Or.inl (by rw [hkind]; decide)
  rw [if_neg hkind] at h
  clear hkind
  by_cases hkind : kind = SpellMod_Cooldown_Multi_Flat
  · exact Or.inl (by rw [hkind]; decide)
  rw [if_neg hkind] at h
  clear hkind
  by_cases hkind : kind = SpellMod_Cooldown_Multi_Pct
  · exact Or.inl (by rw [hkind]; decide)
  rw [if_neg hkind] at h
  clear hkind
  by_cases hkind : kind = SpellMod_CastTime_Pct
  · exact Or.inl (by rw [hkind]; decide)
  rw [if_neg hkind] at h
  clear hkind
  by_cases hkind : kind = SpellMod_CastTime_Flat
  · exact Or.inl (by rw [hkind]; decide)
  rw [if_neg hkind] at h
  clear hkind
  by_cases hkind : kind = SpellMod_BonusCrit_Flat
  · exact Or.inl (by rw [hkind]; decide)
  rw [if_neg hkind] at h
  clear hkind
  by_cases hkind : kind = SpellMod_BonusHit_Flat
  · exact Or.inl (by rw [hkind]; decide)
  rw [if_neg hkind] at h
  clear hkind
  by_cases hkind : kind = SpellMod_DotNumberOfTicks_Flat
  · exact Or.inl (by rw [hkind]; decide)
  rw [if_neg hkind] at h
  clear hkind
  by_cases hkind : kind = SpellMod_DotTickLength_Flat
  · exact Or.inl (by rw [hkind]; decide)
  rw [if_neg hkind] at h
  clear hkind
  by_cases hkind : kind = SpellMod_GlobalCooldown_Flat
  · exact Or.inl (by rw [hkind]; decide)
  rw [if_neg hkind] at h
  clear hkind
  by_cases hkind : kind = SpellMod_BonusCoeffecient_Flat
  · exact Or.inl (by rw [hkind]; decide)
  rw [if_neg hkind] at h
  clear hkind
  by_cases hkind : kind = SpellMod_BonusDamage_Flat
  · exact Or.inl (by rw [hkind]; decide)
  rw [if_neg hkind] at h
  clear hkind
  by_cases hkind : kind = SpellMod_Custom
  · exact Or.inr hkind
  rw [if_neg hkind] at h
  cases h

/-- Counterexample to C23 as stated: the four declared kinds
`SpellMod_AllowCastWhileMoving`, `SpellMod_BonusExpertise_Rating`,
`SpellMod_DebuffDuration_Flat` and `SpellMod_BuffDuration_Flat` are not keys of
`spellModMap`, and `buildMod` panics for each of them. -/
theorem declared_kinds_without_table_entry :
    spellModMap SpellMod_AllowCastWhileMoving = none ∧
    spellModMap SpellMod_BonusExpertise_Rating = none ∧
    spellModMap SpellMod_DebuffDuration_Flat = none ∧
    spellModMap SpellMod_BuffDuration_Flat = none ∧
    (∃ msg, buildMod { Kind := SpellMod_AllowCastWhileMoving } = .error msg) ∧
    (∃ msg, buildMod { Kind := SpellMod_BonusExpertise_Rating } = .error msg) ∧
    (∃ msg, buildMod { Kind := SpellMod_DebuffDuration_Flat } = .error msg) ∧
    (∃ msg, buildMod { Kind := SpellMod_BuffDuration_Flat } = .error msg) :=
  ⟨rfl, rfl, rfl, rfl, ⟨_, rfl⟩, ⟨_, rfl⟩, ⟨_, rfl⟩, ⟨_, rfl⟩⟩

/-- C23 (amended): the non-custom keys of the dispatch table are the twenty kinds of
`tableKinds`; each of them has a fixed pair of an apply and a remove function there, and
`buildMod` returns, for every configuration of such a kind, a mod carrying that pair.  For
the four other declared kinds (`kindsWithoutEntry`, among them the buff and debuff
duration kinds) `buildMod` panics. -/
theorem table_kinds_build_with_their_pair (config : SpellModConfig) :
    (config.Kind ∈ tableKinds →
      ∃ mod apply remove, buildMod config = .ok mod ∧
        spellModMap config.Kind = some ⟨some apply, some remove⟩ ∧
        mod.Apply = apply ∧ mod.Remove = remove) ∧
    (config.Kind ∈ kindsWithoutEntry → ∃ msg, buildMod config = .error msg) ∧
    (∀ functions, spellModMap config.Kind = some functions →
      config.Kind ∈ tableKinds ∨ config.Kind = SpellMod_Custom) := by
  refine ⟨fun h => ?_, fun h => ?_, fun functions h => spellModMap_keys _ functions h⟩
  · obtain ⟨hne, apply, remove, hmap⟩ := tableKinds_entry config.Kind h
    have hbuild : ∃ mod, buildMod config = .ok mod ∧ mod.Apply = apply ∧ mod.Remove = remove := by
      simp only [buildMod, hmap, hne, if_false, Option.getD_some]
      exact ⟨_, rfl, rfl, rfl⟩
    obtain ⟨mod, hmod, hApply, hRemove⟩ := hbuild
    exact ⟨mod, apply, remove, hmod, hmap, hApply, hRemove⟩
  · have hnone : spellModMap config.Kind = none := by
      simp only [kindsWithoutEntry, List.mem_cons, List.mem_singleton, List.not_mem_nil,
        or_false] at h
      rcases h with h | h | h | h <;> rw [h] <;> rfl
    simp only [buildMod, hnone]
    exact ⟨_, rfl⟩

/-- Witness of C23 (amended): the configuration of the percent mod of Ice Lance, of the
kind `SpellMod_DamageDone_Pct`, is built with the pair of that kind, and a configuration
of the kind `SpellMod_BuffDuration_Flat` is refused. -/
theorem table_kinds_build_with_their_pair_witness :
    (∃ mod apply remove, buildMod (sampleDamagePctConfig 3) = .ok mod ∧
      spellModMap SpellMod_DamageDone_Pct = some ⟨some apply, some remove⟩ ∧
      mod.Apply = apply ∧ mod.Remove = remove) ∧
    (∃ msg, buildMod { Kind := SpellMod_BuffDuration_Flat } = .error msg) :=
  ⟨(table_kinds_build_with_their_pair (sampleDamagePctConfig 3)).1 (by decide),
    (table_kinds_build_with_their_pair { Kind := SpellMod_BuffDuration_Flat }).2.1
      (by decide)⟩

/-! ## Reactions to a rage gain, reset -/

/-- Counterexample to C24 as stated: in non-interactive mode `AddRage` calls
`rb.unit.ReactToEvent(sim)` synchronously, before it schedules the delayed action. -/
theorem AddRage_reacts_synchronously_when_not_interactive :
    sampleSim.Interactive = false ∧
    ∃ unit₁, AddRage sampleRageUnit sampleSim 5 sampleMetrics = .ok unit₁ ∧
      unit₁.effects =
        [Effect.ReactToEvent, Effect.StartDelayedAction 1000000 sampleMetrics] := by
  refine ⟨rfl, ?_⟩
  obtain ⟨unit₁, hrun, -, -, heff, -⟩ :=
    AddRage_ok sampleRageUnit sampleSim 5 sampleMetrics (by norm_num)
  refine ⟨unit₁, hrun, ?_⟩
  rw [heff]
  have h : wrapInt64 (sampleSim.CurrentTime + Millisecond * 1) = 1000000 := by decide
  rw [h]
  rfl

/-- C24 (amended): a successful `AddRage` never calls `OnRageChange` synchronously; that
reaction is exactly one delayed action, scheduled at `sim.CurrentTime + 1 millisecond`
(strictly after the current time when the addition stays within `int64`), in interactive
and non-interactive mode alike.  Besides the log line written when logging is on, the only
other call is `ReactToEvent`, made synchronously in non-interactive mode and not at all in
interactive mode. -/
theorem AddRage_reactions (unit : Unit) (sim : Simulation) (amount : ℚ)
    (metrics : ResourceMetrics) (h : 0 ≤ amount) :
    ∃ unit₁, AddRage unit sim amount metrics = .ok unit₁ ∧
      unit₁.effects = unit.effects ++
        ((if sim.Log then
            [Effect.LogGained amount metrics.ActionID unit.rageBar.currentRage
              (min (unit.rageBar.currentRage + amount) MaxRage)]
          else []) ++
        ((if sim.Interactive then [] else [Effect.ReactToEvent]) ++
        [Effect.StartDelayedAction (wrapInt64 (sim.CurrentTime + 1000000)) metrics])) ∧
      (∀ metrics₁, Effect.OnRageChange metrics₁ ∈ unit₁.effects →
        Effect.OnRageChange metrics₁ ∈ unit.effects) ∧
      (-2 ^ 63 ≤ sim.CurrentTime → sim.CurrentTime + 1000000 < 2 ^ 63 →
        wrapInt64 (sim.CurrentTime + 1000000) = sim.CurrentTime + 1000000 ∧
        sim.CurrentTime < wrapInt64 (sim.CurrentTime + 1000000)) := by
  obtain ⟨unit₁, hrun, -, -, heff, -⟩ := AddRage_ok unit sim amount metrics h
  have hms : sim.CurrentTime + Millisecond * 1 = sim.CurrentTime + 1000000 := by
    simp [Millisecond]
  rw [hms] at heff
  refine ⟨unit₁, hrun, heff, ?_, ?_⟩
  · intro metrics₁ hmem
    rw [heff] at hmem
    cases hL : sim.Log <;> cases hI : sim.Interactive <;>
      simpa [hL, hI] using hmem
  · intro hlo hhi
    have hwrap := wrapInt64_of_inRange (sim.CurrentTime + 1000000) (by omega) hhi
    rw [hwrap]
    exact ⟨rfl, by omega⟩

/-- Witness of C24 (amended): in interactive mode at time 0, without a log, the only call
made by `AddRage 5` is the delayed action due at 1 ms, after the current time 0. -/
theorem AddRage_reactions_witness :
    ∃ unit₁, AddRage sampleRageUnit ⟨false, true, 0⟩ 5 sampleMetrics = .ok unit₁ ∧
      unit₁.effects = [Effect.StartDelayedAction 1000000 sampleMetrics] ∧
      (0 : Int) < 1000000 := by
  obtain ⟨unit₁, hrun, heff, -, htime⟩ :=
    AddRage_reactions sampleRageUnit ⟨false, true, 0⟩ 5 sampleMetrics (by norm_num)
  have hw : wrapInt64 ((Simulation.mk false true 0).CurrentTime + 1000000) = 1000000 := by
    decide
  refine ⟨unit₁, hrun, ?_, by decide⟩
  rw [heff, hw]
  rfl

/-- C25: after `EnableRageBar options`, whatever the current rage has become, `reset` sets
it to `max 0 (min options.StartingRage 100)`; and `reset` on a unit without a rage bar
returns the unit unchanged. -/
theorem reset_restores_clamped_starting_rage (unit₀ : Unit) (options : RageBarOptions)
    (sim : Simulation) (rage : ℚ) :
    CurrentRage
        (reset
          { EnableRageBar unit₀ options with
            rageBar := { (EnableRageBar unit₀ options).rageBar with currentRage := rage } } sim)
      = max 0 (min options.StartingRage 100) ∧
    (∀ unit : Unit, HasRageBar unit = false → reset unit sim = unit) := by
  constructor
  · show max 0 (min options.StartingRage MaxRage) = max 0 (min options.StartingRage 100)
    rfl
  · intro unit hnone
    have : unit.rageBar.unit = false := hnone
    simp [reset, this]

/-! ## Truncation of the stored value to 32 bits -/

/-- C30: for the three kinds that truncate the `int64` stored value to `int32`
(`SpellMod_PowerCost_Pct`, `SpellMod_PowerCost_Flat`, `SpellMod_DotNumberOfTicks_Flat`),
`Activate` followed by `Deactivate` on an inactive mod built by `buildMod` leaves every
spell exactly as it was, for every stored integer, in or out of the `int32` range, and
every `int32` value of the fields; on the field itself, adding the truncated value and
subtracting it again with `int32` wrap-around gives the field back. -/
theorem truncating_kinds_restore_int32_fields (config : SpellModConfig) (mod₀ : SpellMod)
    (st : ModState) (hbuild : buildMod config = .ok mod₀)
    (hkind : config.Kind = SpellMod_PowerCost_Pct ∨ config.Kind = SpellMod_PowerCost_Flat ∨
      config.Kind = SpellMod_DotNumberOfTicks_Flat)
    (hApply : st.mod.Apply = mod₀.Apply) (hRemove : st.mod.Remove = mod₀.Remove)
    (hinactive : st.mod.IsActive = false)
    (hrange : ∀ spell ∈ st.spells, spell.InRange) :
    (Deactivate (Activate st)).spells = st.spells ∧
    (Deactivate (Activate st)).mod.IsActive = false ∧
    (∀ field value : Int, InRange32 field →
      wrapInt32 (wrapInt32 (field + wrapInt32 value) - wrapInt32 value) = field) := by
  have hne : config.Kind ≠ SpellMod_Custom := by
    rcases hkind with h | h | h <;> rw [h] <;> decide
  have hpct : pctInvertible config.Kind st.mod.floatValue := by
    intro hk
    exfalso
    rcases hkind with h | h | h <;> rw [h] at hk <;> revert hk <;> decide
  have hrt := (buildMod_roundTrips config mod₀ hbuild hne).1
  rw [← hApply, ← hRemove] at hrt
  obtain ⟨hs, hm⟩ := Deactivate_Activate_of_roundTrips _ st hrt hpct hinactive hrange
  exact ⟨hs, by rw [hm]; exact hinactive, fun field value hf => wrapInt32_add_sub _ _ hf⟩

/-- Witness of C30: a cost multiplier at the largest `int32` value and a stored value of
`2^40 + 1`, which truncates to 1: `Activate` wraps the multiplier around to the least
`int32` value and `Deactivate` brings the largest one back. -/
theorem truncating_kinds_restore_int32_fields_witness :
    (Activate samplePowerCostState).spells.map (fun spell => spell.Cost.map (·.Multiplier))
      = [some (-2147483648)] ∧
    (Deactivate (Activate samplePowerCostState)).spells = [sampleMaxCostSpell] := by
  refine ⟨by decide, ?_⟩
  exact (truncating_kinds_restore_int32_fields
    { Kind := SpellMod_PowerCost_Pct, IntValue := 1099511627777 }
    { ClassMask := 0, Kind := SpellMod_PowerCost_Pct, School := 0, ProcMask := 0,
      floatValue := 0, intValue := 1099511627777, timeValue := 0, keyValue := "",
      Apply := applyPowerCostPercent, Remove := removePowerCostPercent,
      IsActive := false, AffectedSpells := [] }
    samplePowerCostState rfl (Or.inl rfl) rfl rfl rfl
    (by
      intro spell hspell
      have hs : spell = sampleMaxCostSpell := by
        have : spell ∈ [sampleMaxCostSpell] := hspell
        simpa using this
      subst hs
      simp [Spell.InRange, sampleMaxCostSpell, sampleIceLance, InRange32, InRange64])).1

/-! ## Spending after the requirement check -/

/-- C27: if `MeetsRequirement` returns true for a spell and `SpendCost` is then called on
the spell it left, on the same unit, then `SpendCost` returns, the rage afterwards is the
rage before minus the cost checked, and it is non-negative whenever the rage before was.
`GetCurrentCost`, which is not part of `rage.go`, is any function that returns no negative
cost for the spell. -/
theorem SpendCost_after_MeetsRequirement (rc : RageCost) (GetCurrentCost : SpellCost → ℚ)
    (unit : Unit) (sim : Simulation) (spell spell₁ : Spell) (unit₁ : Unit)
    (hmeets : rc.MeetsRequirement GetCurrentCost unit spell = .ok (true, spell₁, unit₁))
    (hcost : ∀ cost, spell.Cost = some cost → 0 ≤ GetCurrentCost cost) :
    unit₁ = unit ∧
    ∃ cost unit₂, spell.Cost = some cost ∧ spell₁.CurCast.Cost = GetCurrentCost cost ∧
      rc.SpendCost unit₁ sim spell₁ = .ok unit₂ ∧
      CurrentRage unit₂ = CurrentRage unit - spell₁.CurCast.Cost ∧
      (0 ≤ CurrentRage unit → 0 ≤ CurrentRage unit₂) := by
  unfold RageCost.MeetsRequirement at hmeets
  cases hc : spell.Cost with
  | none => simp [hc] at hmeets
  | some cost =>
    have h0 : 0 ≤ GetCurrentCost cost := hcost cost hc
    simp only [hc, Except.ok.injEq, Prod.mk.injEq, decide_eq_true_eq] at hmeets
    obtain ⟨hge, hspell, hunit⟩ := hmeets
    subst hspell
    subst hunit
    refine ⟨rfl, cost, ?_⟩
    by_cases hpos : 0 < GetCurrentCost cost
    · obtain ⟨unit₂, hrun, hbar, -⟩ :=
        SpendRage_ok unit sim (GetCurrentCost cost) rc.ResourceMetrics hpos.le
      have hcur : CurrentRage unit₂ = CurrentRage unit - GetCurrentCost cost := by
        simp [CurrentRage, hbar]
      refine ⟨unit₂, rfl, rfl, ?_, hcur, fun _ => ?_⟩
      · simp only [RageCost.SpendCost, gt_iff_lt, hpos, if_true]
        exact hrun
      · rw [hcur]
        linarith
    · have hzero : GetCurrentCost cost = 0 := le_antisymm (not_lt.mp hpos) h0
      refine ⟨unit, rfl, rfl, ?_, ?_, fun h => h⟩
      · simp only [RageCost.SpendCost, gt_iff_lt, hpos, if_false]
      · show CurrentRage unit = CurrentRage unit - GetCurrentCost cost
        rw [hzero]
        simp

/-- Witness of C27: Heroic Strike (cost 15) on the unit holding 90 rage: the requirement
is met and spending leaves 75. -/
theorem SpendCost_after_MeetsRequirement_witness :
    ∃ unit₂ spell₁,
      RageCost.SpendCost ⟨12, none, sampleMetrics⟩ sampleUnit90 sampleSim spell₁ = .ok unit₂ ∧
      CurrentRage unit₂ = 75 := by
  have hcost : sampleGetCurrentCost
      (newRageCost sampleRageUnit sampleHeroicStrikeConfig sampleHeroicStrikeOptions) = 15 := by
    norm_num [sampleGetCurrentCost, newRageCost, sampleHeroicStrikeOptions]
  have h90 : CurrentRage sampleUnit90 = 90 := rfl
  have hmeets : RageCost.MeetsRequirement ⟨12, none, sampleMetrics⟩ sampleGetCurrentCost
      sampleUnit90 sampleHeroicStrike =
      .ok (true, { sampleHeroicStrike with
        CurCast := { sampleHeroicStrike.CurCast with Cost := 15 } }, sampleUnit90) := by
    have hc : sampleHeroicStrike.Cost = some
        (newRageCost sampleRageUnit sampleHeroicStrikeConfig sampleHeroicStrikeOptions) := rfl
    simp only [RageCost.MeetsRequirement, hc, hcost, h90]
    norm_num
  obtain ⟨-, cost, unit₂, -, -, hrun, hspent, -⟩ :=
    SpendCost_after_MeetsRequirement ⟨12, none, sampleMetrics⟩ sampleGetCurrentCost
      sampleUnit90 sampleSim sampleHeroicStrike _ sampleUnit90 hmeets
      (fun cost _ => le_max_left 0 _)
  refine ⟨unit₂, _, hrun, ?_⟩
  rw [hspent, h90]
  norm_num

/-! ## The rage bar and the recorded events -/

/-- Every call of a sequence without `reset` records exactly one event, on the metrics
handle it was given, whose first component is the amount of an `AddRage` and minus the
amount of a `SpendRage`. -/
lemma runCalls_events (calls : List RageCall) :
    ∀ unit unit₁ : Unit, (∀ c ∈ calls, c.isReset = false) → runCalls unit calls = .ok unit₁ →
      ∃ recorded : List MetricsEvent, unit₁.events = unit.events ++ recorded ∧
        recorded.length = calls.length ∧
        recorded.map (fun e => some e.metrics) = calls.map RageCall.metrics ∧
        recorded.map MetricsEvent.gain =
          calls.map (fun c => if c.isAddRage then c.amount else -c.amount) := by
  induction calls with
  | nil =>
    intro unit unit₁ _ hrun
    simp only [runCalls, Except.ok.injEq] at hrun
    subst hrun
    exact ⟨[], by simp, rfl, rfl, rfl⟩
  | cons call rest ih =>
    intro unit unit₁ hnoreset hrun
    have hrest : ∀ c ∈ rest, c.isReset = false := fun c hc =>
      hnoreset c (List.mem_cons_of_mem _ hc)
    have hcall := hnoreset call (List.mem_cons_self _ _)
    cases call with
    | reset sim => simp [RageCall.isReset] at hcall
    | AddRage sim amount metrics =>
      by_cases hneg : amount < 0
      · simp [runCalls, RageCall.run, AddRage, hneg] at hrun
      · obtain ⟨unit₂, hstep, -, hev, -⟩ :=
          AddRage_ok unit sim amount metrics (not_lt.mp hneg)
        simp only [runCalls, RageCall.run, hstep] at hrun
        obtain ⟨recorded, hev₁, hlen, hmetrics, hgain⟩ := ih unit₂ unit₁ hrest hrun
        refine ⟨⟨metrics, amount,
          min (unit.rageBar.currentRage + amount) MaxRage - unit.rageBar.currentRage⟩ ::
            recorded, ?_, ?_, ?_, ?_⟩
        · rw [hev₁, hev]
          simp
        · simp [hlen]
        · simp [hmetrics, RageCall.metrics]
        · simp [hgain, RageCall.isAddRage, RageCall.amount]
    | SpendRage sim amount metrics =>
      by_cases hneg : amount < 0
      · simp [runCalls, RageCall.run, SpendRage, hneg] at hrun
      · obtain ⟨unit₂, hstep, -, hev, -⟩ :=
          SpendRage_ok unit sim amount metrics (not_lt.mp hneg)
        simp only [runCalls, RageCall.run, hstep] at hrun
        obtain ⟨recorded, hev₁, hlen, hmetrics, hgain⟩ := ih unit₂ unit₁ hrest hrun
        refine ⟨⟨metrics, -amount, -amount⟩ :: recorded, ?_, ?_, ?_, ?_⟩
        · rw [hev₁, hev]
          simp
        · simp [hlen]
        · simp [hmetrics, RageCall.metrics]
        · simp [hgain, RageCall.isAddRage, RageCall.amount]

/-- The number of binary digits does not decrease with the number. -/
lemma bitLengthAux_mono : ∀ (fuel n n' : Nat), n ≤ n' →
    bitLengthAux fuel n ≤ bitLengthAux fuel n'
  | 0, _, _, _ => by simp [bitLengthAux]
  | fuel + 1, n, n', h => by
    simp only [bitLengthAux]
    by_cases hn : n = 0
    · simp [hn]
    · have hn' : n' ≠ 0 := by omega
      simp only [hn, hn', if_false]
      exact Nat.succ_le_succ (bitLengthAux_mono fuel _ _ (Nat.div_le_div_right h))

/-- With enough fuel, `n` has `bitLengthAux fuel n` binary digits: it is below
`2 ^ bitLengthAux fuel n` and, when positive, at least half of that. -/
lemma bitLengthAux_spec : ∀ (fuel n : Nat), n < 2 ^ fuel →
    n < 2 ^ bitLengthAux fuel n ∧ (n ≠ 0 → 2 ^ (bitLengthAux fuel n - 1) ≤ n)
  | 0, n, h => by
    simp at h
    subst h
    simp [bitLengthAux]
  | fuel + 1, n, h => by
    simp only [bitLengthAux]
    by_cases hn : n = 0
    · simp [hn]
    · simp only [hn, if_false]
      have hlt : n / 2 < 2 ^ fuel := by
        rw [pow_succ] at h
        omega
      obtain ⟨h1, h2⟩ := bitLengthAux_spec fuel (n / 2) hlt
      refine ⟨?_, fun _ => ?_⟩
      · rw [pow_succ]
        omega
      · simp only [Nat.add_sub_cancel]
        by_cases h0 : n / 2 = 0
        · have hb : bitLengthAux fuel (n / 2) = 0 := by
            rw [h0]
            cases fuel <;> simp [bitLengthAux]
          rw [hb]
          simp
          omega
        · have h3 := h2 h0
          have hb : bitLengthAux fuel (n / 2) ≠ 0 := by
            intro hb
            rw [hb] at h1
            simp at h1
            omega
          obtain ⟨b, hb'⟩ := Nat.exists_eq_succ_of_ne_zero hb
          rw [hb'] at h3 ⊢
          simp only [Nat.succ_eq_add_one, Nat.add_sub_cancel] at h3
          rw [pow_succ]
          omega

/-- The rounding of `n` units is a multiple of the spacing `2 ^ (bitLength n - 53)`, whose
factor is the quotient of `n` by the spacing or the next integer, the latter only when the
division leaves a remainder. -/
lemma roundNat_eq (n : Nat) :
    ∃ m₁, roundNat n 1 = m₁ * 2 ^ (bitLength n - 53) ∧
      n / 2 ^ (bitLength n - 53) ≤ m₁ ∧ m₁ ≤ n / 2 ^ (bitLength n - 53) + 1 ∧
      (m₁ = n / 2 ^ (bitLength n - 53) + 1 → 0 < n % 2 ^ (bitLength n - 53)) := by
  have hs : 0 < 2 ^ (bitLength n - 53) := by positivity
  unfold roundNat
  simp only [Nat.div_one, one_mul]
  refine ⟨_, rfl, ?_, ?_, ?_⟩ <;> split_ifs <;> omega

/-- Zero has no binary digit. -/
lemma bitLength_zero : bitLength 0 = 0 := by
  have h : ∀ fuel, bitLengthAux fuel 0 = 0 := fun fuel => by cases fuel <;> simp [bitLengthAux]
  exact h 4300

/-- Rounding does not go below a `float64` that the exact value is not below. -/
lemma roundNat_ge_of_float (c n : Nat) (hc : roundNat c 1 = c) (hle : c ≤ n)
    (hn : n < 2 ^ 4300) : c ≤ roundNat n 1 := by
  obtain ⟨m₁, hr, hlo, -, -⟩ := roundNat_eq n
  obtain ⟨mc, hrc, -, -, -⟩ := roundNat_eq c
  rw [hc] at hrc
  rw [hr]
  have hmono : bitLength c ≤ bitLength n := bitLengthAux_mono _ _ _ hle
  have hj : ∃ j, c ≤ j * 2 ^ (bitLength n - 53) ∧ j * 2 ^ (bitLength n - 53) ≤ n := by
    by_cases hk : bitLength c - 53 = bitLength n - 53
    · rw [hk] at hrc
      exact ⟨mc, hrc.le, by rw [← hrc]; exact hle⟩
    · have hlt : bitLength c < bitLength n := by omega
      have hn0 : n ≠ 0 := by
        rintro rfl
        rw [bitLength_zero] at hlt
        omega
      have hcs : c < 2 ^ bitLength c :=
        (bitLengthAux_spec 4300 c (lt_of_le_of_lt hle hn)).1
      have hns : 2 ^ (bitLength n - 1) ≤ n := (bitLengthAux_spec 4300 n hn).2 hn0
      have hsplit : bitLength n - 1 - (bitLength n - 53) + (bitLength n - 53)
          = bitLength n - 1 := by omega
      refine ⟨2 ^ (bitLength n - 1 - (bitLength n - 53)), ?_, ?_⟩
      · rw [← pow_add, hsplit]
        exact le_trans hcs.le (Nat.pow_le_pow_right (by decide) (by omega))
      · rw [← pow_add, hsplit]
        exact hns
  obtain ⟨j, hj1, hj2⟩ := hj
  have hjm : j ≤ n / 2 ^ (bitLength n - 53) := (Nat.le_div_iff_mul_le (by positivity)).2 hj2
  exact le_trans hj1 (Nat.mul_le_mul_right _ (le_trans hjm hlo))

/-- Rounding does not go above a `float64` that the exact value is not above. -/
lemma roundNat_le_of_float (C n : Nat) (hC : roundNat C 1 = C) (hle : n ≤ C)
    (hC' : C < 2 ^ 4300) : roundNat n 1 ≤ C := by
  obtain ⟨m₁, hr, -, hhi, hpos⟩ := roundNat_eq n
  obtain ⟨mC, hrC, -, -, -⟩ := roundNat_eq C
  rw [hC] at hrC
  rw [hr]
  have hmono : bitLength n ≤ bitLength C := bitLengthAux_mono _ _ _ hle
  have hj : ∃ j, n ≤ j * 2 ^ (bitLength n - 53) ∧ j * 2 ^ (bitLength n - 53) ≤ C := by
    by_cases hk : bitLength C - 53 = bitLength n - 53
    · rw [hk] at hrC
      exact ⟨mC, by rw [← hrC]; exact hle, hrC.ge⟩
    · have hlt : bitLength n < bitLength C := by omega
      have hC0 : C ≠ 0 := by
        rintro rfl
        rw [bitLength_zero] at hlt
        omega
      have hns : n < 2 ^ bitLength n :=
        (bitLengthAux_spec 4300 n (lt_of_le_of_lt hle hC')).1
      have hCs : 2 ^ (bitLength C - 1) ≤ C := (bitLengthAux_spec 4300 C hC').2 hC0
      have hsplit : bitLength n - (bitLength n - 53) + (bitLength n - 53)
          = bitLength n := by omega
      refine ⟨2 ^ (bitLength n - (bitLength n - 53)), ?_, ?_⟩
      · rw [← pow_add, hsplit]
        exact hns.le
      · rw [← pow_add, hsplit]
        exact le_trans (Nat.pow_le_pow_right (by decide) (by omega)) hCs
  obtain ⟨j, hj1, hj2⟩ := hj
  have hs : 0 < 2 ^ (bitLength n - 53) := by positivity
  have hdiv := Nat.div_add_mod n (2 ^ (bitLength n - 53))
  have hm : m₁ ≤ j := by
    by_contra hcon
    have hjm : j + 1 ≤ m₁ := by omega
    by_cases htop : m₁ = n / 2 ^ (bitLength n - 53) + 1
    · have hr0 := hpos htop
      have h1 : j * 2 ^ (bitLength n - 53)
          ≤ n / 2 ^ (bitLength n - 53) * 2 ^ (bitLength n - 53) :=
        Nat.mul_le_mul_right _ (by omega)
      rw [Nat.mul_comm] at hdiv
      omega
    · have h1 : (j + 1) * 2 ^ (bitLength n - 53)
          ≤ n / 2 ^ (bitLength n - 53) * 2 ^ (bitLength n - 53) :=
        Nat.mul_le_mul_right _ (by omega)
      rw [Nat.add_mul, Nat.one_mul] at h1
      rw [Nat.mul_comm] at hdiv
      omega
  exact le_trans (Nat.mul_le_mul_right _ hm) hj2

/-- The rounding of a non-negative value is not negative. -/
lemma roundRatio_nonneg (num : Int) (den : Nat) (h : 0 ≤ num) : 0 ≤ roundRatio num den := by
  unfold roundRatio
  rw [if_neg (by omega)]
  exact Int.ofNat_nonneg _

/-- For either sign: the rounding of `x` is at least `c` when `c` is a `float64` and
`c ≤ x`. -/
lemma roundRatio_ge_of_float (c x : Int) (hc : roundRatio c 1 = c) (hle : c ≤ x)
    (hlo : -(2 ^ 4300) < c) (hx : x < 2 ^ 4300) : c ≤ roundRatio x 1 := by
  unfold roundRatio at hc ⊢
  by_cases hc0 : c < 0
  · rw [if_pos hc0] at hc
    have hc' : -(roundNat c.natAbs 1 : Int) = c := hc
    by_cases hx0 : x < 0
    · rw [if_pos hx0]
      have hC : roundNat c.natAbs 1 = c.natAbs := by omega
      have hb := roundNat_le_of_float c.natAbs x.natAbs hC (by omega) (by omega)
      show c ≤ -(roundNat x.natAbs 1 : Int)
      omega
    · rw [if_neg hx0]
      show c ≤ (roundNat x.natAbs 1 : Int)
      omega
  · rw [if_neg hc0] at hc
    have hc' : (roundNat c.natAbs 1 : Int) = c := hc
    have hx0 : ¬ x < 0 := by omega
    rw [if_neg hx0]
    have hC : roundNat c.natAbs 1 = c.natAbs := by omega
    have hb := roundNat_ge_of_float c.natAbs x.natAbs hC (by omega) (by omega)
    show c ≤ (roundNat x.natAbs 1 : Int)
    omega

/-- In `float64` arithmetic, the actual gain of `AddRage` from a rage of at most 100 with a
non-negative amount is not negative: the rounded sum is not below the old rage, `MaxRage`
is not below it either, and the subtraction of the old rage from their minimum rounds a
non-negative value. -/
lemma AddRage64_gain_nonneg (currentRage amount : Float64)
    (hfloat : roundRatio currentRage 1 = currentRage) (hlo : -maxFloat64 ≤ currentRage)
    (hhi : currentRage ≤ float64OfDecimal 100 0) (ha0 : 0 ≤ amount)
    (ha : amount ≤ maxFloat64) : 0 ≤ (AddRage64 currentRage amount).2 := by
  have h100 : float64OfDecimal 100 0 = 100 * 2 ^ 1074 := by decide!
  have hbound : ∀ c a : Int, -((2 ^ 53 - 1) * 2 ^ 2045) ≤ c → c ≤ 100 * 2 ^ 1074 → 0 ≤ a →
      a ≤ (2 ^ 53 - 1) * 2 ^ 2045 → c ≤ c + a ∧ -(2 ^ 4300) < c ∧ c + a < 2 ^ 4300 := by
    intro c a h1 h2 h3 h4
    omega
  rw [h100] at hhi
  obtain ⟨h1, h2, h3⟩ := hbound currentRage amount hlo hhi ha0 ha
  have hge := roundRatio_ge_of_float currentRage (currentRage + amount) hfloat h1 h2 h3
  simp only [AddRage64, float64Sub, float64Add, h100]
  apply roundRatio_nonneg
  exact sub_nonneg.2 (le_min hge hhi)

/-- Counterexample to C28 as stated, in `float64` arithmetic.  From a rage of `0.1`,
`AddRage(0.2)` sets the rage to `0.30000000000000004` and records the actual gain
`0.20000000000000004`, which is above the amount `0.2`.  From a rage of `0`,
`AddRage(0.1)` then `AddRage(0.7)` record the actual gains `0.1` and `0.7` and leave the
rage `0.7999999999999999`, which is not the sum `0 + 0.1 + 0.7` of the starting rage and
the recorded gains taken without rounding.  And from a rage of `0`, `SpendRage(28.2)` then
`AddRage(150)` record the actual gains `-28.2` and `128.2` and leave the rage `100`, while
the starting rage plus these gains is `99.99999999999999`, summed as `float64` values or
without rounding. -/
theorem AddRage_gain_exceeds_amount_in_float64 :
    float64OfDecimal 1 1 = 3602879701896397 * 2 ^ (1074 - 55) ∧
    float64OfDecimal 2 1 = 3602879701896397 * 2 ^ (1074 - 54) ∧
    AddRage64 (float64OfDecimal 1 1) (float64OfDecimal 2 1)
      = (5404319552844596 * 2 ^ (1074 - 54), 7205759403792795 * 2 ^ (1074 - 55)) ∧
    float64OfDecimal 2 1 < (AddRage64 (float64OfDecimal 1 1) (float64OfDecimal 2 1)).2 ∧
    AddRage64 0 (float64OfDecimal 1 1) = (float64OfDecimal 1 1, float64OfDecimal 1 1) ∧
    AddRage64 (float64OfDecimal 1 1) (float64OfDecimal 7 1)
      = (7205759403792793 * 2 ^ (1074 - 53), float64OfDecimal 7 1) ∧
    (0 : Float64) + float64OfDecimal 1 1 + float64OfDecimal 7 1
      ≠ 7205759403792793 * 2 ^ (1074 - 53) ∧
    SpendRage64 0 (float64OfDecimal 282 1)
      = (-float64OfDecimal 282 1, -float64OfDecimal 282 1) ∧
    AddRage64 (-float64OfDecimal 282 1) (float64OfDecimal 150 0)
      = (float64OfDecimal 100 0, float64OfDecimal 1282 1) ∧
    float64Add (float64Add 0 (-float64OfDecimal 282 1)) (float64OfDecimal 1282 1)
      ≠ float64OfDecimal 100 0 ∧
    float64Add 0 (float64Add (-float64OfDecimal 282 1) (float64OfDecimal 1282 1))
      ≠ float64OfDecimal 100 0 ∧
    (0 : Float64) + -float64OfDecimal 282 1 + float64OfDecimal 1282 1
      ≠ float64OfDecimal 100 0 := by
  refine ⟨by decide!, by decide!, by decide!, by decide!, by decide!, by decide!, by decide!,
    by decide!, by decide!, by decide!, by decide!, by decide!⟩

/-- C28 (amended): take a rage bar right after `EnableRageBar` and `reset`, and any sequence
of `AddRage` and `SpendRage` calls.  The sequence returns when every amount is
non-negative; whenever it returns, it has recorded exactly one event per call, in call
order, each on the metrics handle of its call, with the amount of an `AddRage` and minus
the amount of a `SpendRage` as first component.  An `AddRage` with a non-negative amount
sets the rage to `min (rage + amount) 100` and records as actual gain that new rage minus
the old one, which is not negative when the old rage is at most 100; a `SpendRage` sets
the rage to `rage - amount` and records minus the amount.  The actual gain of an `AddRage`
is not negative either when the sum and the difference are rounded as `float64`
operations are (`AddRage64`), for every finite `float64` rage of at most 100 and every
finite non-negative amount. -/
theorem rage_calls_record_one_event_each (unit₀ : Unit) (options : RageBarOptions)
    (sim₀ : Simulation) (calls : List RageCall) (hcalls : ∀ c ∈ calls, c.isReset = false) :
    ((∀ c ∈ calls, 0 ≤ c.amount) →
      ∃ unit₁, runCalls (reset (EnableRageBar unit₀ options) sim₀) calls = .ok unit₁) ∧
    (∀ unit₁, runCalls (reset (EnableRageBar unit₀ options) sim₀) calls = .ok unit₁ →
      ∃ recorded : List MetricsEvent,
        unit₁.events = (reset (EnableRageBar unit₀ options) sim₀).events ++ recorded ∧
        recorded.length = calls.length ∧
        recorded.map (fun e => some e.metrics) = calls.map RageCall.metrics ∧
        recorded.map MetricsEvent.gain =
          calls.map (fun c => if c.isAddRage then c.amount else -c.amount)) ∧
    (∀ (unit : Unit) (sim : Simulation) (amount : ℚ) (metrics : ResourceMetrics),
      0 ≤ amount →
      ∃ unit₁, AddRage unit sim amount metrics = .ok unit₁ ∧
        CurrentRage unit₁ = min (CurrentRage unit + amount) 100 ∧
        unit₁.events = unit.events ++
          [⟨metrics, amount, min (CurrentRage unit + amount) 100 - CurrentRage unit⟩] ∧
        (CurrentRage unit ≤ 100 →
          0 ≤ min (CurrentRage unit + amount) 100 - CurrentRage unit)) ∧
    (∀ (unit : Unit) (sim : Simulation) (amount : ℚ) (metrics : ResourceMetrics),
      0 ≤ amount →
      ∃ unit₁, SpendRage unit sim amount metrics = .ok unit₁ ∧
        CurrentRage unit₁ = CurrentRage unit - amount ∧
        unit₁.events = unit.events ++ [⟨metrics, -amount, -amount⟩]) ∧
    (∀ currentRage amount : Float64, roundRatio currentRage 1 = currentRage →
      -maxFloat64 ≤ currentRage → currentRage ≤ float64OfDecimal 100 0 →
      0 ≤ amount → amount ≤ maxFloat64 → 0 ≤ (AddRage64 currentRage amount).2) := by
  have hstart : (reset (EnableRageBar unit₀ options) sim₀).rageBar.startingRage
      = max 0 (min options.StartingRage MaxRage) := rfl
  have hcur : (reset (EnableRageBar unit₀ options) sim₀).rageBar.currentRage
      = max 0 (min options.StartingRage MaxRage) := rfl
  have hlo : (0 : ℚ) ≤ max 0 (min options.StartingRage MaxRage) := le_max_left _ _
  have hhi : max 0 (min options.StartingRage MaxRage) ≤ MaxRage :=
    max_le (by norm_num [MaxRage]) (min_le_right _ _)
  refine ⟨fun hnn => ?_, fun unit₁ hrun => ?_, fun unit sim amount metrics ha => ?_,
    fun unit sim amount metrics ha => ?_, AddRage64_gain_nonneg⟩
  · obtain ⟨unit₁, hrun, -⟩ :=
      runCalls_bounds calls (reset (EnableRageBar unit₀ options) sim₀) hnn
        (by rw [hstart]; exact hlo) (by rw [hstart]; exact hhi) (by rw [hcur]; exact hhi)
    exact ⟨unit₁, hrun⟩
  · exact runCalls_events calls _ unit₁ hcalls hrun
  · obtain ⟨unit₁, hrun, hbar, hev, -⟩ := AddRage_ok unit sim amount metrics ha
    refine ⟨unit₁, hrun, ?_, ?_, fun hc => ?_⟩
    · simp [CurrentRage, hbar, MaxRage]
    · simpa [CurrentRage, MaxRage] using hev
    · have : CurrentRage unit ≤ min (CurrentRage unit + amount) 100 :=
        le_min (by linarith) hc
      linarith
  · obtain ⟨unit₁, hrun, hbar, hev, -⟩ := SpendRage_ok unit sim amount metrics ha
    exact ⟨unit₁, hrun, by simp [CurrentRage, hbar], hev⟩

/-- Witness of C28 (amended): add 95, add 25, spend 40 on the sample bar, which starts
at 0: the sequence returns and three events are recorded, with first components 95, 25
and -40.  And in `float64` arithmetic the actual gain of `AddRage(0.2)` from a rage of
`0.1` is not negative. -/
theorem rage_calls_record_one_event_each_witness :
    (∃ unit₁,
      runCalls (reset (EnableRageBar sampleUnit sampleOptions) sampleSim)
        [RageCall.AddRage sampleSim 95 sampleMetrics, RageCall.AddRage sampleSim 25 sampleMetrics,
          RageCall.SpendRage sampleSim 40 sampleMetrics] = .ok unit₁ ∧
      ∃ recorded : List MetricsEvent,
        unit₁.events = recorded ∧ recorded.length = 3 ∧
        recorded.map MetricsEvent.gain = [95, 25, -40]) ∧
    0 ≤ (AddRage64 (float64OfDecimal 1 1) (float64OfDecimal 2 1)).2 := by
  have h := rage_calls_record_one_event_each sampleUnit sampleOptions sampleSim
    [RageCall.AddRage sampleSim 95 sampleMetrics, RageCall.AddRage sampleSim 25 sampleMetrics,
      RageCall.SpendRage sampleSim 40 sampleMetrics]
    (by simp [RageCall.isReset])
  obtain ⟨unit₁, hrun⟩ := h.1 (by simp [RageCall.amount])
  obtain ⟨recorded, hev, hlen, -, hgain⟩ := h.2.1 unit₁ hrun
  refine ⟨⟨unit₁, hrun, recorded, ?_, hlen, ?_⟩,
    h.2.2.2.2 _ _ (by decide!) (by decide!) (by decide!) (by decide!) (by decide!)⟩
  · rw [hev]
    have : (reset (EnableRageBar sampleUnit sampleOptions) sampleSim).events = [] := rfl
    rw [this]
    rfl
  · rw [hgain]
    simp [RageCall.isAddRage, RageCall.amount]

/-! ## Spells registered before and after a modifier -/

/-- A loop over pointers that do not include `i` leaves the spell at `i` alone. -/
lemma getElem?_forEachSpell_of_not_mem (f : Spell → Spell) (affected : List Nat)
    (spells : List Spell) (i : Nat) (h : i ∉ affected) :
    (forEachSpell f affected spells)[i]? = spells[i]? := by
  rw [getElem?_forEachSpell, List.count_eq_zero.mpr h]
  simp

/-- The spells registered before the mod was built are out of reach of every operation:
no pointer below `n` enters the matched set and the spells below `n` stay as they are. -/
lemma runModOps_keeps_earlier_spells (flag : Nat) (n : Nat) (ops : List ModOp) :
    ∀ st : ModState, n ≤ st.spells.length → (∀ i ∈ st.mod.AffectedSpells, n ≤ i) →
      (n ≤ (runModOps flag st ops).spells.length) ∧
      (∀ i ∈ (runModOps flag st ops).mod.AffectedSpells, n ≤ i) ∧
      (∀ i, i < n → (runModOps flag st ops).spells[i]? = st.spells[i]?) := by
  induction ops with
  | nil => intro st hlen haff; exact ⟨hlen, haff, fun _ _ => rfl⟩
  | cons op rest ih =>
    intro st hlen haff
    have hstep : runModOps flag st (op :: rest) = runModOps flag (ModOp.run flag st op) rest :=
      rfl
    have hA : ∀ st₁ : ModState, n ≤ st₁.spells.length → (∀ i ∈ st₁.mod.AffectedSpells, n ≤ i) →
        n ≤ (Activate st₁).spells.length ∧ (∀ i ∈ (Activate st₁).mod.AffectedSpells, n ≤ i) ∧
        (∀ i, i < n → (Activate st₁).spells[i]? = st₁.spells[i]?) := by
      intro st₁ hl ha
      refine ⟨?_, ?_, ?_⟩
      · unfold Activate
        split_ifs
        · exact hl
        · simpa [length_forEachSpell] using hl
      · rw [Activate_AffectedSpells]
        exact ha
      · intro i hi
        unfold Activate
        split_ifs
        · rfl
        · exact getElem?_forEachSpell_of_not_mem _ _ _ _ fun hmem =>
            absurd (ha i hmem) (by omega)
    have hD : ∀ st₁ : ModState, n ≤ st₁.spells.length → (∀ i ∈ st₁.mod.AffectedSpells, n ≤ i) →
        n ≤ (Deactivate st₁).spells.length ∧
        (∀ i ∈ (Deactivate st₁).mod.AffectedSpells, n ≤ i) ∧
        (∀ i, i < n → (Deactivate st₁).spells[i]? = st₁.spells[i]?) := by
      intro st₁ hl ha
      refine ⟨?_, ?_, ?_⟩
      · unfold Deactivate
        split_ifs
        · simpa [length_forEachSpell] using hl
        · exact hl
      · rw [Deactivate_AffectedSpells]
        exact ha
      · intro i hi
        unfold Deactivate
        split_ifs
        · exact getElem?_forEachSpell_of_not_mem _ _ _ _ fun hmem =>
            absurd (ha i hmem) (by omega)
        · rfl
    have hU : ∀ upd : SpellMod → SpellMod,
        (∀ mod, (upd mod).AffectedSpells = mod.AffectedSpells) →
        n ≤ (Activate { Deactivate st with mod := upd (Deactivate st).mod }).spells.length ∧
        (∀ i ∈ (Activate { Deactivate st with
          mod := upd (Deactivate st).mod }).mod.AffectedSpells, n ≤ i) ∧
        (∀ i, i < n → (Activate { Deactivate st with
          mod := upd (Deactivate st).mod }).spells[i]? = st.spells[i]?) := by
      intro upd hupd
      obtain ⟨hl₁, ha₁, hs₁⟩ := hD st hlen haff
      obtain ⟨hl₂, ha₂, hs₂⟩ := hA
        { Deactivate st with mod := upd (Deactivate st).mod } hl₁
        (by
          intro i hi
          have : i ∈ (upd (Deactivate st).mod).AffectedSpells := hi
          rw [hupd] at this
          exact ha₁ i this)
      exact ⟨hl₂, ha₂, fun i hi => (hs₂ i hi).trans (hs₁ i hi)⟩
    have hone : n ≤ (ModOp.run flag st op).spells.length ∧
        (∀ i ∈ (ModOp.run flag st op).mod.AffectedSpells, n ≤ i) ∧
        (∀ i, i < n → (ModOp.run flag st op).spells[i]? = st.spells[i]?) := by
      cases op with
      | RegisterSpell spell =>
        show n ≤ (RegisterSpell flag st spell).spells.length ∧
          (∀ i ∈ (RegisterSpell flag st spell).mod.AffectedSpells, n ≤ i) ∧
          (∀ i, i < n → (RegisterSpell flag st spell).spells[i]? = st.spells[i]?)
        refine ⟨?_, ?_, ?_⟩
        · rw [RegisterSpell_eq]
          split_ifs <;> simp [length_modifySpell] <;> omega
        · rw [RegisterSpell_AffectedSpells]
          intro i hi
          rw [List.mem_append] at hi
          rcases hi with hi | hi
          · exact haff i hi
          · split_ifs at hi
            · rw [List.mem_singleton] at hi
              omega
            · cases hi
        · intro i hi
          have hlt : i < st.spells.length := by omega
          rw [RegisterSpell_eq]
          split_ifs
          · show (modifySpell _ (st.spells ++ [spell]) st.spells.length)[i]? = _
            rw [getElem?_modifySpell, if_neg (by omega), List.getElem?_append_left hlt]
          · exact List.getElem?_append_left hlt
          · exact List.getElem?_append_left hlt
      | Activate => exact hA st hlen haff
      | Deactivate => exact hD st hlen haff
      | UpdateIntValue value =>
        show n ≤ (UpdateIntValue st value).spells.length ∧
          (∀ i ∈ (UpdateIntValue st value).mod.AffectedSpells, n ≤ i) ∧
          (∀ i, i < n → (UpdateIntValue st value).spells[i]? = st.spells[i]?)
        unfold UpdateIntValue
        split_ifs
        · exact hU (fun mod => { mod with intValue := value }) fun _ => rfl
        · exact ⟨hlen, haff, fun _ _ => rfl⟩
      | UpdateTimeValue value =>
        show n ≤ (UpdateTimeValue st value).spells.length ∧
          (∀ i ∈ (UpdateTimeValue st value).mod.AffectedSpells, n ≤ i) ∧
          (∀ i, i < n → (UpdateTimeValue st value).spells[i]? = st.spells[i]?)
        unfold UpdateTimeValue
        split_ifs
        · exact hU (fun mod => { mod with timeValue := value }) fun _ => rfl
        · exact ⟨hlen, haff, fun _ _ => rfl⟩
      | UpdateFloatValue value =>
        show n ≤ (UpdateFloatValue st value).spells.length ∧
          (∀ i ∈ (UpdateFloatValue st value).mod.AffectedSpells, n ≤ i) ∧
          (∀ i, i < n → (UpdateFloatValue st value).spells[i]? = st.spells[i]?)
        unfold UpdateFloatValue
        split_ifs
        · exact hU (fun mod => { mod with floatValue := value }) fun _ => rfl
        · exact ⟨hlen, haff, fun _ _ => rfl⟩
    obtain ⟨hl₁, ha₁, hs₁⟩ := hone
    obtain ⟨hl₂, ha₂, hs₂⟩ := ih (ModOp.run flag st op) hl₁ ha₁
    rw [hstep]
    exact ⟨hl₂, ha₂, fun i hi => (hs₂ i hi).trans (hs₁ i hi)⟩

/-- C21: a spell that is already registered on the unit when the mod is built by `buildMod`
is never in the matched set, whatever is registered, activated, deactivated or updated
afterwards, and keeps every field, also when it satisfies `shouldApply`; in particular
`Activate` right after the construction leaves all those spells unchanged. -/
theorem earlier_spells_are_never_matched (flag : Nat) (config : SpellModConfig)
    (mod₀ : SpellMod) (spells₀ : List Spell) (ops : List ModOp) (idx : Nat)
    (hbuild : buildMod config = .ok mod₀) (hidx : idx < spells₀.length) :
    idx ∉ (runModOps flag (ModState.init spells₀ mod₀) ops).mod.AffectedSpells ∧
    (runModOps flag (ModState.init spells₀ mod₀) ops).spells[idx]? = spells₀[idx]? ∧
    (Activate (ModState.init spells₀ mod₀)).spells = spells₀ := by
  obtain ⟨hinactive, hempty⟩ := buildMod_inactive_empty config mod₀ hbuild
  have hinit : ∀ i ∈ (ModState.init spells₀ mod₀).mod.AffectedSpells, spells₀.length ≤ i := by
    intro i hi
    have : i ∈ mod₀.AffectedSpells := hi
    rw [hempty] at this
    cases this
  obtain ⟨-, haff, hspells⟩ :=
    runModOps_keeps_earlier_spells flag spells₀.length ops (ModState.init spells₀ mod₀)
      (le_refl _) hinit
  refine ⟨fun hmem => ?_, hspells idx hidx, ?_⟩
  · have := haff idx hmem
    omega
  · have hm : (ModState.init spells₀ mod₀).mod = mod₀ := rfl
    simp only [Activate, hm, hinactive, Bool.false_eq_true, if_false, hempty]
    rfl

/-- Witness of C21: Ice Lance is registered before the percent mod is built; it satisfies
`shouldApply`, yet after `Activate` it is not matched and is unchanged. -/
theorem earlier_spells_are_never_matched_witness :
    shouldApply sampleSpellFlagNoSpellMods sampleIceLance (sampleDamagePctMod 3) = true ∧
    0 ∉ (runModOps sampleSpellFlagNoSpellMods
      (ModState.init [sampleIceLance] (sampleDamagePctMod 3)) [ModOp.Activate]).mod.AffectedSpells ∧
    (runModOps sampleSpellFlagNoSpellMods
      (ModState.init [sampleIceLance] (sampleDamagePctMod 3)) [ModOp.Activate]).spells[0]?
        = some sampleIceLance :=
  ⟨by decide,
    (earlier_spells_are_never_matched sampleSpellFlagNoSpellMods (sampleDamagePctConfig 3)
      (sampleDamagePctMod 3) [sampleIceLance] [ModOp.Activate] 0 rfl (by decide)).1,
    (earlier_spells_are_never_matched sampleSpellFlagNoSpellMods (sampleDamagePctConfig 3)
      (sampleDamagePctMod 3) [sampleIceLance] [ModOp.Activate] 0 rfl (by decide)).2.1⟩

/-! ## Registration on an active modifier -/

/-- `Activate` keeps the functions and the kind of the mod. -/
lemma Activate_functions (st : ModState) :
    (Activate st).mod.Apply = st.mod.Apply ∧ (Activate st).mod.Remove = st.mod.Remove ∧
      (Activate st).mod.Kind = st.mod.Kind := by
  unfold Activate
  split_ifs <;> exact ⟨rfl, rfl, rfl⟩

/-- `Deactivate` keeps the functions and the kind of the mod. -/
lemma Deactivate_functions (st : ModState) :
    (Deactivate st).mod.Apply = st.mod.Apply ∧ (Deactivate st).mod.Remove = st.mod.Remove ∧
      (Deactivate st).mod.Kind = st.mod.Kind := by
  unfold Deactivate
  split_ifs <;> exact ⟨rfl, rfl, rfl⟩

/-- No operation replaces the functions or the kind of the mod. -/
lemma runModOps_functions (flag : Nat) (ops : List ModOp) :
    ∀ st : ModState, (runModOps flag st ops).mod.Apply = st.mod.Apply ∧
      (runModOps flag st ops).mod.Remove = st.mod.Remove ∧
      (runModOps flag st ops).mod.Kind = st.mod.Kind := by
  induction ops with
  | nil => intro st; exact ⟨rfl, rfl, rfl⟩
  | cons op rest ih =>
    intro st
    have hstep : runModOps flag st (op :: rest) = runModOps flag (ModOp.run flag st op) rest :=
      rfl
    have hU : ∀ upd : SpellMod → SpellMod,
        (∀ mod, (upd mod).Apply = mod.Apply ∧ (upd mod).Remove = mod.Remove ∧
          (upd mod).Kind = mod.Kind) →
        (Activate { Deactivate st with mod := upd (Deactivate st).mod }).mod.Apply
            = st.mod.Apply ∧
          (Activate { Deactivate st with mod := upd (Deactivate st).mod }).mod.Remove
            = st.mod.Remove ∧
          (Activate { Deactivate st with mod := upd (Deactivate st).mod }).mod.Kind
            = st.mod.Kind := by
      intro upd hupd
      obtain ⟨a₁, r₁, k₁⟩ := Deactivate_functions st
      obtain ⟨a₂, r₂, k₂⟩ := hupd (Deactivate st).mod
      obtain ⟨a₃, r₃, k₃⟩ :=
        Activate_functions { Deactivate st with mod := upd (Deactivate st).mod }
      exact ⟨a₃.trans (a₂.trans a₁), r₃.trans (r₂.trans r₁), k₃.trans (k₂.trans k₁)⟩
    have hone : (ModOp.run flag st op).mod.Apply = st.mod.Apply ∧
        (ModOp.run flag st op).mod.Remove = st.mod.Remove ∧
        (ModOp.run flag st op).mod.Kind = st.mod.Kind := by
      cases op with
      | RegisterSpell spell =>
        show (RegisterSpell flag st spell).mod.Apply = st.mod.Apply ∧
          (RegisterSpell flag st spell).mod.Remove = st.mod.Remove ∧
          (RegisterSpell flag st spell).mod.Kind = st.mod.Kind
        rw [RegisterSpell_eq]
        split_ifs <;> exact ⟨rfl, rfl, rfl⟩
      | Activate => exact Activate_functions st
      | Deactivate => exact Deactivate_functions st
      | UpdateIntValue value =>
        show (UpdateIntValue st value).mod.Apply = st.mod.Apply ∧
          (UpdateIntValue st value).mod.Remove = st.mod.Remove ∧
          (UpdateIntValue st value).mod.Kind = st.mod.Kind
        unfold UpdateIntValue
        split_ifs
        · exact hU (fun mod => { mod with intValue := value }) fun _ => ⟨rfl, rfl, rfl⟩
        · exact ⟨rfl, rfl, rfl⟩
      | UpdateTimeValue value =>
        show (UpdateTimeValue st value).mod.Apply = st.mod.Apply ∧
          (UpdateTimeValue st value).mod.Remove = st.mod.Remove ∧
          (UpdateTimeValue st value).mod.Kind = st.mod.Kind
        unfold UpdateTimeValue
        split_ifs
        · exact hU (fun mod => { mod with timeValue := value }) fun _ => ⟨rfl, rfl, rfl⟩
        · exact ⟨rfl, rfl, rfl⟩
      | UpdateFloatValue value =>
        show (UpdateFloatValue st value).mod.Apply = st.mod.Apply ∧
          (UpdateFloatValue st value).mod.Remove = st.mod.Remove ∧
          (UpdateFloatValue st value).mod.Kind = st.mod.Kind
        unfold UpdateFloatValue
        split_ifs
        · exact hU (fun mod => { mod with floatValue := value }) fun _ => ⟨rfl, rfl, rfl⟩
        · exact ⟨rfl, rfl, rfl⟩
    obtain ⟨a₁, r₁, k₁⟩ := hone
    obtain ⟨a₂, r₂, k₂⟩ := ih (ModOp.run flag st op)
    rw [hstep]
    exact ⟨a₂.trans a₁, r₂.trans r₁, k₂.trans k₁⟩

/-- What `Deactivate` does to one matched spell of an active mod: `Remove` is invoked on it
once, with the stored values. -/
lemma Deactivate_matched_spell (st : ModState) (h : st.Balanced)
    (hactive : st.mod.IsActive = true) (idx : Nat) (hmem : idx ∈ st.mod.AffectedSpells) :
    (Deactivate st).spells[idx]? = st.spells[idx]?.map (st.mod.Remove st.mod.values) ∧
      applyCount (Deactivate st) idx = applyCount st idx ∧
      removeCount (Deactivate st) idx = removeCount st idx + 1 ∧
      (Deactivate st).mod.IsActive = false := by
  have h1 : st.mod.AffectedSpells.count idx = 1 := List.count_eq_one_of_mem h.1 hmem
  refine ⟨?_, ?_, ?_, ?_⟩
  · simp only [Deactivate, hactive, not_true_eq_false, if_false]
    rw [getElem?_forEachSpell, h1, Function.iterate_one]
  · simp only [applyCount, Deactivate, hactive, not_true_eq_false, if_false, List.count_append,
      count_Apply_map_Remove, Nat.add_zero]
  · simp only [removeCount, Deactivate, hactive, not_true_eq_false, if_false, List.count_append,
      count_Remove_map_Remove, h1]
  · simp only [Deactivate, hactive, not_true_eq_false, if_false]

/-- The state `AddStaticMod` returns keeps the bookkeeping, and its mod is active with the
functions of the mod `buildMod` returned. -/
lemma AddStaticMod_state (spells₀ : List Spell) (config : SpellModConfig) (st₀ : ModState)
    (h : AddStaticMod spells₀ config = .ok st₀) :
    ∃ mod₀, buildMod config = .ok mod₀ ∧ st₀ = Activate (ModState.init spells₀ mod₀) ∧
      st₀.Balanced ∧ st₀.mod.IsActive = true ∧ st₀.spells = spells₀ ∧
      st₀.mod.Apply = mod₀.Apply ∧ st₀.mod.Remove = mod₀.Remove := by
  unfold AddStaticMod at h
  cases hbuild : buildMod config with
  | error msg => simp [hbuild] at h
  | ok mod₀ =>
    simp only [hbuild, Except.ok.injEq] at h
    obtain ⟨hinactive, hempty⟩ := buildMod_inactive_empty config mod₀ hbuild
    have hm : (ModState.init spells₀ mod₀).mod = mod₀ := rfl
    have hbal : (ModState.init spells₀ mod₀).Balanced := by
      refine ⟨?_, ?_, ?_, ?_⟩
      · rw [hm, hempty]
        exact List.nodup_nil
      · intro idx hidx
        rw [hm, hempty] at hidx
        cases hidx
      · intro call hcall
        cases hcall
      · intro idx hidx
        rw [hm, hempty] at hidx
        cases hidx
    refine ⟨mod₀, rfl, h.symm, ?_, ?_, ?_, ?_, ?_⟩
    · rw [← h]
      exact Balanced_Activate _ hbal
    · rw [← h]
      simp [Activate, hm, hinactive]
    · rw [← h]
      simp only [Activate, hm, hinactive, Bool.false_eq_true, if_false, hempty]
      rfl
    · rw [← h]
      exact (Activate_functions _).1
    · rw [← h]
      exact (Activate_functions _).2.1

/-- Counterexample to C29 as stated.  The percent mod of Ice Lance created by
`AddStaticMod` with value `-1` is active; Ice Lance, whose `DamageMultiplier` is 1 at
registration, matches and gets the multiplier `1 * (1 + -1) = 0`; the later `Deactivate`
divides by `1 + -1 = 0` and does not give 1 back.  And in `float64` arithmetic a field
registered at `1.0` under an active `SpellMod_DamageDone_Flat` mod of value `0.4` holds
`1.0 + 0.4`, rounded, and after the `Deactivate` holds `0.9999999999999999`. -/
theorem static_percent_mod_minus_one_is_not_restored :
    AddStaticMod [] (sampleDamagePctConfig (-1)) = .ok (sampleStaticPctState (-1)) ∧
    (sampleStaticPctState (-1)).mod.IsActive = true ∧
    shouldApply sampleSpellFlagNoSpellMods sampleIceLance (sampleStaticPctState (-1)).mod
      = true ∧
    sampleIceLance.DamageMultiplier = 1 ∧
    (RegisterSpell sampleSpellFlagNoSpellMods (sampleStaticPctState (-1))
      sampleIceLance).mod.AffectedSpells = [0] ∧
    (RegisterSpell sampleSpellFlagNoSpellMods (sampleStaticPctState (-1))
      sampleIceLance).spells.map Spell.DamageMultiplier = [0] ∧
    (Deactivate (RegisterSpell sampleSpellFlagNoSpellMods (sampleStaticPctState (-1))
      sampleIceLance)).spells.map Spell.DamageMultiplier ≠ [1] ∧
    float64OfDecimal 1 0 = 9007199254740992 * 2 ^ (1074 - 53) ∧
    removeDamageDoneAdd64 (float64OfDecimal 4 1)
        (applyDamageDoneAdd64 (float64OfDecimal 4 1) (float64OfDecimal 1 0))
      = 9007199254740991 * 2 ^ (1074 - 53) := by
  have h0 : (RegisterSpell sampleSpellFlagNoSpellMods (sampleStaticPctState (-1))
      sampleIceLance).spells.map Spell.DamageMultiplier = [1 * (1 + -1)] := rfl
  have h1 : (Deactivate (RegisterSpell sampleSpellFlagNoSpellMods (sampleStaticPctState (-1))
      sampleIceLance)).spells.map Spell.DamageMultiplier = [1 * (1 + -1) / (1 + -1)] := rfl
  refine ⟨rfl, rfl, by decide, rfl, rfl, ?_, ?_, by decide!, by decide!⟩
  · rw [h0]
    norm_num
  · rw [h1]
    norm_num

/-- C29 (amended): take a mod created by `AddStaticMod`, any operations after it, and a
matching spell registered while the mod is active.  The pointer of the spell is appended
to the matched set (it was not in it), `Apply` is invoked on the spell exactly once, with
the stored values, and `Remove` not at all.  After any further registrations, the next
`Deactivate` invokes `Remove` on the spell exactly once (and `Apply` not again), with the
same values, and leaves the mod inactive; when the kind is one of the seven that rewrite
an integer field, the spell is then exactly as it was registered.  Of a `float64` field
nothing more is stated: it holds the result of the two operations, which is the value at
registration only when neither of them rounds. -/
theorem static_mod_registration (flag : Nat) (config : SpellModConfig) (spells₀ : List Spell)
    (st₀ : ModState) (ops : List ModOp) (spell : Spell) (later : List Spell)
    (hstatic : AddStaticMod spells₀ config = .ok st₀)
    (hactive : (runModOps flag st₀ ops).mod.IsActive = true)
    (hmatch : shouldApply flag spell (runModOps flag st₀ ops).mod = true) :
    (RegisterSpell flag (runModOps flag st₀ ops) spell).mod.AffectedSpells
      = (runModOps flag st₀ ops).mod.AffectedSpells ++ [(runModOps flag st₀ ops).spells.length] ∧
    (runModOps flag st₀ ops).spells.length ∉ (runModOps flag st₀ ops).mod.AffectedSpells ∧
    (RegisterSpell flag (runModOps flag st₀ ops) spell).spells[
        (runModOps flag st₀ ops).spells.length]?
      = some ((runModOps flag st₀ ops).mod.Apply (runModOps flag st₀ ops).mod.values spell) ∧
    applyCount (RegisterSpell flag (runModOps flag st₀ ops) spell)
      (runModOps flag st₀ ops).spells.length = 1 ∧
    removeCount (RegisterSpell flag (runModOps flag st₀ ops) spell)
      (runModOps flag st₀ ops).spells.length = 0 ∧
    applyCount (Deactivate (runModOps flag (RegisterSpell flag (runModOps flag st₀ ops) spell)
      (later.map ModOp.RegisterSpell))) (runModOps flag st₀ ops).spells.length = 1 ∧
    removeCount (Deactivate (runModOps flag (RegisterSpell flag (runModOps flag st₀ ops) spell)
      (later.map ModOp.RegisterSpell))) (runModOps flag st₀ ops).spells.length = 1 ∧
    (Deactivate (runModOps flag (RegisterSpell flag (runModOps flag st₀ ops) spell)
      (later.map ModOp.RegisterSpell))).mod.IsActive = false ∧
    (Deactivate (runModOps flag (RegisterSpell flag (runModOps flag st₀ ops) spell)
        (later.map ModOp.RegisterSpell))).spells[(runModOps flag st₀ ops).spells.length]?
      = some ((runModOps flag st₀ ops).mod.Remove (runModOps flag st₀ ops).mod.values
          ((runModOps flag st₀ ops).mod.Apply (runModOps flag st₀ ops).mod.values spell)) ∧
    (config.Kind ∈ integerKinds → spell.InRange →
      (Deactivate (runModOps flag (RegisterSpell flag (runModOps flag st₀ ops) spell)
        (later.map ModOp.RegisterSpell))).spells[(runModOps flag st₀ ops).spells.length]?
        = some spell) := by
  obtain ⟨mod₀, hbuild, -, hbal₀, -, -, hA₀, hR₀⟩ := AddStaticMod_state spells₀ config st₀ hstatic
  generalize hst : runModOps flag st₀ ops = st at hactive hmatch ⊢
  have hbal : st.Balanced := by
    rw [← hst]
    exact Balanced_runModOps flag ops st₀ hbal₀
  obtain ⟨hA, hR, -⟩ := runModOps_functions flag ops st₀
  rw [hst] at hA hR
  have hfresh : st.spells.length ∉ st.mod.AffectedSpells := fun hmem =>
    Nat.lt_irrefl _ (hbal.2.1 _ hmem)
  have hnoApply : st.calls.count (ModCall.Apply st.spells.length) = 0 :=
    List.count_eq_zero.mpr fun hmem => hfresh (hbal.2.2.1 _ hmem)
  have hnoRemove : st.calls.count (ModCall.Remove st.spells.length) = 0 :=
    List.count_eq_zero.mpr fun hmem => hfresh (hbal.2.2.1 _ hmem)
  have hreg : RegisterSpell flag st spell =
      { spells := modifySpell (st.mod.Apply st.mod.values) (st.spells ++ [spell])
          st.spells.length
        mod := { st.mod with AffectedSpells := st.mod.AffectedSpells ++ [st.spells.length] }
        calls := st.calls ++ [ModCall.Apply st.spells.length] } := by
    rw [RegisterSpell_eq, if_pos hmatch, if_pos hactive]
  generalize hst₁ : RegisterSpell flag st spell = st₁ at hreg ⊢
  have hbal₁ : st₁.Balanced := by
    rw [← hst₁]
    exact Balanced_RegisterSpell flag st spell hbal
  have hspell₁ : st₁.spells[st.spells.length]? = some (st.mod.Apply st.mod.values spell) := by
    rw [hreg]
    show (modifySpell _ (st.spells ++ [spell]) st.spells.length)[st.spells.length]? = _
    rw [getElem?_modifySpell, if_pos rfl]
    simp
  have happly₁ : applyCount st₁ st.spells.length = 1 := by
    rw [hreg]
    show (st.calls ++ [ModCall.Apply st.spells.length]).count _ = 1
    rw [List.count_append, hnoApply]
    simp
  have hremove₁ : removeCount st₁ st.spells.length = 0 := by
    rw [hreg]
    show (st.calls ++ [ModCall.Apply st.spells.length]).count _ = 0
    rw [List.count_append, hnoRemove]
    simp
  have hmem₁ : st.spells.length ∈ st₁.mod.AffectedSpells := by
    rw [hreg]
    show st.spells.length ∈ st.mod.AffectedSpells ++ [st.spells.length]
    simp
  have hlen₁ : st.spells.length < st₁.spells.length := by
    rw [hreg]
    show st.spells.length < (modifySpell _ (st.spells ++ [spell]) st.spells.length).length
    rw [length_modifySpell]
    simp
  have hlater : ∀ (regs : List Spell) (st₂ : ModState), st.spells.length < st₂.spells.length →
      (runModOps flag st₂ (regs.map ModOp.RegisterSpell)).spells[st.spells.length]?
          = st₂.spells[st.spells.length]? ∧
        applyCount (runModOps flag st₂ (regs.map ModOp.RegisterSpell)) st.spells.length
          = applyCount st₂ st.spells.length ∧
        removeCount (runModOps flag st₂ (regs.map ModOp.RegisterSpell)) st.spells.length
          = removeCount st₂ st.spells.length ∧
        (runModOps flag st₂ (regs.map ModOp.RegisterSpell)).mod.IsActive = st₂.mod.IsActive ∧
        (runModOps flag st₂ (regs.map ModOp.RegisterSpell)).mod.values = st₂.mod.values := by
    intro regs
    induction regs with
    | nil => intro st₂ _; exact ⟨rfl, rfl, rfl, rfl, rfl⟩
    | cons reg rest ih =>
      intro st₂ hlt
      have hstep : runModOps flag st₂ ((reg :: rest).map ModOp.RegisterSpell)
          = runModOps flag (RegisterSpell flag st₂ reg) (rest.map ModOp.RegisterSpell) := rfl
      have hone : st.spells.length < (RegisterSpell flag st₂ reg).spells.length ∧
          (RegisterSpell flag st₂ reg).spells[st.spells.length]?
            = st₂.spells[st.spells.length]? ∧
          applyCount (RegisterSpell flag st₂ reg) st.spells.length
            = applyCount st₂ st.spells.length ∧
          removeCount (RegisterSpell flag st₂ reg) st.spells.length
            = removeCount st₂ st.spells.length ∧
          (RegisterSpell flag st₂ reg).mod.IsActive = st₂.mod.IsActive ∧
          (RegisterSpell flag st₂ reg).mod.values = st₂.mod.values := by
        have hne : ¬ st₂.spells.length = st.spells.length := by omega
        rw [RegisterSpell_eq]
        split_ifs
        · refine ⟨?_, ?_, ?_, ?_, rfl, rfl⟩
          · show st.spells.length
              < (modifySpell _ (st₂.spells ++ [reg]) st₂.spells.length).length
            rw [length_modifySpell]
            simp
            omega
          · show (modifySpell _ (st₂.spells ++ [reg]) st₂.spells.length)[st.spells.length]? = _
            rw [getElem?_modifySpell, if_neg (fun h => hne h.symm),
              List.getElem?_append_left hlt]
          · show (st₂.calls ++ [ModCall.Apply st₂.spells.length]).count _ = st₂.calls.count _
            have hcount : List.count (ModCall.Apply st.spells.length)
                [ModCall.Apply st₂.spells.length] = 0 := by
              rw [List.count_eq_zero]
              intro hm
              rw [List.mem_singleton] at hm
              injection hm with hm
              exact hne hm.symm
            rw [List.count_append, hcount, Nat.add_zero]
          · show (st₂.calls ++ [ModCall.Apply st₂.spells.length]).count
              (ModCall.Remove st.spells.length) = st₂.calls.count _
            rw [List.count_append]
            simp
        · refine ⟨?_, List.getElem?_append_left hlt, rfl, rfl, rfl, rfl⟩
          show st.spells.length < (st₂.spells ++ [reg]).length
          simp
          omega
        · refine ⟨?_, List.getElem?_append_left hlt, rfl, rfl, rfl, rfl⟩
          show st.spells.length < (st₂.spells ++ [reg]).length
          simp
          omega
      obtain ⟨hlt₁, hs₁, ha₁, hr₁, hi₁, hv₁⟩ := hone
      obtain ⟨hs₂, ha₂, hr₂, hi₂, hv₂⟩ := ih (RegisterSpell flag st₂ reg) hlt₁
      rw [hstep]
      exact ⟨hs₂.trans hs₁, ha₂.trans ha₁, hr₂.trans hr₁, hi₂.trans hi₁, hv₂.trans hv₁⟩
  obtain ⟨hs₂, ha₂, hr₂, hi₂, hv₂⟩ := hlater later st₁ hlen₁
  obtain ⟨hA₂, hR₂, -⟩ := runModOps_functions flag (later.map ModOp.RegisterSpell) st₁
  have hpre := runModOps_AffectedSpells_prefix flag (later.map ModOp.RegisterSpell) st₁
  generalize hst₂ : runModOps flag st₁ (later.map ModOp.RegisterSpell) = st₂
    at hs₂ ha₂ hr₂ hi₂ hv₂ hA₂ hR₂ hpre ⊢
  have hbal₂ : st₂.Balanced := by
    rw [← hst₂]
    exact Balanced_runModOps flag _ st₁ hbal₁
  have hactive₁ : st₁.mod.IsActive = true := by
    rw [hreg]
    exact hactive
  have hvalues₁ : st₁.mod.values = st.mod.values := by
    rw [hreg]
    rfl
  have hfun₁ : st₁.mod.Remove = st.mod.Remove := by
    rw [hreg]
  obtain ⟨hd₁, hd₂, hd₃, hd₄⟩ := Deactivate_matched_spell st₂ hbal₂ (hi₂.trans hactive₁)
    st.spells.length (hpre.subset hmem₁)
  have hafter : (Deactivate st₂).spells[st.spells.length]?
      = some (st.mod.Remove st.mod.values (st.mod.Apply st.mod.values spell)) := by
    rw [hd₁, hs₂, hspell₁, Option.map_some', hR₂, hfun₁, hv₂, hvalues₁]
  refine ⟨?_, hfresh, hspell₁, happly₁, hremove₁, ?_, ?_, hd₄, hafter, ?_⟩
  · rw [hreg]
  · rw [hd₂, ha₂, happly₁]
  · rw [hd₃, hr₂, hremove₁]
  · intro hint hrange
    have hpct : pctInvertible config.Kind st.mod.floatValue := by
      intro hk
      exfalso
      simp only [integerKinds, List.mem_cons, List.mem_singleton, List.not_mem_nil,
        or_false] at hint
      rcases hint with h | h | h | h | h | h | h <;> rw [h] at hk <;> revert hk <;> decide
    have hkind : config.Kind ≠ SpellMod_Custom := by
      simp only [integerKinds, List.mem_cons, List.mem_singleton, List.not_mem_nil,
        or_false] at hint
      rcases hint with h | h | h | h | h | h | h <;> rw [h] <;> decide
    obtain ⟨hrt, -, -, -, -⟩ := buildMod_roundTrips config mod₀ hbuild hkind
    rw [← hA₀, ← hR₀, ← hA, ← hR] at hrt
    rw [hafter, (hrt st.mod.values spell hpct hrange).2]

/-- Witness of C29: the flat power-cost mod of `-5` created by `AddStaticMod` on a unit
without spells; Heroic Strike is registered, then a second copy of it, then the mod is
deactivated: the first Heroic Strike is as it was registered. -/
theorem static_mod_registration_witness :
    (Deactivate (runModOps sampleSpellFlagNoSpellMods
      (RegisterSpell sampleSpellFlagNoSpellMods
        (runModOps sampleSpellFlagNoSpellMods
          (Activate (ModState.init [] samplePowerCostFlatMod)) []) sampleHeroicStrike)
      ([sampleHeroicStrike].map ModOp.RegisterSpell))).spells[
        (runModOps sampleSpellFlagNoSpellMods
          (Activate (ModState.init [] samplePowerCostFlatMod)) []).spells.length]?
      = some sampleHeroicStrike :=
  (static_mod_registration sampleSpellFlagNoSpellMods samplePowerCostFlatConfig []
    (Activate (ModState.init [] samplePowerCostFlatMod)) [] sampleHeroicStrike
    [sampleHeroicStrike] rfl rfl (by decide)).2.2.2.2.2.2.2.2.2
    (by decide)
    (by
      refine ⟨?_, ?_, ?_, ?_, ?_, ?_⟩ <;>
        simp [sampleHeroicStrike, sampleHeroicStrikeConfig, newRageCost, InRange32, InRange64,
          Dot.InRange])

/-! ## Callbacks scheduled for the same time -/

/-- Nothing is popped exactly when nothing is pending. -/
lemma popEarliest_eq_none (pending : List ScheduledCallback) :
    popEarliest pending = none ↔ pending = [] := by
  cases pending with
  | nil => simp [popEarliest]
  | cons callback rest =>
    simp only [popEarliest]
    cases h : popEarliest rest with
    | none => simp
    | some p =>
      obtain ⟨other, rest₁⟩ := p
      simp only
      split_ifs <;> simp

/-- The popped callback is the first inserted among those with the least due time:
everything inserted before it is due strictly later, everything inserted after it is due
no earlier, and the others stay pending in their order. -/
lemma popEarliest_some (pending : List ScheduledCallback) :
    ∀ (callback : ScheduledCallback) (rest : List ScheduledCallback),
      popEarliest pending = some (callback, rest) →
      ∃ pre post, pending = pre ++ callback :: post ∧ rest = pre ++ post ∧
        (∀ z ∈ pre, callback.dueAt < z.dueAt) ∧ (∀ z ∈ post, callback.dueAt ≤ z.dueAt) := by
  induction pending with
  | nil => intro callback rest h; simp [popEarliest] at h
  | cons first others ih =>
    intro callback rest h
    simp only [popEarliest] at h
    cases hpop : popEarliest others with
    | none =>
      rw [hpop] at h
      simp only [Option.some.injEq, Prod.mk.injEq] at h
      obtain ⟨rfl, rfl⟩ := h
      have : others = [] := (popEarliest_eq_none others).mp hpop
      subst this
      exact ⟨[], [], rfl, rfl, (fun _ hz => by cases hz), (fun _ hz => by cases hz)⟩
    | some p =>
      obtain ⟨other, rest₁⟩ := p
      rw [hpop] at h
      obtain ⟨pre, post, hothers, hrest₁, hpre, hpost⟩ := ih other rest₁ hpop
      simp only at h
      by_cases hle : first.dueAt ≤ other.dueAt
      · rw [if_pos hle] at h
        simp only [Option.some.injEq, Prod.mk.injEq] at h
        obtain ⟨rfl, rfl⟩ := h
        refine ⟨[], others, rfl, rfl, (fun _ hz => by cases hz), ?_⟩
        intro z hz
        rw [hothers, List.mem_append, List.mem_cons] at hz
        rcases hz with hz | rfl | hz
        · exact le_of_lt (lt_of_le_of_lt hle (hpre z hz))
        · exact hle
        · exact le_trans hle (hpost z hz)
      · rw [if_neg hle] at h
        simp only [Option.some.injEq, Prod.mk.injEq] at h
        obtain ⟨rfl, rfl⟩ := h
        refine ⟨first :: pre, post, ?_, ?_, ?_, hpost⟩
        · rw [hothers]
          rfl
        · rw [hrest₁]
          rfl
        · intro z hz
          rw [List.mem_cons] at hz
          rcases hz with rfl | hz
          · exact lt_of_not_le hle
          · exact hpre z hz

/-- What one turn of the advance loop does. -/
lemma step_some (behaviour : Nat → List (Nat × Nat)) (clock clock₁ : SimulationClock)
    (h : step behaviour clock = some clock₁) :
    ∃ callback pre post, clock.pending = pre ++ callback :: post ∧
      (∀ z ∈ pre, callback.dueAt < z.dueAt) ∧ (∀ z ∈ post, callback.dueAt ≤ z.dueAt) ∧
      popEarliest clock.pending = some (callback, pre ++ post) ∧
      clock₁.pending = pre ++ post ++
        (behaviour callback.action).map (fun p => ⟨callback.dueAt + (p.1 : Int), p.2⟩) ∧
      clock₁.executed = clock.executed ++ [callback.action] ∧
      clock₁.currentTime = callback.dueAt := by
  unfold step at h
  cases hpop : popEarliest clock.pending with
  | none => simp [hpop] at h
  | some p =>
    obtain ⟨callback, rest⟩ := p
    obtain ⟨pre, post, hpend, hrest, hpre, hpost⟩ := popEarliest_some _ _ _ hpop
    simp only [hpop, Option.some.injEq] at h
    subst h
    subst hrest
    exact ⟨callback, pre, post, hpend, hpre, hpost, rfl, rfl, rfl, rfl⟩

/-- A sublist `[a, b]` of `pre ++ b :: post`, where `b` occurs neither in `pre` nor in
`post` and differs from `a`, has its `a` in `pre`. -/
lemma mem_pre_of_sublist_pair (a b : ScheduledCallback) (pre post : List ScheduledCallback)
    (h : List.Sublist [a, b] (pre ++ b :: post)) (hab : a ≠ b) (hpre : b ∉ pre)
    (hpost : b ∉ post) : a ∈ pre := by
  rw [List.sublist_append_iff] at h
  obtain ⟨l₁, l₂, hl, h₁, h₂⟩ := h
  match l₁, hl, h₁ with
  | [], hl, _ =>
    simp only [List.nil_append] at hl
    subst hl
    exfalso
    cases h₂ with
    | cons _ h₃ => exact hpost (h₃.subset (by simp))
    | cons₂ _ h₃ => exact hab rfl
  | [x], hl, h₁ =>
    simp only [List.singleton_append, List.cons.injEq] at hl
    obtain ⟨rfl, -⟩ := hl
    exact h₁.subset (by simp)
  | x :: x₁ :: rest, hl, h₁ =>
    simp only [List.cons_append, List.cons.injEq] at hl
    obtain ⟨rfl, rfl, -⟩ := hl
    exact absurd (h₁.subset (by simp)) hpre

/-- One turn of the advance loop keeps the situation of the two callbacks, as long as no
callback schedules another one under the label `A` or `B`. -/
lemma FifoPhase_step (behaviour : Nat → List (Nat × Nat)) (t : Int) (A B : Nat) (hne : A ≠ B)
    (hspawn : ∀ label, ∀ p ∈ behaviour label, p.2 ≠ A ∧ p.2 ≠ B)
    (clock clock₁ : SimulationClock) (hstep : step behaviour clock = some clock₁)
    (h : FifoPhase t A B clock) : FifoPhase t A B clock₁ := by
  obtain ⟨y, pre, post, hpend, hpre, hpost, -, hpend₁, hexec₁, -⟩ := step_some _ _ _ hstep
  have hypre : y ∉ pre := fun hmem => lt_irrefl _ (hpre y hmem)
  have hacts : clock.pendingActions
      = pre.map ScheduledCallback.action ++ y.action :: post.map ScheduledCallback.action := by
    simp [SimulationClock.pendingActions, hpend]
  have hspawned : ∀ label, (label = A ∨ label = B) →
      label ∉ ((behaviour y.action).map
        (fun p => (⟨y.dueAt + (p.1 : Int), p.2⟩ : ScheduledCallback))).map
          ScheduledCallback.action := by
    intro label hlabel hmem
    simp only [List.map_map, List.mem_map, Function.comp] at hmem
    obtain ⟨p, hp, rfl⟩ := hmem
    rcases hlabel with hl | hl
    · exact (hspawn _ p hp).1 hl
    · exact (hspawn _ p hp).2 hl
  have hacts₁ : clock₁.pendingActions
      = pre.map ScheduledCallback.action ++ post.map ScheduledCallback.action ++
        ((behaviour y.action).map
          (fun p => (⟨y.dueAt + (p.1 : Int), p.2⟩ : ScheduledCallback))).map
            ScheduledCallback.action := by
    simp [SimulationClock.pendingActions, hpend₁]
  have hcount₁ : ∀ label, (label = A ∨ label = B) →
      clock₁.pendingActions.count label + (if y.action = label then 1 else 0)
        = clock.pendingActions.count label := by
    intro label hlabel
    rw [hacts, hacts₁, List.count_append, List.count_append, List.count_append,
      List.count_cons, List.count_eq_zero.mpr (hspawned label hlabel)]
    simp only [beq_iff_eq]
    omega
  have hmem₁ : ∀ z ∈ clock.pending, z ≠ y → z ∈ clock₁.pending := by
    intro z hz hzy
    rw [hpend, List.mem_append, List.mem_cons] at hz
    rw [hpend₁, List.mem_append, List.mem_append]
    rcases hz with hz | hz | hz
    · exact Or.inl (Or.inl hz)
    · exact absurd hz hzy
    · exact Or.inl (Or.inr hz)
  have hyacts : y.action ∈ clock.pendingActions := by
    rw [hacts]
    simp
  rcases h with ⟨hsub, hcA, hcB, heA, heB⟩ | ⟨hpA, hmB, hcB, heA, heB⟩ |
    ⟨hpA, hpB, heA, heB, hsub⟩
  · have hmA : (⟨t, A⟩ : ScheduledCallback) ∈ clock.pending := hsub.subset (by simp)
    have hmB : (⟨t, B⟩ : ScheduledCallback) ∈ clock.pending := hsub.subset (by simp)
    have hab : (⟨t, A⟩ : ScheduledCallback) ≠ ⟨t, B⟩ := by
      intro hEq
      injection hEq with _ hEq
      exact hne hEq
    by_cases hyA : y.action = A
    · have hyB : ¬ y.action = B := fun hEq => hne (hyA.symm.trans hEq)
      have h₁ := hcount₁ A (Or.inl rfl)
      have h₂ := hcount₁ B (Or.inr rfl)
      rw [if_pos hyA, hcA] at h₁
      rw [if_neg hyB, hcB] at h₂
      have hBy : (⟨t, B⟩ : ScheduledCallback) ≠ y := by
        intro hEq
        rw [← hEq] at hyB
        exact hyB rfl
      refine Or.inr (Or.inl ⟨?_, hmem₁ _ hmB hBy, by omega, ?_, ?_⟩)
      · exact List.count_eq_zero.mp (by omega)
      · rw [hexec₁, List.count_append, List.count_eq_zero.mpr heA, hyA]
        simp
      · rw [hexec₁, List.mem_append, List.mem_singleton]
        rintro (hmem | hEq)
        · exact heB hmem
        · exact hyB hEq.symm
    · by_cases hyB : y.action = B
      · exfalso
        have hcB₀ := hcB
        rw [hacts, List.count_append, List.count_cons, hyB] at hcB₀
        simp only [beq_self_eq_true, if_true] at hcB₀
        have hBpre : B ∉ pre.map ScheduledCallback.action :=
          List.count_eq_zero.mp (by omega)
        have hBpost : B ∉ post.map ScheduledCallback.action :=
          List.count_eq_zero.mp (by omega)
        have hbpre : (⟨t, B⟩ : ScheduledCallback) ∉ pre := fun hmem =>
          hBpre (List.mem_map.mpr ⟨_, hmem, rfl⟩)
        have hbpost : (⟨t, B⟩ : ScheduledCallback) ∉ post := fun hmem =>
          hBpost (List.mem_map.mpr ⟨_, hmem, rfl⟩)
        have hy : y = ⟨t, B⟩ := by
          rw [hpend, List.mem_append, List.mem_cons] at hmB
          rcases hmB with hm | hm | hm
          · exact absurd hm hbpre
          · exact hm.symm
          · exact absurd hm hbpost
        subst hy
        rw [hpend] at hsub
        have := hpre _ (mem_pre_of_sublist_pair _ _ pre post hsub hab hbpre hbpost)
        exact lt_irrefl _ this
      · have h₁ := hcount₁ A (Or.inl rfl)
        have h₂ := hcount₁ B (Or.inr rfl)
        rw [if_neg hyA, hcA] at h₁
        rw [if_neg hyB, hcB] at h₂
        have hyA₁ : y ≠ ⟨t, A⟩ := by
          intro hEq
          rw [hEq] at hyA
          exact hyA rfl
        have hyB₁ : y ≠ ⟨t, B⟩ := by
          intro hEq
          rw [hEq] at hyB
          exact hyB rfl
        refine Or.inl ⟨?_, by omega, by omega, ?_, ?_⟩
        · have hnot : y ∉ [(⟨t, A⟩ : ScheduledCallback), ⟨t, B⟩] := by
            simp only [List.mem_cons, List.mem_singleton, List.not_mem_nil, or_false]
            rintro (hEq | hEq)
            · exact hyA₁ hEq
            · exact hyB₁ hEq
          have hsub₁ := hsub.erase y
          rw [List.erase_of_not_mem hnot, hpend, List.erase_append_right _ hypre,
            List.erase_cons_head] at hsub₁
          rw [hpend₁]
          exact hsub₁.trans (List.sublist_append_left _ _)
        · rw [hexec₁, List.mem_append, List.mem_singleton]
          rintro (hmem | hEq)
          · exact heA hmem
          · exact hyA hEq.symm
        · rw [hexec₁, List.mem_append, List.mem_singleton]
          rintro (hmem | hEq)
          · exact heB hmem
          · exact hyB hEq.symm
  · have hyA : ¬ y.action = A := fun hEq => hpA (hEq ▸ hyacts)
    have h₁ := hcount₁ A (Or.inl rfl)
    have h₂ := hcount₁ B (Or.inr rfl)
    rw [if_neg hyA, List.count_eq_zero.mpr hpA] at h₁
    rw [hcB] at h₂
    have hpA₁ : A ∉ clock₁.pendingActions := List.count_eq_zero.mp (by omega)
    by_cases hyB : y.action = B
    · rw [if_pos hyB] at h₂
      refine Or.inr (Or.inr ⟨hpA₁, List.count_eq_zero.mp (by omega), ?_, ?_, ?_⟩)
      · rw [hexec₁, List.count_append, heA, hyB]
        have : List.count A [B] = 0 := by
          rw [List.count_eq_zero, List.mem_singleton]
          exact hne
        rw [this]
      · rw [hexec₁, List.count_append, List.count_eq_zero.mpr heB, hyB]
        simp
      · rw [hexec₁, hyB]
        have hA : List.Sublist [A] clock.executed :=
          List.singleton_sublist.mpr (List.count_pos_iff.mp (by omega))
        exact hA.append (List.Sublist.refl [B])
    · rw [if_neg hyB] at h₂
      have hBy : (⟨t, B⟩ : ScheduledCallback) ≠ y := by
        intro hEq
        rw [← hEq] at hyB
        exact hyB rfl
      refine Or.inr (Or.inl ⟨hpA₁, hmem₁ _ hmB hBy, by omega, ?_, ?_⟩)
      · rw [hexec₁, List.count_append, heA]
        have : List.count A [y.action] = 0 := by
          rw [List.count_eq_zero, List.mem_singleton]
          exact fun hEq => hyA hEq.symm
        rw [this]
      · rw [hexec₁, List.mem_append, List.mem_singleton]
        rintro (hmem | hEq)
        · exact heB hmem
        · exact hyB hEq.symm
  · have hyA : ¬ y.action = A := fun hEq => hpA (hEq ▸ hyacts)
    have hyB : ¬ y.action = B := fun hEq => hpB (hEq ▸ hyacts)
    have h₁ := hcount₁ A (Or.inl rfl)
    have h₂ := hcount₁ B (Or.inr rfl)
    rw [if_neg hyA, List.count_eq_zero.mpr hpA] at h₁
    rw [if_neg hyB, List.count_eq_zero.mpr hpB] at h₂
    refine Or.inr (Or.inr ⟨List.count_eq_zero.mp (by omega), List.count_eq_zero.mp (by omega),
      ?_, ?_, ?_⟩)
    · rw [hexec₁, List.count_append, heA]
      have : List.count A [y.action] = 0 := by
        rw [List.count_eq_zero, List.mem_singleton]
        exact fun hEq => hyA hEq.symm
      rw [this]
    · rw [hexec₁, List.count_append, heB]
      have : List.count B [y.action] = 0 := by
        rw [List.count_eq_zero, List.mem_singleton]
        exact fun hEq => hyB hEq.symm
      rw [this]
    · rw [hexec₁]
      exact hsub.trans (List.sublist_append_left _ _)

/-- When no pending callback is due at or before the horizon, all are due after it. -/
lemma hasDue_false (horizon : Int) (clock : SimulationClock)
    (h : hasDue horizon clock = false) : ∀ z ∈ clock.pending, horizon < z.dueAt := by
  unfold hasDue at h
  cases hpop : popEarliest clock.pending with
  | none =>
    rw [popEarliest_eq_none] at hpop
    intro z hz
    rw [hpop] at hz
    cases hz
  | some p =>
    obtain ⟨y, rest⟩ := p
    obtain ⟨pre, post, hpend, -, hpre, hpost⟩ := popEarliest_some _ _ _ hpop
    simp only [hpop, decide_eq_false_iff_not, not_le] at h
    intro z hz
    rw [hpend, List.mem_append, List.mem_cons] at hz
    rcases hz with hz | rfl | hz
    · exact lt_trans h (hpre z hz)
    · exact h
    · exact lt_of_lt_of_le h (hpost z hz)

/-- When the advance loop returns, the situation of the two callbacks has been kept and no
pending callback is due at or before the horizon. -/
lemma Advance_some (behaviour : Nat → List (Nat × Nat)) (horizon t : Int) (A B : Nat)
    (hne : A ≠ B) (hspawn : ∀ label, ∀ p ∈ behaviour label, p.2 ≠ A ∧ p.2 ≠ B) (fuel : Nat) :
    ∀ clock clock₃ : SimulationClock, Advance behaviour horizon fuel clock = some clock₃ →
      FifoPhase t A B clock →
      FifoPhase t A B clock₃ ∧ ∀ z ∈ clock₃.pending, horizon < z.dueAt := by
  induction fuel with
  | zero =>
    intro clock clock₃ h hphase
    simp only [Advance] at h
    cases hdue : hasDue horizon clock with
    | true => simp [hdue] at h
    | false =>
      simp only [hdue, Bool.false_eq_true, if_false, Option.some.injEq] at h
      subst h
      exact ⟨hphase, hasDue_false horizon clock hdue⟩
  | succ fuel ih =>
    intro clock clock₃ h hphase
    simp only [Advance] at h
    cases hdue : hasDue horizon clock with
    | true =>
      simp only [hdue, if_true] at h
      cases hstep : step behaviour clock with
      | none => simp [hstep] at h
      | some clock₁ =>
        simp only [hstep] at h
        exact ih clock₁ clock₃ h (FifoPhase_step behaviour t A B hne hspawn _ _ hstep hphase)
    | false =>
      simp only [hdue, Bool.false_eq_true, if_false, Option.some.injEq] at h
      subst h
      exact ⟨hphase, hasDue_false horizon clock hdue⟩

/-- When no callback schedules another one, a fuel of the number of pending callbacks is
enough for the advance loop to return. -/
lemma Advance_returns (behaviour : Nat → List (Nat × Nat)) (horizon : Int)
    (hnone : ∀ label, behaviour label = []) (fuel : Nat) :
    ∀ clock : SimulationClock, clock.pending.length ≤ fuel →
      ∃ clock₃, Advance behaviour horizon fuel clock = some clock₃ := by
  induction fuel with
  | zero =>
    intro clock hlen
    have hnil : clock.pending = [] := List.length_eq_zero.mp (Nat.le_zero.mp hlen)
    have hdue : hasDue horizon clock = false := by
      unfold hasDue
      rw [(popEarliest_eq_none _).mpr hnil]
    simp only [Advance, hdue, Bool.false_eq_true, if_false]
    exact ⟨clock, rfl⟩
  | succ fuel ih =>
    intro clock hlen
    simp only [Advance]
    cases hdue : hasDue horizon clock with
    | false =>
      simp only [Bool.false_eq_true, if_false]
      exact ⟨clock, rfl⟩
    | true =>
      simp only [if_true]
      cases hpop : popEarliest clock.pending with
      | none => simp [hasDue, hpop] at hdue
      | some p =>
        obtain ⟨y, rest⟩ := p
        obtain ⟨pre, post, hpend, hrest, -, -⟩ := popEarliest_some _ _ _ hpop
        have hstep : step behaviour clock = some
            { currentTime := y.dueAt, pending := rest ++ [],
              executed := clock.executed ++ [y.action] } := by
          unfold step
          rw [hpop]
          simp only [hnone, List.map_nil]
        simp only [hstep]
        apply ih
        show (rest ++ []).length ≤ fuel
        rw [hpend] at hlen
        rw [hrest]
        simp only [List.length_append, List.length_cons, List.append_nil] at hlen ⊢
        omega

/-- C26: two callbacks `A` and `B` are scheduled in that order for the same time `t` on a
clock where these labels are not in use, and no callback schedules anything under these
labels.  Whenever the advance loop returns for a horizon at or after `t`, `A` has run
exactly once, `B` has run exactly once, `A` ran before `B`, and neither is pending any
more; and when the callbacks schedule nothing, the loop does return with a fuel of the
number of pending callbacks. -/
theorem same_time_callbacks_run_in_insertion_order (behaviour : Nat → List (Nat × Nat))
    (clock₀ clock₁ clock₂ : SimulationClock) (t horizon : Int) (A B : Nat)
    (hA : Schedule clock₀ t A = some clock₁) (hB : Schedule clock₁ t B = some clock₂)
    (hne : A ≠ B)
    (hfreshA : A ∉ clock₀.pendingActions ∧ A ∉ clock₀.executed)
    (hfreshB : B ∉ clock₀.pendingActions ∧ B ∉ clock₀.executed)
    (hspawn : ∀ label, ∀ p ∈ behaviour label, p.2 ≠ A ∧ p.2 ≠ B)
    (hpast : t ≤ horizon) :
    (∀ fuel clock₃, Advance behaviour horizon fuel clock₂ = some clock₃ →
      clock₃.executed.count A = 1 ∧ clock₃.executed.count B = 1 ∧
        List.Sublist [A, B] clock₃.executed ∧
        A ∉ clock₃.pendingActions ∧ B ∉ clock₃.pendingActions) ∧
    ((∀ label, behaviour label = []) →
      ∃ clock₃, Advance behaviour horizon clock₂.pending.length clock₂ = some clock₃) := by
  have h₁ : clock₁ = { clock₀ with pending := clock₀.pending ++ [⟨t, A⟩] } := by
    unfold Schedule at hA
    split_ifs at hA
    simp only [Option.some.injEq] at hA
    exact hA.symm
  have h₂ : clock₂ = { clock₁ with pending := clock₁.pending ++ [⟨t, B⟩] } := by
    unfold Schedule at hB
    split_ifs at hB
    simp only [Option.some.injEq] at hB
    exact hB.symm
  have hpend : clock₂.pending = clock₀.pending ++ [⟨t, A⟩] ++ [⟨t, B⟩] := by
    rw [h₂, h₁]
  have hexec : clock₂.executed = clock₀.executed := by
    rw [h₂, h₁]
  have hacts : clock₂.pendingActions = clock₀.pendingActions ++ [A] ++ [B] := by
    simp [SimulationClock.pendingActions, hpend]
  have hAB : List.count A [B] = 0 := by
    rw [List.count_eq_zero, List.mem_singleton]
    exact hne
  have hBA : List.count B [A] = 0 := by
    rw [List.count_eq_zero, List.mem_singleton]
    exact fun hEq => hne hEq.symm
  have hphase : FifoPhase t A B clock₂ := by
    refine Or.inl ⟨?_, ?_, ?_, ?_, ?_⟩
    · rw [hpend, List.append_assoc]
      exact List.sublist_append_right _ _
    · rw [hacts, List.count_append, List.count_append, List.count_eq_zero.mpr hfreshA.1, hAB]
      simp
    · rw [hacts, List.count_append, List.count_append, List.count_eq_zero.mpr hfreshB.1, hBA]
      simp
    · rw [hexec]
      exact hfreshA.2
    · rw [hexec]
      exact hfreshB.2
  refine ⟨?_, fun hnone => Advance_returns behaviour horizon hnone _ clock₂ (le_refl _)⟩
  intro fuel clock₃ hadv
  obtain ⟨hphase₃, hdue⟩ := Advance_some behaviour horizon t A B hne hspawn fuel _ _ hadv hphase
  rcases hphase₃ with ⟨hsub, -⟩ | ⟨-, hmB, -⟩ | ⟨hpA, hpB, heA, heB, hsub⟩
  · have := hdue _ (hsub.subset (List.mem_cons_self _ _))
    exact absurd (lt_of_le_of_lt hpast this) (lt_irrefl _)
  · have := hdue _ hmB
    exact absurd (lt_of_le_of_lt hpast this) (lt_irrefl _)
  · exact ⟨heA, heB, hsub, hpA, hpB⟩

/-- Witness of C26: on the empty clock at time 0, callbacks 1 and 2 are scheduled for
time 5 and the clock advances to time 10 with callbacks that schedule nothing: the loop
returns, 1 and 2 have run once each, 1 before 2. -/
theorem same_time_callbacks_run_in_insertion_order_witness :
    ∃ clock₃, Advance sampleBehaviour 10 2
        { currentTime := 0, pending := [⟨5, 1⟩, ⟨5, 2⟩], executed := [] } = some clock₃ ∧
      clock₃.executed = [1, 2] ∧
      clock₃.executed.count 1 = 1 ∧ clock₃.executed.count 2 = 1 ∧
      List.Sublist [1, 2] clock₃.executed :=
  have h := same_time_callbacks_run_in_insertion_order sampleBehaviour sampleClock
    { currentTime := 0, pending := [⟨5, 1⟩], executed := [] }
    { currentTime := 0, pending := [⟨5, 1⟩, ⟨5, 2⟩], executed := [] } 5 10 1 2 rfl rfl
    (by decide) ⟨by decide, by decide⟩ ⟨by decide, by decide⟩
    (fun _ _ hp => by cases hp) (by decide)
  ⟨{ currentTime := 5, pending := [], executed := [1, 2] }, by decide, rfl,
    (h.1 2 _ (by decide)).1, (h.1 2 _ (by decide)).2.1, (h.1 2 _ (by decide)).2.2.1⟩

/-! ## The proc masks that generate rage -/

/-- Two single-bit masks or-ed together are not a single-bit mask, unless the two bits
are the same one. -/
lemma two_bits_ne_one_bit (a b c : Nat) (h : c ≠ a) :
    (1 <<< c ||| 1 <<< a) ≠ 1 <<< a ∧ (1 <<< c ||| 1 <<< a) ≠ 1 <<< b := by
  simp only [Nat.one_shiftLeft]
  constructor
  · intro hEq
    have := congrArg (fun n => Nat.testBit n c) hEq
    simp only [Nat.testBit_or, Nat.testBit_two_pow_self, Bool.true_or] at this
    rw [Nat.testBit_two_pow] at this
    simp at this
    exact h this.symm
  · intro hEq
    have h₁ := congrArg (fun n => Nat.testBit n a) hEq
    have h₂ := congrArg (fun n => Nat.testBit n c) hEq
    simp only [Nat.testBit_or, Nat.testBit_two_pow_self, Bool.true_or, Bool.or_true] at h₁ h₂
    rw [Nat.testBit_two_pow] at h₁ h₂
    simp at h₁ h₂
    exact h (h₂.symm.trans h₁)

/-- C32: the hit-dealt hook of the `RageBar` aura does something (changes the unit or
panics) only when the active power bar of the unit is rage, the outcome is not a miss and
the proc mask of the spell is exactly `ProcMaskMeleeMHAuto` or exactly
`ProcMaskMeleeOHAuto`.  For every other proc mask it returns the unit as it was, rage bar,
recorded events and effects included; so it does for the mask
`ProcMaskMeleeMHSpecial | ProcMaskMeleeMHAuto` of Heroic Strike and Cleave, the proc masks
being distinct single bits.  When the three conditions hold, the hook is the call of
`AddRage` with the generated rage on the metrics resolved for the spell. -/
theorem OnSpellHitDealt_only_for_auto_attacks (flags : Flags) (aura : RageBarAura)
    (unit : Unit) (sim : Simulation) (spell : Spell) (result : SpellResult) :
    (OnSpellHitDealt flags aura unit sim spell result ≠ .ok unit →
      unit.currentPowerBar = .RageBar ∧
        flags.Matches result.Outcome flags.OutcomeMiss = false ∧
        (spell.ProcMask = flags.ProcMaskMeleeMHAuto ∨
          spell.ProcMask = flags.ProcMaskMeleeOHAuto)) ∧
    (spell.ProcMask ≠ flags.ProcMaskMeleeMHAuto → spell.ProcMask ≠ flags.ProcMaskMeleeOHAuto →
      OnSpellHitDealt flags aura unit sim spell result = .ok unit) ∧
    (∀ a b c : Nat, flags.ProcMaskMeleeMHAuto = 1 <<< a → flags.ProcMaskMeleeOHAuto = 1 <<< b →
      c ≠ a → spell.ProcMask = 1 <<< c ||| flags.ProcMaskMeleeMHAuto →
      OnSpellHitDealt flags aura unit sim spell result = .ok unit) ∧
    (unit.currentPowerBar = .RageBar →
      flags.Matches result.Outcome flags.OutcomeMiss = false →
      (spell.ProcMask = flags.ProcMaskMeleeMHAuto ∨
        spell.ProcMask = flags.ProcMaskMeleeOHAuto) →
      ∀ metrics, hitDealtMetrics unit spell = .ok metrics →
      OnSpellHitDealt flags aura unit sim spell result =
        AddRage unit sim
          ((if flags.Matches result.Outcome (flags.OutcomeDodge ||| flags.OutcomeParry) then
              result.PreOutcomeDamage
            else result.Damage) * 7.5 / aura.rageConversion
              * unit.rageBar.damageDealtMultiplier
            + unit.rageBar.flatDamageDealtBonusRage) metrics) := by
  have hother : spell.ProcMask ≠ flags.ProcMaskMeleeMHAuto →
      spell.ProcMask ≠ flags.ProcMaskMeleeOHAuto →
      OnSpellHitDealt flags aura unit sim spell result = .ok unit := by
    intro h₁ h₂
    unfold OnSpellHitDealt
    by_cases hbar : unit.currentPowerBar ≠ .RageBar
    · rw [if_pos hbar]
    · rw [if_neg hbar]
      by_cases hmiss : flags.Matches result.Outcome flags.OutcomeMiss = true
      · rw [if_pos hmiss]
      · rw [if_neg hmiss, if_pos ⟨h₁, h₂⟩]
  refine ⟨?_, hother, ?_, ?_⟩
  · intro hne
    by_contra hnot
    apply hne
    unfold OnSpellHitDealt
    by_cases hbar : unit.currentPowerBar ≠ .RageBar
    · rw [if_pos hbar]
    · rw [if_neg hbar]
      by_cases hmiss : flags.Matches result.Outcome flags.OutcomeMiss = true
      · rw [if_pos hmiss]
      · rw [if_neg hmiss]
        by_cases hproc : spell.ProcMask ≠ flags.ProcMaskMeleeMHAuto ∧
            spell.ProcMask ≠ flags.ProcMaskMeleeOHAuto
        · rw [if_pos hproc]
        · exfalso
          apply hnot
          refine ⟨not_not.mp hbar, by simpa using hmiss, ?_⟩
          by_contra hno
          rw [not_or] at hno
          exact hproc hno
  · intro a b c hMH hOH hc hmask
    obtain ⟨h₁, h₂⟩ := two_bits_ne_one_bit a b c hc
    apply hother
    · rw [hmask, hMH]
      exact h₁
    · rw [hmask, hMH, hOH]
      exact h₂
  · intro hbar hmiss hauto metrics hm
    have hproc : ¬ (spell.ProcMask ≠ flags.ProcMaskMeleeMHAuto ∧
        spell.ProcMask ≠ flags.ProcMaskMeleeOHAuto) := by
      rintro ⟨h₁, h₂⟩
      rcases hauto with h | h
      · exact h₁ h
      · exact h₂ h
    simp only [OnSpellHitDealt, hbar, ne_eq, not_true_eq_false, if_false, hmiss, hproc, hm,
      Bool.false_eq_true]

/-- Witness of C32: Heroic Strike (proc mask `16 | 4`, main-hand special and main-hand
auto) landing for 200 damage on the sample unit leaves the unit as it was. -/
theorem OnSpellHitDealt_only_for_auto_attacks_witness :
    OnSpellHitDealt sampleFlags ⟨GetRageConversion 60, sampleMetrics⟩ sampleRageUnit sampleSim
        sampleHeroicStrike ⟨0, 200, 200⟩ = .ok sampleRageUnit ∧
    sampleHeroicStrike.ProcMask = 1 <<< 4 ||| 1 <<< 2 :=
  ⟨(OnSpellHitDealt_only_for_auto_attacks sampleFlags ⟨GetRageConversion 60, sampleMetrics⟩
      sampleRageUnit sampleSim sampleHeroicStrike ⟨0, 200, 200⟩).2.2.1 2 3 4 rfl rfl
      (by decide) rfl, rfl⟩

/-! ## The refund and the power-cost modifiers -/

/-- A rewrite of one spell that keeps a projection keeps the projections of the list. -/
lemma map_modifySpell {α : Type} (proj : Spell → α) (f : Spell → Spell)
    (hf : ∀ spell, proj (f spell) = proj spell) :
    ∀ (spells : List Spell) (idx : Nat), (modifySpell f spells idx).map proj = spells.map proj
  | [], _ => rfl
  | spell :: rest, 0 => by simp [modifySpell, hf]
  | spell :: rest, idx + 1 => by simp [modifySpell, map_modifySpell proj f hf rest idx]

/-- A loop of rewrites that keep a projection keeps the projections of the list. -/
lemma map_forEachSpell {α : Type} (proj : Spell → α) (f : Spell → Spell)
    (hf : ∀ spell, proj (f spell) = proj spell) (affected : List Nat) :
    ∀ spells : List Spell, (forEachSpell f affected spells).map proj = spells.map proj := by
  induction affected with
  | nil => intro spells; rfl
  | cons idx rest ih =>
    intro spells
    have hstep : forEachSpell f (idx :: rest) spells
        = forEachSpell f rest (modifySpell f spells idx) := rfl
    rw [hstep, ih, map_modifySpell proj f hf]

/-- When `Apply` and `Remove` of the mod keep a projection of the spells, every sequence
of operations keeps it: the projections afterwards are those of the spells of before
followed by those of the spells registered since, as they were registered. -/
lemma runModOps_map {α : Type} (proj : Spell → α) (flag : Nat) (apply remove : SpellModApply)
    (hA : ∀ values spell, proj (apply values spell) = proj spell)
    (hR : ∀ values spell, proj (remove values spell) = proj spell) (ops : List ModOp) :
    ∀ st : ModState, st.mod.Apply = apply → st.mod.Remove = remove →
      (runModOps flag st ops).spells.map proj = (st.spells ++ registeredSpells ops).map proj := by
  induction ops with
  | nil => intro st _ _; simp [runModOps, registeredSpells]
  | cons op rest ih =>
    intro st hApply hRemove
    have hstep : runModOps flag st (op :: rest) = runModOps flag (ModOp.run flag st op) rest :=
      rfl
    have hAct : ∀ st₁ : ModState, st₁.mod.Apply = apply →
        (Activate st₁).spells.map proj = st₁.spells.map proj := by
      intro st₁ h₁
      unfold Activate
      split_ifs
      · rfl
      · show (forEachSpell _ _ _).map proj = _
        rw [h₁]
        exact map_forEachSpell proj _ (hA _) _ _
    have hDeact : ∀ st₁ : ModState, st₁.mod.Remove = remove →
        (Deactivate st₁).spells.map proj = st₁.spells.map proj := by
      intro st₁ h₁
      unfold Deactivate
      split_ifs
      · show (forEachSpell _ _ _).map proj = _
        rw [h₁]
        exact map_forEachSpell proj _ (hR _) _ _
      · rfl
    have hU : ∀ upd : SpellMod → SpellMod, (∀ mod, (upd mod).Apply = mod.Apply) →
        (Activate { Deactivate st with mod := upd (Deactivate st).mod }).spells.map proj
          = st.spells.map proj := by
      intro upd hupd
      rw [hAct _ ((hupd _).trans ((Deactivate_functions st).1.trans hApply))]
      exact hDeact st hRemove
    obtain ⟨hA₁, hR₁, -⟩ := runModOps_functions flag [op] st
    have hA₂ : (ModOp.run flag st op).mod.Apply = apply := hA₁.trans hApply
    have hR₂ : (ModOp.run flag st op).mod.Remove = remove := hR₁.trans hRemove
    rw [hstep, ih _ hA₂ hR₂]
    cases op with
    | RegisterSpell spell =>
      show (((RegisterSpell flag st spell).spells ++ registeredSpells rest).map proj) = _
      have hreg : (RegisterSpell flag st spell).spells.map proj
          = (st.spells ++ [spell]).map proj := by
        rw [RegisterSpell_eq]
        split_ifs
        · show (modifySpell _ _ _).map proj = _
          rw [hApply]
          exact map_modifySpell proj _ (hA _) _ _
        · rfl
        · rfl
      simp only [List.map_append, hreg, registeredSpells, List.map_cons, List.map_nil,
        List.append_assoc, List.singleton_append]
    | Activate =>
      show (((Activate st).spells ++ registeredSpells rest).map proj) = _
      simp only [List.map_append, hAct st hApply, registeredSpells]
    | Deactivate =>
      show (((Deactivate st).spells ++ registeredSpells rest).map proj) = _
      simp only [List.map_append, hDeact st hRemove, registeredSpells]
    | UpdateIntValue value =>
      show (((UpdateIntValue st value).spells ++ registeredSpells rest).map proj) = _
      have h : (UpdateIntValue st value).spells.map proj = st.spells.map proj := by
        unfold UpdateIntValue
        split_ifs
        · exact hU (fun mod => { mod with intValue := value }) fun _ => rfl
        · rfl
      simp only [List.map_append, h, registeredSpells]
    | UpdateTimeValue value =>
      show (((UpdateTimeValue st value).spells ++ registeredSpells rest).map proj) = _
      have h : (UpdateTimeValue st value).spells.map proj = st.spells.map proj := by
        unfold UpdateTimeValue
        split_ifs
        · exact hU (fun mod => { mod with timeValue := value }) fun _ => rfl
        · rfl
      simp only [List.map_append, h, registeredSpells]
    | UpdateFloatValue value =>
      show (((UpdateFloatValue st value).spells ++ registeredSpells rest).map proj) = _
      have h : (UpdateFloatValue st value).spells.map proj = st.spells.map proj := by
        unfold UpdateFloatValue
        split_ifs
        · exact hU (fun mod => { mod with floatValue := value }) fun _ => rfl
        · rfl
      simp only [List.map_append, h, registeredSpells]

/-- The functions of a mod built by `buildMod` for one of the two power-cost kinds. -/
lemma buildMod_PowerCost (config : SpellModConfig) (mod : SpellMod)
    (hbuild : buildMod config = .ok mod) :
    (config.Kind = SpellMod_PowerCost_Pct →
      mod.Apply = applyPowerCostPercent ∧ mod.Remove = removePowerCostPercent) ∧
    (config.Kind = SpellMod_PowerCost_Flat →
      mod.Apply = applyPowerCostFlat ∧ mod.Remove = removePowerCostFlat) := by
  constructor
  · intro hkind
    have hne : SpellMod_PowerCost_Pct ≠ SpellMod_Custom := by decide
    have hmap : spellModMap SpellMod_PowerCost_Pct
        = some ⟨some applyPowerCostPercent, some removePowerCostPercent⟩ := rfl
    unfold buildMod at hbuild
    rw [hkind] at hbuild
    simp only [hmap, hne, if_false, Option.getD_some, Except.ok.injEq] at hbuild
    subst hbuild
    exact ⟨rfl, rfl⟩
  · intro hkind
    have hne : SpellMod_PowerCost_Flat ≠ SpellMod_Custom := by decide
    have hmap : spellModMap SpellMod_PowerCost_Flat
        = some ⟨some applyPowerCostFlat, some removePowerCostFlat⟩ := rfl
    unfold buildMod at hbuild
    rw [hkind] at hbuild
    simp only [hmap, hne, if_false, Option.getD_some, Except.ok.injEq] at hbuild
    subst hbuild
    exact ⟨rfl, rfl⟩

/-- The four power-cost functions leave the cost functions of the spell alone. -/
lemma powerCost_costFunctions (values : SpellModValues) (spell : Spell) :
    (applyPowerCostPercent values spell).costFunctions = spell.costFunctions ∧
    (removePowerCostPercent values spell).costFunctions = spell.costFunctions ∧
    (applyPowerCostFlat values spell).costFunctions = spell.costFunctions ∧
    (removePowerCostFlat values spell).costFunctions = spell.costFunctions := by
  unfold applyPowerCostPercent removePowerCostPercent applyPowerCostFlat removePowerCostFlat
    Spell.costFunctions
  cases h : spell.Cost <;> simp [h]

/-- Adding a truncated value other than zero to an `int32` field changes the field. -/
lemma wrapInt32_add_ne (field value : Int) (hv : wrapInt32 value ≠ 0) :
    wrapInt32 (field + wrapInt32 value) ≠ field := by
  have hr := wrapInt32_inRange value
  unfold InRange32 at hr
  unfold wrapInt32 at hv hr ⊢
  omega

/-- C31: take a mod built by `buildMod` for `SpellMod_PowerCost_Pct` or
`SpellMod_PowerCost_Flat`.  Over every sequence of registrations, activations,
deactivations and updates, every spell keeps its cost functions; so a spell whose cost
functions are those built by `newRageCost` from `options` still carries that `RageCost`,
whose `Refund`, the amount `IssueRefund` adds, is `options.Refund * options.Cost`.  What
`Apply` changes is `Cost.Multiplier` (percent kind) or `Cost.FlatModifier` (flat kind), by
the stored value truncated to `int32`, and the field does change when that truncated value
is not zero. -/
theorem refund_is_fixed_at_construction (flag : Nat) (config : SpellModConfig)
    (mod₀ : SpellMod) (st : ModState) (ops : List ModOp)
    (hbuild : buildMod config = .ok mod₀)
    (hkind : config.Kind = SpellMod_PowerCost_Pct ∨ config.Kind = SpellMod_PowerCost_Flat)
    (hApply : st.mod.Apply = mod₀.Apply) (hRemove : st.mod.Remove = mod₀.Remove) :
    (runModOps flag st ops).spells.map Spell.costFunctions
      = (st.spells ++ registeredSpells ops).map Spell.costFunctions ∧
    (∀ (idx : Nat) (spell : Spell) (cost : SpellCost) (unit₀ : Unit) (src : Spell)
        (options : RageCostOptions),
      st.spells[idx]? = some spell → spell.Cost = some cost →
      cost.SpellCostFunctions = (newRageCost unit₀ src options).SpellCostFunctions →
      ∃ spell₁ cost₁ rc, (runModOps flag st ops).spells[idx]? = some spell₁ ∧
        spell₁.Cost = some cost₁ ∧ cost₁.SpellCostFunctions = .RageCost rc ∧
        (newRageCost unit₀ src options).SpellCostFunctions = .RageCost rc ∧
        rc.Refund = options.Refund * options.Cost) ∧
    (∀ (values : SpellModValues) (spell : Spell) (cost : SpellCost), spell.Cost = some cost →
      ∃ cost₁, (mod₀.Apply values spell).Cost = some cost₁ ∧
        cost₁.SpellCostFunctions = cost.SpellCostFunctions ∧ cost₁.BaseCost = cost.BaseCost ∧
        (config.Kind = SpellMod_PowerCost_Pct →
          cost₁.Multiplier = wrapInt32 (cost.Multiplier + wrapInt32 values.intValue) ∧
          cost₁.FlatModifier = cost.FlatModifier) ∧
        (config.Kind = SpellMod_PowerCost_Flat →
          cost₁.FlatModifier = wrapInt32 (cost.FlatModifier + wrapInt32 values.intValue) ∧
          cost₁.Multiplier = cost.Multiplier)) ∧
    (∀ field value : Int, InRange32 field → wrapInt32 value ≠ 0 →
      wrapInt32 (field + wrapInt32 value) ≠ field) := by
  obtain ⟨hpct, hflat⟩ := buildMod_PowerCost config mod₀ hbuild
  have hneq : SpellMod_PowerCost_Pct ≠ SpellMod_PowerCost_Flat := by decide
  have hframe : (runModOps flag st ops).spells.map Spell.costFunctions
      = (st.spells ++ registeredSpells ops).map Spell.costFunctions := by
    rcases hkind with hk | hk
    · obtain ⟨ha, hr⟩ := hpct hk
      exact runModOps_map Spell.costFunctions flag _ _
        (fun values spell => (powerCost_costFunctions values spell).1)
        (fun values spell => (powerCost_costFunctions values spell).2.1) ops st
        (hApply.trans ha) (hRemove.trans hr)
    · obtain ⟨ha, hr⟩ := hflat hk
      exact runModOps_map Spell.costFunctions flag _ _
        (fun values spell => (powerCost_costFunctions values spell).2.2.1)
        (fun values spell => (powerCost_costFunctions values spell).2.2.2) ops st
        (hApply.trans ha) (hRemove.trans hr)
  refine ⟨hframe, ?_, ?_, fun field value _ hv => wrapInt32_add_ne field value hv⟩
  · intro idx spell cost unit₀ src options hspell hcost hfun
    have hget := congrArg (fun l : List (Option SpellCostFunctions) => l[idx]?) hframe
    simp only [List.getElem?_map, List.map_append] at hget
    have hlt : idx < st.spells.length := by
      by_contra hge
      rw [List.getElem?_eq_none (not_lt.mp hge)] at hspell
      cases hspell
    rw [List.getElem?_append_left (by simpa using hlt), List.getElem?_map, hspell] at hget
    cases hs₁ : (runModOps flag st ops).spells[idx]? with
    | none => simp [hs₁] at hget
    | some spell₁ =>
      simp only [hs₁, Option.map_some', Option.some.injEq, Spell.costFunctions, hcost] at hget
      cases hc₁ : spell₁.Cost with
      | none => simp [hc₁] at hget
      | some cost₁ =>
        simp only [hc₁, Option.map_some', Option.some.injEq] at hget
        have hnew := newRageCost_rageCost unit₀ src options
        exact ⟨spell₁, cost₁, _, rfl, hc₁, hget.trans (hfun.trans hnew), hnew, rfl⟩
  · intro values spell cost hcost
    rcases hkind with hk | hk
    · rw [(hpct hk).1]
      refine ⟨{ cost with
        Multiplier := wrapInt32 (cost.Multiplier + wrapInt32 values.intValue) }, ?_, rfl, rfl,
        fun _ => ⟨rfl, rfl⟩, fun h => absurd (hk.symm.trans h) hneq⟩
      simp [applyPowerCostPercent, hcost]
    · rw [(hflat hk).1]
      refine ⟨{ cost with
        FlatModifier := wrapInt32 (cost.FlatModifier + wrapInt32 values.intValue) }, ?_, rfl,
        rfl, fun h => absurd (h.symm.trans hk) hneq, fun _ => ⟨rfl, rfl⟩⟩
      simp [applyPowerCostFlat, hcost]

/-- Witness of C31: Heroic Strike (cost 15, refund 0.8) is registered on a unit with the
flat power-cost mod of `-5`, which is then activated: the flat modifier of its cost is
`-5`, and its cost functions, with the refund, are those it was registered with. -/
theorem refund_is_fixed_at_construction_witness :
    (runModOps sampleSpellFlagNoSpellMods (ModState.init [] samplePowerCostFlatMod)
      [ModOp.RegisterSpell sampleHeroicStrike, ModOp.Activate]).spells.map Spell.costFunctions
      = [sampleHeroicStrike].map Spell.costFunctions ∧
    (runModOps sampleSpellFlagNoSpellMods (ModState.init [] samplePowerCostFlatMod)
      [ModOp.RegisterSpell sampleHeroicStrike, ModOp.Activate]).spells.map
        (fun spell => spell.Cost.map SpellCost.FlatModifier) = [some (-5)] :=
  ⟨(refund_is_fixed_at_construction sampleSpellFlagNoSpellMods samplePowerCostFlatConfig
      samplePowerCostFlatMod (ModState.init [] samplePowerCostFlatMod)
      [ModOp.RegisterSpell sampleHeroicStrike, ModOp.Activate] rfl (Or.inr rfl) rfl rfl).1,
    by decide⟩

/-! ## The queue auras of Heroic Strike and Cleave -/

/-- One operation on the queue auras returns and keeps the invariant. -/
lemma QueueInvariant_run (warrior : Warrior) (op : QueueOp) (h : warrior.QueueInvariant) :
    ∃ warrior₁, op.run warrior = .ok warrior₁ ∧ warrior₁.QueueInvariant := by
  obtain ⟨hs, cl, cur, sp, dw⟩ := warrior
  obtain ⟨h₁, h₂, h₃, h₄⟩ := h
  have hHS := h₂ .HeroicStrikeQueue
  have hCl := h₂ .CleaveQueue
  simp only [QueueAura.IsActive] at h₁ hHS hCl h₃ h₄
  have hinv : ∀ w : Warrior,
      (¬ (w.heroicStrikeQueueActive = true ∧ w.cleaveQueueActive = true) ∧
        (w.curQueueAura = some .HeroicStrikeQueue ↔ w.heroicStrikeQueueActive = true) ∧
        (w.curQueueAura = some .CleaveQueue ↔ w.cleaveQueueActive = true) ∧
        w.curQueuedAutoSpell = w.curQueueAura.map QueueAura.srcSpell ∧
        (w.DisableDWMissPenalty = true ↔ w.curQueueAura ≠ none)) → w.QueueInvariant := by
    intro w ⟨a, b, c, d, e⟩
    refine ⟨a, ?_, d, e⟩
    intro aura
    cases aura
    · exact b
    · exact c
  rcases cur with _ | _ | _ <;> cases hs <;> cases cl <;> simp at hHS hCl h₁
  all_goals
    simp only [Option.map] at h₃
    subst h₃
    cases dw <;> simp at h₄
  all_goals
    rcases op with aura | aura | _ | canCast
    · cases aura <;>
        exact ⟨_, rfl, hinv _ (by
          simp [QueueAura.Activate, QueueAura.IsActive, QueueAura.setActive, queueAuraOnGain,
            QueueAura.Deactivate, queueAuraOnExpire, QueueAura.srcSpell])⟩
    · cases aura <;>
        exact ⟨_, rfl, hinv _ (by
          simp [QueueAura.IsActive, QueueAura.setActive, QueueAura.Deactivate,
            queueAuraOnExpire, QueueAura.srcSpell])⟩
    · exact ⟨_, rfl, hinv _ (by
        simp [deactivateQueueAura, QueueAura.IsActive, QueueAura.setActive,
          QueueAura.Deactivate, queueAuraOnExpire, QueueAura.srcSpell])⟩
    · cases canCast <;>
        exact ⟨_, rfl, hinv _ (by
          simp [QueueAura.IsActive, QueueAura.setActive, QueueAura.Deactivate,
            queueAuraOnExpire, QueueAura.srcSpell])⟩

/-- C33: from a state in which at most one queue aura is active, `curQueueAura` is the
active queue aura (nil when none is), `curQueuedAutoSpell` is its source spell (nil when
none) and `DisableDWMissPenalty` is set exactly when `curQueueAura` is not nil, every
sequence of activations and deactivations of the Heroic Strike and Cleave queue auras
(the pending actions of the queue spells, deactivations, the end of `ApplyEffects` and
`TryHSOrCleave`) runs without a panic and ends in a state of which the same holds. -/
theorem queue_auras_keep_one_current (warrior₀ : Warrior) (ops : List QueueOp)
    (h : warrior₀.QueueInvariant) :
    ∃ warrior, runQueueOps warrior₀ ops = .ok warrior ∧
      ¬ (warrior.heroicStrikeQueueActive = true ∧ warrior.cleaveQueueActive = true) ∧
      (∀ aura : QueueAura, warrior.curQueueAura = some aura ↔ aura.IsActive warrior = true) ∧
      warrior.curQueuedAutoSpell = warrior.curQueueAura.map QueueAura.srcSpell ∧
      (warrior.DisableDWMissPenalty = true ↔ warrior.curQueueAura ≠ none) := by
  induction ops generalizing warrior₀ with
  | nil => exact ⟨warrior₀, rfl, h⟩
  | cons op rest ih =>
    obtain ⟨warrior₁, hrun, hinv⟩ := QueueInvariant_run warrior₀ op h
    obtain ⟨warrior, hrest, hfinal⟩ := ih warrior₁ hinv
    refine ⟨warrior, ?_, hfinal⟩
    simp only [runQueueOps, hrun]
    exact hrest

/-- Witness of C33: from the warrior without a queued spell, the Heroic Strike queue aura
is activated, then the Cleave queue aura, then `TryHSOrCleave` finds Cleave castable: the
Cleave queue aura alone is active, it is the current one, Cleave is the queued spell and
the dual-wield miss penalty is off. -/
theorem queue_auras_keep_one_current_witness :
    runQueueOps sampleWarrior
        [.Activate .HeroicStrikeQueue, .Activate .CleaveQueue, .TryHSOrCleave true]
      = .ok ⟨false, true, some .CleaveQueue, some .Cleave, true⟩ ∧
    ∃ warrior, runQueueOps sampleWarrior
        [.Activate .HeroicStrikeQueue, .Activate .CleaveQueue, .TryHSOrCleave true]
      = .ok warrior ∧
      ¬ (warrior.heroicStrikeQueueActive = true ∧ warrior.cleaveQueueActive = true) ∧
      (∀ aura : QueueAura, warrior.curQueueAura = some aura ↔ aura.IsActive warrior = true) ∧
      warrior.curQueuedAutoSpell = warrior.curQueueAura.map QueueAura.srcSpell ∧
      (warrior.DisableDWMissPenalty = true ↔ warrior.curQueueAura ≠ none) :=
  ⟨rfl, queue_auras_keep_one_current sampleWarrior
    [.Activate .HeroicStrikeQueue, .Activate .CleaveQueue, .TryHSOrCleave true]
    ⟨by decide, fun aura => by cases aura <;> decide, rfl, by decide⟩⟩

end core
